import Mathlib

/-!
# Paper-trading execution engine: PaperTradingBot and UltraTradingBot

Shallow embedding of `src/paper-trading-bot.js` and `src/ultra-trading-bot.js`.

Conventions of the embedding

* JavaScript numbers are modelled by exact rationals `ℚ`: every statement below is about the
  arithmetic the code writes down, without floating-point rounding.  Division by zero
  (`Infinity`/`NaN` in JavaScript) is outside the model; statements that divide assume the
  divisor is non-zero (positive prices, positive peak equity).
* A JavaScript object used as a map (`positions`, `priceFeeds`, the candle buffers) is an
  association list in insertion order; an absent key is `none` (`undefined`).
* `x || 0` on a possibly absent number is `Option.getD x 0`.
* Time stamps and purely diagnostic fields (`timestamp`, `rsi`, `signal`, `regime`) are left out;
  `closedAt` is kept as the truth value the code tests with `!t.closedAt`.
* Console output and dashboard updates do not touch the portfolio and are left out.
* The stateful methods are functions from the bot state to the new bot state; a method that
  also returns a flag returns the pair of the new state and the flag.
* Ticks are processed one at a time, in arrival order.
* The signal engine of the ultra bot (`ultraLSTM.generateSignal`) is an external collaborator:
  its answer for a tick is an input of `UltraTradingBot.onNewCandle`.  The paper bot's
  `generateSignal` (RSI rule) is part of the embedding.
-/

namespace Trading

/-- Trading pair symbol, the key of the JavaScript maps. -/
abbrev Pair := String

/-- The `action` field of signals and trade records. -/
inductive Action where
  | BUY
  | SELL
  | HOLD
deriving DecidableEq, Repr

/-- One OHLCV bar as built in the WebSocket `message` handler. -/
structure Candle where
  time : Nat
  openPrice : ℚ
  high : ℚ
  low : ℚ
  close : ℚ
  volume : ℚ
  isClosed : Bool
deriving DecidableEq, Repr

/-- JavaScript `obj[key]` on a map object: `none` stands for `undefined`. -/
def jsGet {β : Type} (m : List (Pair × β)) (k : Pair) : Option β :=
  match m with
  | [] => none
  | (k', v) :: rest => if k' = k then some v else jsGet rest k

/-- JavaScript `obj[key] = v`: overwrite in place, or append a new key at the end. -/
def jsSet {β : Type} (m : List (Pair × β)) (k : Pair) (v : β) : List (Pair × β) :=
  match m with
  | [] => [(k, v)]
  | (k', v') :: rest => if k' = k then (k, v) :: rest else (k', v') :: jsSet rest k v

/-- The guard `!positions[pair] || positions[pair] <= 0`: absent, zero or negative. -/
def noOpenPosition (positions : List (Pair × ℚ)) (pair : Pair) : Bool :=
  match jsGet positions pair with
  | none => true
  | some q => decide (q = 0) || decide (q ≤ 0)

/-- The sum `Σ qty * (priceFeeds[p] || 0)` over `Object.entries(positions)`. -/
def positionsValue (positions priceFeeds : List (Pair × ℚ)) : ℚ :=
  positions.foldl (fun sum e => sum + e.2 * (jsGet priceFeeds e.1).getD 0) 0

/-- Push a candle on a pair's buffer and drop the oldest one beyond `cap` (`push` then `shift`). -/
def pushCandle (cap : Nat) (buffers : List (Pair × List Candle)) (pair : Pair) (candle : Candle) :
    List (Pair × List Candle) :=
  let pushed := (jsGet buffers pair).getD [] ++ [candle]
  jsSet buffers pair (if pushed.length > cap then pushed.tail else pushed)

/-- Every quantity stored in a `positions` map is at least 0. -/
def PositionsNonneg (positions : List (Pair × ℚ)) : Prop :=
  ∀ pair q, jsGet positions pair = some q → 0 ≤ q

/-- The last `min(n, cap)` of `n` candles, in arrival order (the newest one last). -/
def lastCandles (cap : Nat) (candles : List Candle) : List Candle :=
  candles.drop (candles.length - cap)

namespace PaperTradingBot

/-- A signal object as read by `executeTrade`.  `quantity` is the field the stop-loss and
take-profit signals of `checkStopLossAndTakeProfit` carry; `executeTrade` never reads it. -/
structure Signal where
  action : Action
  confidence : ℚ
  quantity : Option ℚ := none
deriving DecidableEq, Repr

/-- A record of `portfolio.trades` (BUY and SELL records share the shape; absent fields are
`none`, `closedAt` absent is `false`). -/
structure Trade where
  pair : Pair
  action : Action
  entryPrice : ℚ
  quantity : ℚ
  confidence : ℚ
  exitPrice : Option ℚ := none
  commission : Option ℚ := none
  cost : Option ℚ := none
  profit : Option ℚ := none
  returnPercent : Option ℚ := none
  closedAt : Bool := false
  openCommission : Option ℚ := none
  closeCommission : Option ℚ := none
  totalCommission : Option ℚ := none
deriving DecidableEq, Repr

/-- The field `this.portfolio`. -/
structure Portfolio where
  cash : ℚ
  positions : List (Pair × ℚ)
  trades : List Trade
  totalProfit : ℚ
  winTrades : Nat
  lossTrades : Nat
  initialCapital : ℚ
  totalTrades : Nat
deriving DecidableEq, Repr

/-- The mutable fields of a `PaperTradingBot` the trading logic reads and writes. -/
structure Bot where
  portfolio : Portfolio
  priceFeeds : List (Pair × ℚ)
  candleHistory : List (Pair × List Candle)
deriving DecidableEq, Repr

/-- The constructor: `cash = config.initialCapital || 10000`, nothing else set. -/
def new (initialCapital : ℚ) : Bot :=
  let cap := if initialCapital = 0 then 10000 else initialCapital
  { portfolio :=
      { cash := cap, positions := [], trades := [], totalProfit := 0, winTrades := 0,
        lossTrades := 0, initialCapital := cap, totalTrades := 0 },
    priceFeeds := [],
    candleHistory := [] }

/-- The method `calculatePositionSize(pair, currentPrice, confidence)`. -/
def calculatePositionSize (b : Bot) (_pair : Pair) (currentPrice confidence : ℚ) : ℚ :=
  let portfolioValue := b.portfolio.cash + positionsValue b.portfolio.positions b.priceFeeds
  let baseAllocation := portfolioValue * 0.02
  let confidenceMultiplier := min confidence 1
  let positionCost := baseAllocation * (0.5 + confidenceMultiplier * 1.5)
  let actualCost := min positionCost (b.portfolio.cash * 0.3)
  if actualCost < 50 then 0
  else
    let positionSize := actualCost / currentPrice
    max (((⌊positionSize * 100000000⌋ : ℤ) : ℚ) / 100000000) 0

/-- The backwards scan for the most recent record with
`t.pair === pair && t.action === 'BUY' && !t.closedAt`. -/
def findOpenBuy (trades : List Trade) (pair : Pair) : Option Trade :=
  trades.reverse.find? (fun t => decide (t.pair = pair) && decide (t.action = Action.BUY) && !t.closedAt)

/-- The method `executeTrade(pair, signal, currentPrice)`. -/
def executeTrade (b : Bot) (pair : Pair) (signal : Signal) (currentPrice : ℚ) : Bot :=
  if pair = "" ∨ currentPrice ≤ 0 then b
  else if signal.action = Action.BUY ∧ signal.confidence < 0.70 then b
  else
    let positionSize := calculatePositionSize b pair currentPrice signal.confidence
    if positionSize = 0 then b
    else
      match signal.action with
      | Action.BUY =>
        let cost := positionSize * currentPrice
        let commissionRate : ℚ := 0.001
        let commission := cost * commissionRate
        let totalCost := cost + commission
        if totalCost > b.portfolio.cash then b
        else
          let trade : Trade :=
            { pair := pair, action := signal.action, entryPrice := currentPrice,
              quantity := positionSize, confidence := signal.confidence,
              commission := some commission, cost := some cost }
          { b with portfolio :=
              { b.portfolio with
                cash := b.portfolio.cash - totalCost,
                positions := jsSet b.portfolio.positions pair
                  ((jsGet b.portfolio.positions pair).getD 0 + positionSize),
                trades := b.portfolio.trades ++ [trade] } }
      | Action.SELL =>
        if noOpenPosition b.portfolio.positions pair then b
        else
          let held := (jsGet b.portfolio.positions pair).getD 0
          let actualPositionSize := min positionSize held
          let revenue := actualPositionSize * currentPrice
          let commissionRate : ℚ := 0.001
          let closeCommission := revenue * commissionRate
          let netRevenue := revenue - closeCommission
          let cash' := b.portfolio.cash + netRevenue
          let positions' := jsSet b.portfolio.positions pair (held - actualPositionSize)
          match findOpenBuy b.portfolio.trades pair with
          | some buyTrade =>
            let openCommission := buyTrade.commission.getD 0
            let totalCommission := openCommission + closeCommission
            let profit := netRevenue - buyTrade.entryPrice * actualPositionSize - openCommission
            let returnPercent := profit / (buyTrade.entryPrice * actualPositionSize) * 100
            let trade : Trade :=
              { pair := pair, action := signal.action, exitPrice := some currentPrice,
                quantity := actualPositionSize, confidence := signal.confidence,
                profit := some profit, returnPercent := some returnPercent,
                entryPrice := buyTrade.entryPrice, closedAt := true,
                openCommission := some openCommission,
                closeCommission := some closeCommission,
                totalCommission := some totalCommission }
            { b with portfolio :=
                { b.portfolio with
                  cash := cash',
                  positions := positions',
                  totalTrades := b.portfolio.totalTrades + 1,
                  winTrades := if profit > 0 then b.portfolio.winTrades + 1 else b.portfolio.winTrades,
                  lossTrades := if profit > 0 then b.portfolio.lossTrades else b.portfolio.lossTrades + 1,
                  totalProfit := b.portfolio.totalProfit + profit,
                  trades := b.portfolio.trades ++ [trade] } }
          | none =>
            { b with portfolio := { b.portfolio with cash := cash', positions := positions' } }
      | Action.HOLD => b

/-- The local `actualPositionSize` of the SELL branch of `executeTrade`: the quantity filled. -/
def actualPositionSize (b : Bot) (pair : Pair) (signal : Signal) (currentPrice : ℚ) : ℚ :=
  min (calculatePositionSize b pair currentPrice signal.confidence)
    ((jsGet b.portfolio.positions pair).getD 0)

/-- The local `profit` of the SELL branch of `executeTrade` against the entry `buyTrade`. -/
def sellProfit (b : Bot) (pair : Pair) (signal : Signal) (currentPrice : ℚ) (buyTrade : Trade) : ℚ :=
  (actualPositionSize b pair signal currentPrice * currentPrice
      - actualPositionSize b pair signal currentPrice * currentPrice * 0.001)
    - buyTrade.entryPrice * actualPositionSize b pair signal currentPrice
    - buyTrade.commission.getD 0

/-- The method `checkStopLossAndTakeProfit(pair, currentPrice)`: the new state and the returned
flag.  The stop-loss and take-profit signals carry `quantity: positions[pair]`. -/
def checkStopLossAndTakeProfit (b : Bot) (pair : Pair) (currentPrice : ℚ) : Bot × Bool :=
  match findOpenBuy b.portfolio.trades pair with
  | none => (b, false)
  | some openTrade =>
    if noOpenPosition b.portfolio.positions pair then (b, false)
    else
      let entryPrice := openTrade.entryPrice
      let percentChange := (currentPrice - entryPrice) / entryPrice * 100
      if percentChange < -1.5 then
        let stopLossTrade : Signal :=
          { action := Action.SELL, confidence := 1.0, quantity := jsGet b.portfolio.positions pair }
        (executeTrade b pair stopLossTrade currentPrice, true)
      else if percentChange > 3 then
        let takeProfitTrade : Signal :=
          { action := Action.SELL, confidence := 1.0, quantity := jsGet b.portfolio.positions pair }
        (executeTrade b pair takeProfitTrade currentPrice, true)
      else (b, false)

/-- The method `calculateRSI(pair, period)` over the stored candle history. -/
def calculateRSI (b : Bot) (pair : Pair) (period : Nat) : ℚ :=
  let history := (jsGet b.candleHistory pair).getD []
  if history.length < period + 1 then 50
  else
    let closes := (history.drop (history.length - (period + 1))).map Candle.close
    let changes := List.zipWith (fun prev cur => cur - prev) closes closes.tail
    let gains := changes.foldl (fun g change => if change > 0 then g + change else g) (0 : ℚ)
    let losses := changes.foldl (fun l change => if change > 0 then l else l + |change|) (0 : ℚ)
    let avgGain := gains / period
    let avgLoss := losses / period
    let rs := if avgLoss = 0 then 100 else avgGain / avgLoss
    let rsi := 100 - 100 / (1 + rs)
    max 0 (min 100 rsi)

/-- The method `generateSignal(pair, candle)`: BUY on `rsi < 30` and a rising candle, else HOLD. -/
def generateSignal (b : Bot) (pair : Pair) (candle : Candle) : Signal :=
  let rsi := calculateRSI b pair 14
  if rsi < 30 ∧ candle.close > candle.openPrice then
    { action := Action.BUY, confidence := min (0.70 + (30 - rsi) / 30 * 0.30) 1.0 }
  else
    { action := Action.HOLD, confidence := 0 }

/-- The first statements of `onNewCandle`: store the close as the pair's current price and push
the candle on its history (at most 100 candles kept). -/
def recordCandle (b : Bot) (pair : Pair) (candle : Candle) : Bot :=
  { b with
    priceFeeds := jsSet b.priceFeeds pair candle.close,
    candleHistory := pushCandle 100 b.candleHistory pair candle }

/-- The method `onNewCandle(pair, candle)`. -/
def onNewCandle (b : Bot) (pair : Pair) (candle : Candle) : Bot :=
  let b1 := recordCandle b pair candle
  let checked := checkStopLossAndTakeProfit b1 pair candle.close
  let slTpTriggered := checked.2
  let signal := generateSignal checked.1 pair candle
  if signal.action ≠ Action.HOLD ∧ slTpTriggered = false then
    executeTrade checked.1 pair signal candle.close
  else checked.1

/-- The state after a sequence of ticks delivered by the price feed, in arrival order. -/
def run (b : Bot) (ticks : List (Pair × Candle)) : Bot :=
  ticks.foldl (fun s tick => onNewCandle s tick.1 tick.2) b

/-- A candle with the given open and close, the high and low being the larger and the
smaller of the two. -/
def candle (openPrice close : ℚ) : Candle :=
  { time := 0, openPrice := openPrice, high := max openPrice close, low := min openPrice close,
    close := close, volume := 1, isClosed := true }

/-- Scenario: fourteen falling candles (closes 130, 128, ..., 104), then a rising candle that
closes at 100.  On the fifteenth tick the RSI is 0 and the candle rises: BUY with confidence 1. -/
def fallingThenBuy : List (Pair × Candle) :=
  (List.range 14).map (fun i => ("BTCUSDT", candle (131 - 2 * (i : ℚ)) (130 - 2 * (i : ℚ))))
    ++ [("BTCUSDT", candle 99 100)]

/-- Scenario state: capital 10000 after `fallingThenBuy` (4 units bought at 100, commission 0.4,
cash 9599.6). -/
def afterFirstBuy : Bot := run (new 10000) fallingThenBuy

/-- Scenario: after the first BUY a second rising candle closing at 99.5 (second BUY,
4.01913567 units), then a candle closing at 97.9, 1.608% below the entry price 99.5 of the most
recent BUY: the stop-loss sells. -/
def twoBuysThenStop : List (Pair × Candle) :=
  fallingThenBuy ++ [("BTCUSDT", candle 99 99.5), ("BTCUSDT", candle 98 97.9)]

/-- Total quantity of the BUY records of `pair` in a trade log. -/
def boughtQuantity (trades : List Trade) (pair : Pair) : ℚ :=
  ((trades.filter (fun t => decide (t.pair = pair) && decide (t.action = Action.BUY))).map
    Trade.quantity).sum

/-- Total quantity of the SELL records of `pair` in a trade log. -/
def soldQuantity (trades : List Trade) (pair : Pair) : ℚ :=
  ((trades.filter (fun t => decide (t.pair = pair) && decide (t.action = Action.SELL))).map
    Trade.quantity).sum

/-- The entry a SELL record of `pair` at index `j` of the log is closed against: the most recent
BUY record of the pair before `j`. -/
def entryIndexOf (trades : List Trade) (pair : Pair) (j : Nat) : Option Nat :=
  (List.range j).reverse.find? (fun i =>
    (trades[i]?).any (fun t => decide (t.pair = pair) && decide (t.action = Action.BUY)))

/-- Sum of the quantities of the SELL records closed against the record at index `i`. -/
def exitQuantityAgainst (trades : List Trade) (i : Nat) : ℚ :=
  (((List.range trades.length).filter (fun j =>
      (trades[j]?).any (fun t =>
        decide (t.action = Action.SELL) && decide (entryIndexOf trades t.pair j = some i)))).map
    (fun j => ((trades[j]?).map Trade.quantity).getD 0)).sum

/-- The no-oversell property per entry record: for every BUY record, the quantities of the SELL
records closed against it sum to at most its quantity. -/
def NoOversell (trades : List Trade) : Prop :=
  ∀ i ∈ List.range trades.length, ∀ t ∈ (trades[i]?).toList,
    t.action = Action.BUY → exitQuantityAgainst trades i ≤ t.quantity

instance (trades : List Trade) : Decidable (NoOversell trades) := by
  unfold NoOversell
  infer_instance

/-- Ledger consistency of the paper bot: per pair the position is the bought minus the sold
quantity and is not negative; BUY records are never marked closed; quantities are not negative. -/
structure LedgerConsistent (b : Bot) : Prop where
  position_eq : ∀ pair, (jsGet b.portfolio.positions pair).getD 0
    = boughtQuantity b.portfolio.trades pair - soldQuantity b.portfolio.trades pair
  position_nonneg : ∀ pair, 0 ≤ (jsGet b.portfolio.positions pair).getD 0
  buy_open : ∀ t ∈ b.portfolio.trades, t.action = Action.BUY → t.closedAt = false
  quantity_nonneg : ∀ t ∈ b.portfolio.trades, 0 ≤ t.quantity

/-- The profit formula with the entry commission `c` charged in proportion to the quantity `q`
closed out of the entry quantity `entryQuantity`: `(x - e)*q - c*(q/Q) - x*q*0.001`. -/
def proportionalProfit (x e q entryQuantity c : ℚ) : ℚ :=
  (x - e) * q - c * (q / entryQuantity) - x * q * 0.001

/-- Scenario: the ticks of `fallingThenBuy`, then a candle closing at 90 (10% below the entry). -/
def buyThenCrash : List (Pair × Candle) :=
  fallingThenBuy ++ [("BTCUSDT", candle 91 90)]

/-- The fixed-fraction policy: 2% of `base`, scaled by `0.5 + 1.5 * min(confidence, 1)` and
capped at 30% of `cash`; 0 when the cost is below 50, else the cost over the price rounded down
to 8 decimals. -/
def fixedFraction (base cash price confidence : ℚ) : ℚ :=
  if min (base * 0.02 * (0.5 + 1.5 * min confidence 1)) (cash * 0.3) < 50 then 0
  else
    ((⌊min (base * 0.02 * (0.5 + 1.5 * min confidence 1)) (cash * 0.3) / price * 100000000⌋ : ℤ)
      : ℚ) / 100000000

/-- The fixed-fraction policy on cash: both the 2% base and the 30% cap are taken from `cash`. -/
def fixedFractionOnCash (cash price confidence : ℚ) : ℚ :=
  fixedFraction cash cash price confidence

/-- The candles received for `pair` in a sequence of ticks, in arrival order. -/
def candlesOf (ticks : List (Pair × Candle)) (pair : Pair) : List Candle :=
  (ticks.filter (fun tick => decide (tick.1 = pair))).map (fun tick => tick.2)

/-- The exit (SELL) records of a trade log, in order. -/
def exits (trades : List Trade) : List Trade :=
  trades.filter (fun t => decide (t.action = Action.SELL))

/-- The statistics of the portfolio are those of its exit records: `totalTrades` is their
number, `winTrades` the number of those with `profit > 0`, `lossTrades` the number of the others,
and `totalProfit` the sum of their profits. -/
def StatsMatchLog (p : Portfolio) : Prop :=
  p.totalTrades = (exits p.trades).length ∧
  p.winTrades = (exits p.trades).countP (fun t => decide (0 < t.profit.getD 0)) ∧
  p.lossTrades = (exits p.trades).countP (fun t => !decide (0 < t.profit.getD 0)) ∧
  p.totalProfit = ((exits p.trades).map (fun t => t.profit.getD 0)).sum

end PaperTradingBot

namespace UltraLSTM85

/-- One entry of `entryExit.exit.takeProfit.partialLevels`. -/
structure PartialLevel where
  level : ℚ
  percentage : ℚ
deriving DecidableEq, Repr

/-- The object `entryExit.exit.stopLoss` of the UltraLSTM85 constructor. -/
structure StopLossConfig where
  atrMultiplier : ℚ
  minSL : ℚ
  maxSL : ℚ
deriving DecidableEq, Repr

/-- The object `entryExit.exit.takeProfit` of the UltraLSTM85 constructor. -/
structure TakeProfitConfig where
  atrMultiplier : ℚ
  minTP : ℚ
  maxTP : ℚ
  partialLevels : List PartialLevel
deriving DecidableEq, Repr

/-- The object `entryExit.exit.trailing` of the UltraLSTM85 constructor. -/
structure TrailingConfig where
  activation : ℚ
  trailingPercent : ℚ
deriving DecidableEq, Repr

/-- The values of `entryExit.exit.stopLoss`. -/
def stopLoss : StopLossConfig := { atrMultiplier := 2.0, minSL := 0.5, maxSL := 3.0 }

/-- The values of `entryExit.exit.takeProfit`. -/
def takeProfit : TakeProfitConfig :=
  { atrMultiplier := 3.0, minTP := 1.0, maxTP := 10.0,
    partialLevels :=
      [ { level := 0.5, percentage := 0.3 },
        { level := 1.0, percentage := 0.3 },
        { level := 2.0, percentage := 0.4 } ] }

/-- The values of `entryExit.exit.trailing`. -/
def trailing : TrailingConfig := { activation := 1.0, trailingPercent := 0.5 }

end UltraLSTM85

namespace UltraTradingBot

/-- A signal as read by `onNewCandle` and `executeTrade`: the action and the confidence. -/
structure Signal where
  action : Action
  confidence : ℚ
deriving DecidableEq, Repr

/-- A record of `portfolio.trades`.  `maxProfit` and `closedLevels` are the fields
`checkStopLossAndTakeProfit` writes on the open BUY record; a record built by the spread
`{...openTrade, ...}` inherits them. -/
structure Trade where
  pair : Pair
  action : Action
  entryPrice : ℚ
  quantity : ℚ
  confidence : Option ℚ := none
  commission : Option ℚ := none
  cost : Option ℚ := none
  exitPrice : Option ℚ := none
  profit : Option ℚ := none
  returnPercent : Option ℚ := none
  closedAt : Bool := false
  isStopLoss : Option Bool := none
  isPartial : Bool := false
  maxProfit : Option ℚ := none
  closedLevels : Option (List ℚ) := none
deriving DecidableEq, Repr

/-- The field `this.portfolio`. -/
structure Portfolio where
  initialCapital : ℚ
  cash : ℚ
  positions : List (Pair × ℚ)
  trades : List Trade
  totalProfit : ℚ
  winTrades : Nat
  lossTrades : Nat
  totalTrades : Nat
  peakEquity : ℚ
  maxDrawdown : ℚ
  currentDrawdown : ℚ
deriving DecidableEq, Repr

/-- The field `this.adaptiveParams`. -/
structure AdaptiveParams where
  confidenceThreshold : ℚ
  maxPositions : Nat
  positionSizeKelly : ℚ
  minVolatility : ℚ
  maxVolatility : ℚ
deriving DecidableEq, Repr

/-- The mutable fields of an `UltraTradingBot` the trading logic reads and writes. -/
structure Bot where
  portfolio : Portfolio
  priceFeeds : List (Pair × ℚ)
  priceBuffer : List (Pair × List Candle)
  adaptiveParams : AdaptiveParams
deriving DecidableEq, Repr

/-- The constructor: capital `config.initialCapital || 10000`, and for every configured pair an
empty price buffer and `positions[pair] = 0`. -/
def new (initialCapital : ℚ) (tradingPairs : List Pair) : Bot :=
  let cap := if initialCapital = 0 then 10000 else initialCapital
  { portfolio :=
      { initialCapital := cap, cash := cap,
        positions := tradingPairs.foldl (fun m pair => jsSet m pair 0) [],
        trades := [], totalProfit := 0, winTrades := 0, lossTrades := 0, totalTrades := 0,
        peakEquity := cap, maxDrawdown := 0, currentDrawdown := 0 },
    priceFeeds := [],
    priceBuffer := tradingPairs.foldl (fun m pair => jsSet m pair []) [],
    adaptiveParams :=
      { confidenceThreshold := 0.75, maxPositions := 8, positionSizeKelly := 0.25,
        minVolatility := 0.5, maxVolatility := 3.0 } }

/-- The method `getPortfolioValue()`. -/
def getPortfolioValue (b : Bot) : ℚ :=
  b.portfolio.cash + positionsValue b.portfolio.positions b.priceFeeds

/-- The method `updateDrawdown()`. -/
def updateDrawdown (b : Bot) : Bot :=
  let currentValue := getPortfolioValue b
  let peakEquity := if currentValue > b.portfolio.peakEquity then currentValue else b.portfolio.peakEquity
  let currentDrawdown := (peakEquity - currentValue) / peakEquity
  { b with portfolio :=
      { b.portfolio with
        peakEquity := peakEquity,
        currentDrawdown := currentDrawdown,
        maxDrawdown := max b.portfolio.maxDrawdown currentDrawdown } }

/-- The method `getAverageWinSize()`: mean profit of the last 100 winning records, default 10. -/
def getAverageWinSize (b : Bot) : ℚ :=
  let winsAll := b.portfolio.trades.filter (fun t => decide (0 < t.profit.getD 0))
  let wins := winsAll.drop (winsAll.length - 100)
  if wins.length > 0 then wins.foldl (fun sum t => sum + t.profit.getD 0) 0 / wins.length else 10

/-- The method `getAverageLossSize()`: absolute mean profit of the last 100 losing records,
default 5. -/
def getAverageLossSize (b : Bot) : ℚ :=
  let lossesAll := b.portfolio.trades.filter (fun t => decide (t.profit.getD 0 < 0))
  let losses := lossesAll.drop (lossesAll.length - 100)
  if losses.length > 0 then |losses.foldl (fun sum t => sum + t.profit.getD 0) 0 / losses.length|
  else 5

/-- The method `calculatePositionSizeKelly(pair, currentPrice)`. -/
def calculatePositionSizeKelly (b : Bot) (_pair : Pair) (currentPrice : ℚ) : ℚ :=
  let winRate : ℚ :=
    if b.portfolio.totalTrades > 0 then (b.portfolio.winTrades : ℚ) / b.portfolio.totalTrades
    else 0.6
  let avgWin := getAverageWinSize b
  let avgLoss := getAverageLossSize b
  if avgWin = 0 ∨ avgLoss = 0 then 0
  else
    let kellyFraction := (winRate * avgWin - (1 - winRate) * avgLoss) / avgWin
    let kelly := kellyFraction * b.adaptiveParams.positionSizeKelly
    let drawdown := b.portfolio.maxDrawdown
    let drawdownMultiplier := max 0.1 (1 - drawdown * 2)
    let portfolioValue := getPortfolioValue b
    let positionValue := portfolioValue * max 0 (min 0.4 (kelly * drawdownMultiplier))
    if positionValue < 50 then 0
    else positionValue / currentPrice

/-- The method `calculateATR(data, period)`.  `none` is the `TypeError` thrown when `data` is
empty (`data[data.length - 1]` is `undefined`). -/
def calculateATR (data : List Candle) (period : Nat) : Option ℚ :=
  if data.length < period then
    match data.getLast? with
    | none => none
    | some last => some (last.high - last.low)
  else
    let sumTR := (List.range period).foldl
      (fun sumTR k =>
        let i := data.length - period + k
        match data[i]? with
        | none => sumTR
        | some c =>
          let prevClose := if i > 0 then ((data[i - 1]?).map Candle.close).getD c.close else c.close
          sumTR + max (max (c.high - c.low) |c.high - prevClose|) |c.low - prevClose|)
      (0 : ℚ)
    some (sumTR / period)

/-- The backwards scan of `checkStopLossAndTakeProfit` and `executeTrade` for the most recent
record with `t.pair === pair && t.action === 'BUY' && !t.closedAt`, as an index into `trades`
(the record found is later mutated in place). -/
def findOpenBuyIdx (trades : List Trade) (pair : Pair) : Option Nat :=
  (List.range trades.length).reverse.find? (fun i =>
    match trades[i]? with
    | none => false
    | some t => decide (t.pair = pair) && decide (t.action = Action.BUY) && !t.closedAt)

/-- The method `closeTrade(pair, openTrade, exitPrice, isStopLoss)`. -/
def closeTrade (b : Bot) (pair : Pair) (openTrade : Trade) (exitPrice : ℚ) (isStopLoss : Bool) :
    Bot :=
  let quantity := (jsGet b.portfolio.positions pair).getD 0
  let profit := (exitPrice - openTrade.entryPrice) * quantity
  let returnPercent := profit / (openTrade.entryPrice * quantity) * 100
  let trade : Trade :=
    { pair := pair, action := Action.SELL, exitPrice := some exitPrice, quantity := quantity,
      entryPrice := openTrade.entryPrice, profit := some profit,
      returnPercent := some returnPercent, closedAt := true, isStopLoss := some isStopLoss }
  updateDrawdown
    { b with portfolio :=
        { b.portfolio with
          totalTrades := b.portfolio.totalTrades + 1,
          winTrades := if profit > 0 then b.portfolio.winTrades + 1 else b.portfolio.winTrades,
          lossTrades := if profit > 0 then b.portfolio.lossTrades else b.portfolio.lossTrades + 1,
          totalProfit := b.portfolio.totalProfit + profit,
          trades := b.portfolio.trades ++ [trade],
          positions := jsSet b.portfolio.positions pair 0,
          cash := b.portfolio.cash + exitPrice * quantity } }

/-- The method `executePartialClose(pair, partialTrade)`. -/
def executePartialClose (b : Bot) (pair : Pair) (partialTrade : Trade) : Bot :=
  let exitPrice := partialTrade.exitPrice.getD 0
  let profit := partialTrade.profit.getD 0
  { b with portfolio :=
      { b.portfolio with
        trades := b.portfolio.trades ++ [partialTrade],
        positions := jsSet b.portfolio.positions pair
          ((jsGet b.portfolio.positions pair).getD 0 - partialTrade.quantity),
        cash := b.portfolio.cash + exitPrice * partialTrade.quantity,
        totalProfit := b.portfolio.totalProfit + profit,
        winTrades := if profit > 0 then b.portfolio.winTrades + 1 else b.portfolio.winTrades,
        totalTrades := b.portfolio.totalTrades + 1 } }

/-- Write `f` through to the record at index `i` of `portfolio.trades` (an in-place mutation of
the object `openTrade` refers to). -/
def modifyTrade (b : Bot) (i : Nat) (f : Trade → Trade) : Bot :=
  { b with portfolio := { b.portfolio with trades := b.portfolio.trades.modify f i } }

/-- The local `percentChange` of `checkStopLossAndTakeProfit`. -/
def percentChange (currentPrice entryPrice : ℚ) : ℚ :=
  (currentPrice - entryPrice) / entryPrice * 100

/-- The local `slPercent` of `checkStopLossAndTakeProfit`:
`Math.min(3.0, Math.max(0.5, atrPercent * 2.0))` with `atrPercent = (atr / currentPrice) * 100`. -/
def slPercent (atr currentPrice : ℚ) : ℚ :=
  min 3.0 (max 0.5 (atr / currentPrice * 100 * 2.0))

/-- The value written to `openTrade.maxProfit` in the trailing block: `percentChange` when the
field is falsy (`undefined` or 0), else the maximum of the old value and `percentChange`. -/
def trailedMaxProfit (openTrade : Trade) (percentChange : ℚ) : ℚ :=
  if openTrade.maxProfit = none ∨ openTrade.maxProfit = some 0 then percentChange
  else max (openTrade.maxProfit.getD 0) percentChange

/-- The body of `if (!openTrade.closedLevels.includes(level.level))` in the partial take-profit
loop; `openTrade` is the record at index `idx`, `closedLevels` its array.  The partial record is
built by the spread `{...openTrade, ...}`, so it shares the array with `openTrade`: the final
`push` shows in both records. -/
def firePartialLevel (pair : Pair) (currentPrice entryPrice : ℚ) (idx : Nat) (b : Bot)
    (openTrade : Trade) (closedLevels : List ℚ) (level : UltraLSTM85.PartialLevel) : Bot :=
  let closeQty := (jsGet b.portfolio.positions pair).getD 0 * level.percentage
  let partialTrade : Trade :=
    { openTrade with
      action := Action.SELL,
      exitPrice := some currentPrice,
      quantity := closeQty,
      closedAt := true,
      isPartial := true,
      profit := some ((currentPrice - entryPrice) * closeQty) }
  let b2 := executePartialClose b pair partialTrade
  let pushed := fun (t : Trade) => { t with closedLevels := some (closedLevels ++ [level.level]) }
  modifyTrade (modifyTrade b2 idx pushed) (b2.portfolio.trades.length - 1) pushed

/-- One iteration of the loop `for (const level of levels)` of `checkStopLossAndTakeProfit`;
`idx` is the position of `openTrade` in `portfolio.trades`.  The test `!openTrade.closedLevels`
holds only while the field is `undefined` (an array, even an empty one, is truthy). -/
def partialLevelStep (pair : Pair) (currentPrice entryPrice percentChange : ℚ) (idx : Nat)
    (b : Bot) (level : UltraLSTM85.PartialLevel) : Bot :=
  match b.portfolio.trades[idx]? with
  | none => b
  | some openTrade =>
    if percentChange ≥ level.level ∧ openTrade.closedLevels = none then
      let closedLevels := openTrade.closedLevels.getD []
      let b1 := modifyTrade b idx (fun t => { t with closedLevels := some closedLevels })
      if level.level ∈ closedLevels then b1
      else
        firePartialLevel pair currentPrice entryPrice idx b1
          { openTrade with closedLevels := some closedLevels } closedLevels level
    else b

/-- The method `checkStopLossAndTakeProfit(pair, currentPrice)`: the new state and the returned
flag.  An exception (`calculateATR` on an empty buffer) is caught and yields `false`.  The
partial take-profit loop runs whenever neither the stop-loss nor the trailing stop returned. -/
def checkStopLossAndTakeProfit (b : Bot) (pair : Pair) (currentPrice : ℚ) : Bot × Bool :=
  match findOpenBuyIdx b.portfolio.trades pair with
  | none => (b, false)
  | some idx =>
    match b.portfolio.trades[idx]? with
    | none => (b, false)
    | some openTrade =>
      if noOpenPosition b.portfolio.positions pair then (b, false)
      else
        match calculateATR ((jsGet b.priceBuffer pair).getD []) 14 with
        | none => (b, false)
        | some atr =>
          if percentChange currentPrice openTrade.entryPrice < -slPercent atr currentPrice then
            (closeTrade b pair openTrade currentPrice true, true)
          else if percentChange currentPrice openTrade.entryPrice > UltraLSTM85.trailing.activation then
            if percentChange currentPrice openTrade.entryPrice
                < trailedMaxProfit openTrade (percentChange currentPrice openTrade.entryPrice)
                  - UltraLSTM85.trailing.trailingPercent then
              (closeTrade
                (modifyTrade b idx (fun t => { t with
                  maxProfit := some (trailedMaxProfit openTrade
                    (percentChange currentPrice openTrade.entryPrice)) }))
                pair
                { openTrade with
                  maxProfit := some (trailedMaxProfit openTrade
                    (percentChange currentPrice openTrade.entryPrice)) }
                currentPrice false, true)
            else
              (UltraLSTM85.takeProfit.partialLevels.foldl
                (partialLevelStep pair currentPrice openTrade.entryPrice
                  (percentChange currentPrice openTrade.entryPrice) idx)
                (modifyTrade b idx (fun t => { t with
                  maxProfit := some (trailedMaxProfit openTrade
                    (percentChange currentPrice openTrade.entryPrice)) })), false)
          else
            (UltraLSTM85.takeProfit.partialLevels.foldl
              (partialLevelStep pair currentPrice openTrade.entryPrice
                (percentChange currentPrice openTrade.entryPrice) idx) b, false)

/-- The method `executeTrade(pair, signal, currentPrice)`. -/
def executeTrade (b : Bot) (pair : Pair) (signal : Signal) (currentPrice : ℚ) : Bot :=
  match signal.action with
  | Action.BUY =>
    let positionSize := calculatePositionSizeKelly b pair currentPrice
    if positionSize = 0 then b
    else
      let cost := positionSize * currentPrice
      let commission := cost * 0.001
      let totalCost := cost + commission
      if totalCost > b.portfolio.cash then b
      else
        let trade : Trade :=
          { pair := pair, action := Action.BUY, entryPrice := currentPrice,
            quantity := positionSize, confidence := some signal.confidence,
            commission := some commission, cost := some cost }
        { b with portfolio :=
            { b.portfolio with
              cash := b.portfolio.cash - totalCost,
              positions := jsSet b.portfolio.positions pair
                ((jsGet b.portfolio.positions pair).getD 0 + positionSize),
              trades := b.portfolio.trades ++ [trade] } }
  | Action.SELL =>
    if noOpenPosition b.portfolio.positions pair then b
    else
      let quantity := (jsGet b.portfolio.positions pair).getD 0
      let revenue := quantity * currentPrice
      let commission := revenue * 0.001
      let netRevenue := revenue - commission
      match (findOpenBuyIdx b.portfolio.trades pair).bind (fun i => b.portfolio.trades[i]?) with
      | none => b
      | some buyTrade =>
        let profit := netRevenue - buyTrade.entryPrice * quantity - buyTrade.commission.getD 0
        let returnPercent := profit / (buyTrade.entryPrice * quantity) * 100
        let trade : Trade :=
          { pair := pair, action := Action.SELL, exitPrice := some currentPrice,
            quantity := quantity, profit := some profit, returnPercent := some returnPercent,
            entryPrice := buyTrade.entryPrice, closedAt := true }
        updateDrawdown
          { b with portfolio :=
              { b.portfolio with
                totalTrades := b.portfolio.totalTrades + 1,
                winTrades := if profit > 0 then b.portfolio.winTrades + 1 else b.portfolio.winTrades,
                lossTrades := if profit > 0 then b.portfolio.lossTrades else b.portfolio.lossTrades + 1,
                totalProfit := b.portfolio.totalProfit + profit,
                cash := b.portfolio.cash + netRevenue,
                positions := jsSet b.portfolio.positions pair 0,
                trades := b.portfolio.trades ++ [trade] } }
  | Action.HOLD => b

/-- The method `generateSignalUltraLSTM(pair, candle)`.  The engine `ultraLSTM.generateSignal` is
an external collaborator: its answer `raw` is an input.  The method adapts
`adaptiveParams` from the portfolio statistics and clamps the confidence to `[0, 1]`. -/
def generateSignalUltraLSTM (b : Bot) (raw : Signal) : Bot × Signal :=
  let winRate : ℚ :=
    if b.portfolio.totalTrades > 0 then (b.portfolio.winTrades : ℚ) / b.portfolio.totalTrades
    else 0.5
  let drawdown := b.portfolio.maxDrawdown
  let confidenceThreshold :=
    if winRate < 0.6 then min 0.85 (0.75 + (0.6 - winRate) * 2)
    else if winRate > 0.7 then max 0.65 (0.75 - (winRate - 0.7) * 1.5)
    else b.adaptiveParams.confidenceThreshold
  let positionSizeKelly :=
    if drawdown > 0.05 then b.adaptiveParams.positionSizeKelly * (1 - drawdown)
    else b.adaptiveParams.positionSizeKelly
  ({ b with adaptiveParams :=
      { b.adaptiveParams with
        confidenceThreshold := confidenceThreshold,
        positionSizeKelly := positionSizeKelly } },
   { raw with confidence := max 0 (min 1 raw.confidence) })

/-- The first statements of `onNewCandle`: store the close as the pair's current price and push
the candle on its price buffer (at most 300 candles kept). -/
def recordCandle (b : Bot) (pair : Pair) (candle : Candle) : Bot :=
  { b with
    priceFeeds := jsSet b.priceFeeds pair candle.close,
    priceBuffer := pushCandle 300 b.priceBuffer pair candle }

/-- The method `onNewCandle(pair, candle)`, with the answer `raw` of the signal engine for this
tick as an input.  `updateIndicators` only fills the indicator buffer read by the engine. -/
def onNewCandle (b : Bot) (pair : Pair) (candle : Candle) (raw : Signal) : Bot :=
  let b1 := recordCandle b pair candle
  let checked := checkStopLossAndTakeProfit b1 pair candle.close
  if checked.2 then checked.1
  else
    let generated := generateSignalUltraLSTM checked.1 raw
    let signal := generated.2
    if signal.action ≠ Action.HOLD ∧ signal.confidence ≥ generated.1.adaptiveParams.confidenceThreshold then
      executeTrade generated.1 pair signal candle.close
    else generated.1

/-- A tick of the price feed together with the engine's answer for it. -/
structure Tick where
  pair : Pair
  candle : Candle
  raw : Signal
deriving DecidableEq, Repr

/-- The state after a sequence of ticks, in arrival order. -/
def run (b : Bot) (ticks : List Tick) : Bot :=
  ticks.foldl (fun s tick => onNewCandle s tick.pair tick.candle tick.raw) b

/-- The guard state carried through the partial take-profit loop. -/
def CashAndHeldNonneg (pair : Pair) (b : Bot) : Prop :=
  0 ≤ b.portfolio.cash ∧ 0 ≤ (jsGet b.portfolio.positions pair).getD 0

/-- A flat candle at price `close`: `high = low = openPrice = close`. -/
def flatCandle (close : ℚ) : Candle :=
  { time := 0, openPrice := close, high := close, low := close, close := close, volume := 1,
    isClosed := true }

/-- Scenario: the engine answers BUY with confidence 0.9 on a flat candle at 100. -/
def buyTick : Tick :=
  { pair := "BTCUSDT", candle := flatCandle 100, raw := { action := Action.BUY, confidence := 0.9 } }

/-- Scenario: the engine answers HOLD on a flat candle at `close`. -/
def holdTick (close : ℚ) : Tick :=
  { pair := "BTCUSDT", candle := flatCandle close, raw := { action := Action.HOLD, confidence := 0 } }

/-- Scenario state: capital 10000, one pair, after the BUY tick at 100 (10 units bought for
1000 plus commission 1, cash 8999). -/
def afterBuy : Bot := run (new 10000 ["BTCUSDT"]) [buyTick]

/-- Scenario state: capital 10000 after nine BUY ticks at 100 (each sized at 10% of the portfolio
value): the cash left is below the cost of a tenth entry. -/
def afterNineBuys : Bot := run (new 10000 ["BTCUSDT"]) (List.replicate 9 buyTick)

/-- Scenario: a candle closing at 99.2 with range `high - low = 0.3968`, so that with fewer
than 14 candles in the buffer `atr = 0.3968` and `slPercent = 0.3968 / 99.2 * 100 * 2 = 0.8`. -/
def boundaryCandle : Candle :=
  { time := 0, openPrice := 99.3, high := 99.4968, low := 99.1, close := 99.2, volume := 1,
    isClosed := true }

/-- Scenario state: 10 units entered at 100, and the candle closing at 99.2 has just arrived
(`percentChange = -0.8`, `slPercent = 0.8`). -/
def atBoundary : Bot := recordCandle afterBuy "BTCUSDT" boundaryCandle

/-- The stop-loss fired in a call of `checkStopLossAndTakeProfit` with result `result`: the call
returned `true` and the record it appended last is a SELL record marked `isStopLoss: true`. -/
def StopLossFired (result : Bot × Bool) : Prop :=
  result.2 = true ∧
  ∃ t, result.1.portfolio.trades.getLast? = some t ∧ t.action = Action.SELL ∧
    t.isStopLoss = some true

/-- The drawdown trackers of `later` are at least those of `earlier`. -/
def DrawdownLe (earlier later : Bot) : Prop :=
  earlier.portfolio.peakEquity ≤ later.portfolio.peakEquity ∧
  earlier.portfolio.maxDrawdown ≤ later.portfolio.maxDrawdown

/-- The drawdown fields are up to date: the peak is at least the current portfolio value,
`currentDrawdown` is the relative distance of the value from the peak, and `maxDrawdown` is at
least `currentDrawdown`. -/
def DrawdownRecomputed (b : Bot) : Prop :=
  getPortfolioValue b ≤ b.portfolio.peakEquity ∧
  b.portfolio.currentDrawdown
    = (b.portfolio.peakEquity - getPortfolioValue b) / b.portfolio.peakEquity ∧
  b.portfolio.currentDrawdown ≤ b.portfolio.maxDrawdown

instance (b : Bot) : Decidable (DrawdownRecomputed b) := by
  unfold DrawdownRecomputed
  infer_instance

/-- Number of BUY (entry) records of `pair` in a trade log. -/
def entryCount (trades : List Trade) (pair : Pair) : Nat :=
  trades.countP (fun t => decide (t.pair = pair) && decide (t.action = Action.BUY))

/-- Scenario: the engine answers BUY with confidence 0.9 on a flat candle at 101. -/
def buyTickAt101 : Tick :=
  { pair := "BTCUSDT", candle := flatCandle 101, raw := { action := Action.BUY, confidence := 0.9 } }

/-- The sizing formula with the drawdown `drawdown` as a parameter: the Kelly fraction
`(winRate * avgWin - (1 - winRate) * avgLoss) / avgWin` times `positionSizeKelly`, clamped to
`[0, 0.4]` and scaled by `max(0.1, 1 - 2 * drawdown)`; the position value is the portfolio value
times that factor, and the size is 0 below a value of 50, else the value over the price. -/
def kellySizeAt (b : Bot) (drawdown price : ℚ) : ℚ :=
  let winRate : ℚ :=
    if b.portfolio.totalTrades > 0 then (b.portfolio.winTrades : ℚ) / b.portfolio.totalTrades
    else 0.6
  let avgWin := getAverageWinSize b
  let avgLoss := getAverageLossSize b
  if avgWin = 0 ∨ avgLoss = 0 then 0
  else
    let kellyFraction := (winRate * avgWin - (1 - winRate) * avgLoss) / avgWin
    let factor := max 0 (min 0.4 (kellyFraction * b.adaptiveParams.positionSizeKelly))
      * max 0.1 (1 - 2 * drawdown)
    let positionValue := getPortfolioValue b * factor
    if positionValue < 50 then 0 else positionValue / price

/-- Scenario: after the BUY at 100, a partial take-profit at 101.5 and the stop-loss at 99.4
(the portfolio value falls to 9999.3, drawdown 0.00007); then a second entry at 100, a partial
take-profit at 103 and the trailing stop at 102 (the value recovers above the old peak). -/
def dipAndRecovery : List Tick :=
  [buyTick, holdTick 101.5, holdTick 99.4, buyTick, holdTick 103, holdTick 102]

/-- Scenario state: the bot with capital 10000 after `dipAndRecovery`. -/
def afterRecovery : Bot := run (new 10000 ["BTCUSDT"]) dipAndRecovery

/-- Number of SELL records of `pair` marked `isPartial` (the records appended by
`executePartialClose`) whose `closedLevels` satisfies `r`. -/
def partialSells (r : Option (List ℚ) → Bool) (trades : List Trade) (pair : Pair) : Nat :=
  trades.countP (fun t => decide (t.pair = pair) && decide (t.action = Action.SELL)
    && t.isPartial && r t.closedLevels)

/-- Number of BUY (entry) records of `pair` whose `closedLevels` satisfies `r`. -/
def entriesWith (r : Option (List ℚ) → Bool) (trades : List Trade) (pair : Pair) : Nat :=
  trades.countP (fun t => decide (t.pair = pair) && decide (t.action = Action.BUY)
    && r t.closedLevels)

/-- Number of partial take-profit records of `pair` fired at `level`: the partial SELL records
whose `closedLevels` is `[level]`. -/
def partialFires (trades : List Trade) (pair : Pair) (level : ℚ) : Nat :=
  partialSells (fun cl => decide (cl = some [level])) trades pair

/-- Number of BUY (entry) records of `pair` on which `level` was recorded as closed:
`closedLevels` is `[level]`. -/
def markedEntries (trades : List Trade) (pair : Pair) (level : ℚ) : Nat :=
  entriesWith (fun cl => decide (cl = some [level])) trades pair

/-- Number of partial SELL records of `pair` whose `closedLevels` is not a one-level array. -/
def partialsWithoutLevel (trades : List Trade) (pair : Pair) : Nat :=
  partialSells (fun cl => match cl with | some [_] => false | _ => true) trades pair

/-- For every pair, the partial SELL records selected by `rs` are as many as the BUY records
selected by `rb`. -/
def PartialsMatch (rs rb : Option (List ℚ) → Bool) (trades : List Trade) : Prop :=
  ∀ pair, partialSells rs trades pair = entriesWith rb trades pair

/-- The record at index `idx` of a trade log is a BUY record. -/
def BuyAt (trades : List Trade) (idx : Nat) : Prop :=
  ∃ t, trades[idx]? = some t ∧ t.action = Action.BUY

/-- Scenario: after the BUY at 100, a tick at 101 on which the engine answers BUY (the first
partial level fires, then a second BUY is filled at 101), then a tick at 101.6, which is 0.594%
above the entry price 101 of the second BUY record. -/
def reentryDuringLifetime : List Tick := [buyTick, buyTickAt101, holdTick 101.6]

/-- The method `calculateRSI(data, period)` of the ultra bot.  `none` is the `TypeError` of
reading `.close` of `undefined` (an index outside `data`). -/
def calculateRSI (data : List Candle) (period : Nat) : Option ℚ :=
  if data.length < period + 1 then some 50
  else
    let sums := (List.range period).foldl
      (fun (acc : Option (ℚ × ℚ)) k =>
        let i := data.length - period + k
        acc.bind (fun (gl : ℚ × ℚ) =>
          (data[i]?).bind (fun cur =>
            (if i = 0 then none else data[i - 1]?).map (fun prev =>
              let diff : ℚ := cur.close - prev.close
              if diff > 0 then (gl.1 + diff, gl.2) else (gl.1, gl.2 + |diff|)))))
      (some ((0 : ℚ), (0 : ℚ)))
    sums.map (fun (gl : ℚ × ℚ) =>
      let avgGain : ℚ := gl.1 / period
      let avgLoss : ℚ := gl.2 / period
      let rs : ℚ := avgGain / (if avgLoss = 0 then 0.0001 else avgLoss)
      let rsi : ℚ := 100 - 100 / (1 + rs)
      max 0 (min 100 rsi))

/-- The method `calculateEMA(data, period)`.  The argument is the list of the `close` fields of
`data`, the only field the method reads; `none` is the `TypeError` on an empty `data`. -/
def calculateEMA (closes : List ℚ) (period : Nat) : Option ℚ :=
  if closes.length < period then closes.getLast?
  else
    match closes with
    | [] => none
    | first :: rest =>
      let multiplier : ℚ := 2 / (period + 1)
      some (rest.foldl (fun ema close => (close - ema) * multiplier + ema) first)

/-- The object returned by `calculateMACD`: `{ histogram: 0 }` or `{ macd, signal, histogram }`. -/
structure MACD where
  macd : Option ℚ := none
  signal : Option ℚ := none
  histogram : ℚ
deriving DecidableEq, Repr

/-- The method `calculateMACD(data)`.  The signal line is the EMA over
`data.map(() => ({ close: macd })).slice(-9)`. -/
def calculateMACD (data : List Candle) : Option MACD :=
  if data.length < 26 then some { histogram := 0 }
  else
    (calculateEMA (data.map Candle.close) 12).bind (fun ema12 =>
      (calculateEMA (data.map Candle.close) 26).bind (fun ema26 =>
        let macd := ema12 - ema26
        (calculateEMA ((data.map (fun _ => macd)).drop (data.length - 9)) 9).map (fun signal =>
          { macd := some macd, signal := some signal, histogram := macd - signal })))

/-- The object returned by `calculateBB`: `{ position: 0.5 }` or
`{ upper, middle, lower, position }`. -/
structure BB where
  upper : Option ℚ := none
  middle : Option ℚ := none
  lower : Option ℚ := none
  position : ℚ
deriving DecidableEq, Repr

/-- The method `calculateBB(data, period, stdDev)`.  `Math.sqrt` is the parameter `sqrt`;
`data.slice(-period)` is the whole array when `period` is 0. -/
def calculateBB (sqrt : ℚ → ℚ) (data : List Candle) (period : Nat) (stdDev : ℚ) : Option BB :=
  if data.length < period then some { position := 0.5 }
  else
    let recent := if period = 0 then data else data.drop (data.length - period)
    let avg := recent.foldl (fun sum c => sum + c.close) (0 : ℚ) / period
    let variance := recent.foldl (fun sum c => sum + (c.close - avg) ^ 2) (0 : ℚ) / period
    let std := sqrt variance
    let upper := avg + std * stdDev
    let lower := avg - std * stdDev
    (data.getLast?).map (fun current =>
      let position := (current.close - lower) / (upper - lower)
      { upper := some upper, middle := some avg, lower := some lower,
        position := max 0 (min 1 position) })

/-- The object stored in `indicatorBuffer[pair]` by `updateIndicators`. -/
structure Indicators where
  rsi : ℚ
  macd : ℚ
  bb : ℚ
  volume : ℚ
deriving DecidableEq, Repr

/-- The method `updateIndicators(pair)` as a function of `data = priceBuffer[pair]`: the object
it stores in `indicatorBuffer[pair]`, or `none` when it stores nothing (fewer than 14 candles, or
an exception, which the method catches). -/
def updateIndicators (sqrt : ℚ → ℚ) (data : List Candle) : Option Indicators :=
  if data.length < 14 then none
  else
    (calculateRSI data 14).bind (fun rsi =>
      (calculateMACD data).bind (fun macd =>
        (calculateBB sqrt data 20 2).bind (fun bb =>
          let volume : Option ℚ :=
            if data.length ≥ 2 then
              (data[data.length - 1]?).bind (fun last =>
                (data[data.length - 2]?).map (fun prev =>
                  last.volume / (if prev.volume = 0 then 1 else prev.volume)))
            else some 1
          volume.map (fun v =>
            { rsi := rsi, macd := macd.histogram, bb := bb.position, volume := v }))))

/-- Scenario: `n` candles with closes 100, 101, ..., each with high one above and low one below
the close. -/
def risingCandles (n : Nat) : List Candle :=
  (List.range n).map (fun i =>
    { time := i, openPrice := 100 + (i : ℚ), high := 101 + (i : ℚ), low := 99 + (i : ℚ),
      close := 100 + (i : ℚ), volume := 1, isClosed := true })

/-- The adaptive confidence threshold lies in `[0.65, 0.85]`. -/
def ThresholdInRange (b : Bot) : Prop :=
  0.65 ≤ b.adaptiveParams.confidenceThreshold ∧ b.adaptiveParams.confidenceThreshold ≤ 0.85

/-- Scenario: the engine answers BUY with the given confidence on a flat candle at 100. -/
def buyTickWith (confidence : ℚ) : Tick :=
  { pair := "BTCUSDT", candle := flatCandle 100,
    raw := { action := Action.BUY, confidence := confidence } }

/-- Number of all partial SELL records of `pair`. -/
def partialCloses (trades : List Trade) (pair : Pair) : Nat :=
  partialSells (fun _ => true) trades pair

/-- Number of BUY (entry) records of `pair` whose `closedLevels` is defined. -/
def closedEntries (trades : List Trade) (pair : Pair) : Nat :=
  entriesWith Option.isSome trades pair

/-- The `closedLevels` of a record is undefined or `[0.5]`, and it is `[0.5]` on a partial
record. -/
def FirstLevelOnly (t : Trade) : Prop :=
  (t.isPartial = true → t.closedLevels = some [0.5]) ∧
  (t.closedLevels = none ∨ t.closedLevels = some [0.5])

/-- The candles received for `pair` in a sequence of ticks, in arrival order. -/
def candlesOf (ticks : List Tick) (pair : Pair) : List Candle :=
  (ticks.filter (fun tick => decide (tick.pair = pair))).map (fun tick => tick.candle)

/-- The exit (SELL) records of a trade log, in order. -/
def exits (trades : List Trade) : List Trade :=
  trades.filter (fun t => decide (t.action = Action.SELL))

/-- The statistics of the portfolio are those of its exit records: `totalTrades` is their
number, `winTrades` the number of those with `profit > 0`, `lossTrades` the number of the others,
and `totalProfit` the sum of their profits. -/
def StatsMatchLog (p : Portfolio) : Prop :=
  p.totalTrades = (exits p.trades).length ∧
  p.winTrades = (exits p.trades).countP (fun t => decide (0 < t.profit.getD 0)) ∧
  p.lossTrades = (exits p.trades).countP (fun t => !decide (0 < t.profit.getD 0)) ∧
  p.totalProfit = ((exits p.trades).map (fun t => t.profit.getD 0)).sum

/-- Every BUY record of the log has a positive entry price. -/
def EntriesPositive (trades : List Trade) : Prop :=
  ∀ t ∈ trades, t.action = Action.BUY → 0 < t.entryPrice

/-- Every partial SELL record of the log has a positive profit. -/
def PartialsProfitable (trades : List Trade) : Prop :=
  ∀ t ∈ trades, t.isPartial = true → 0 < t.profit.getD 0

end UltraTradingBot

/-! ## Map lemmas -/

theorem jsGet_jsSet_self {β : Type} (m : List (Pair × β)) (k : Pair) (v : β) :
    jsGet (jsSet m k v) k = some v := by
  induction m with
  | nil => simp [jsSet, jsGet]
  | cons e rest ih =>
    obtain ⟨k', v'⟩ := e
    by_cases h : k' = k
    · simp [jsSet, jsGet, h]
    · simp [jsSet, jsGet, h, ih]

theorem jsGet_jsSet_ne {β : Type} (m : List (Pair × β)) (k k' : Pair) (v : β) (h : k' ≠ k) :
    jsGet (jsSet m k v) k' = jsGet m k' := by
  induction m with
  | nil => simp [jsSet, jsGet, Ne.symm h]
  | cons e rest ih =>
    obtain ⟨k0, v0⟩ := e
    by_cases h0 : k0 = k
    · subst h0
      simp [jsSet, jsGet, Ne.symm h]
    · by_cases h1 : k0 = k'
      · subst h1
        simp [jsSet, jsGet, h0]
      · simp [jsSet, jsGet, h0, h1, ih]

theorem noOpenPosition_eq_false {m : List (Pair × ℚ)} {k : Pair}
    (h : noOpenPosition m k = false) : ∃ q, jsGet m k = some q ∧ 0 < q := by
  unfold noOpenPosition at h
  cases hq : jsGet m k with
  | none => simp [hq] at h
  | some q =>
    simp [hq] at h
    exact ⟨q, rfl, h.2⟩

theorem noOpenPosition_of_pos {m : List (Pair × ℚ)} {k : Pair} {q : ℚ}
    (h : jsGet m k = some q) (hq : 0 < q) : noOpenPosition m k = false := by
  unfold noOpenPosition
  simp [h, ne_of_gt hq, not_le.mpr hq]

namespace PaperTradingBot

theorem calculatePositionSize_nonneg (b : Bot) (pair : Pair) (p c : ℚ) :
    0 ≤ calculatePositionSize b pair p c := by
  unfold calculatePositionSize
  simp only []
  split
  · exact le_refl 0
  · exact le_max_right _ _

/-- Unfolding of an accepted BUY. -/
theorem executeTrade_buy_eq (b : Bot) (pair : Pair) (signal : Signal) (p : ℚ)
    (hpair : pair ≠ "") (hp : 0 < p) (hbuy : signal.action = Action.BUY)
    (hconf : 0.70 ≤ signal.confidence)
    (hq0 : calculatePositionSize b pair p signal.confidence ≠ 0)
    (hcash : calculatePositionSize b pair p signal.confidence * p * 1.001 ≤ b.portfolio.cash) :
    executeTrade b pair signal p =
      { b with portfolio :=
          { b.portfolio with
            cash := b.portfolio.cash - calculatePositionSize b pair p signal.confidence * p * 1.001,
            positions := jsSet b.portfolio.positions pair
              ((jsGet b.portfolio.positions pair).getD 0
                + calculatePositionSize b pair p signal.confidence),
            trades := b.portfolio.trades ++
              [{ pair := pair, action := Action.BUY, entryPrice := p,
                 quantity := calculatePositionSize b pair p signal.confidence,
                 confidence := signal.confidence,
                 commission := some (calculatePositionSize b pair p signal.confidence * p * 0.001),
                 cost := some (calculatePositionSize b pair p signal.confidence * p) }] } } := by
  have h1 : ¬ (pair = "" ∨ p ≤ 0) := by
    rintro (h | h)
    · exact hpair h
    · exact absurd hp (not_lt.mpr h)
  have h2 : ¬ (signal.action = Action.BUY ∧ signal.confidence < 0.70) := fun h =>
    absurd hconf (not_le.mpr h.2)
  have h3 : ¬ (calculatePositionSize b pair p signal.confidence * p
      + calculatePositionSize b pair p signal.confidence * p * 0.001 > b.portfolio.cash) := by
    have : calculatePositionSize b pair p signal.confidence * p
      + calculatePositionSize b pair p signal.confidence * p * 0.001
      = calculatePositionSize b pair p signal.confidence * p * 1.001 := by ring
    rw [this]; exact not_lt.mpr hcash
  unfold executeTrade
  rw [if_neg h1, if_neg h2]
  simp only [hbuy]
  rw [if_neg hq0, if_neg h3]
  congr 2
  ring


theorem findOpenBuy_append_buy (ts : List Trade) (t : Trade) (pair : Pair)
    (hp : t.pair = pair) (ha : t.action = Action.BUY) (hc : t.closedAt = false) :
    findOpenBuy (ts ++ [t]) pair = some t := by
  simp [findOpenBuy, hp, ha, hc]

/-- Unfolding of a SELL fill matched against the entry record `buyTrade`. -/
theorem executeTrade_sell_eq (b : Bot) (pair : Pair) (signal : Signal) (x : ℚ) (buyTrade : Trade)
    (hpair : pair ≠ "") (hx : 0 < x) (hsell : signal.action = Action.SELL)
    (hq0 : calculatePositionSize b pair x signal.confidence ≠ 0)
    (hopen : noOpenPosition b.portfolio.positions pair = false)
    (hfind : findOpenBuy b.portfolio.trades pair = some buyTrade) :
    executeTrade b pair signal x =
      { b with portfolio :=
          { b.portfolio with
            cash := b.portfolio.cash + actualPositionSize b pair signal x * x * 0.999,
            positions := jsSet b.portfolio.positions pair
              ((jsGet b.portfolio.positions pair).getD 0 - actualPositionSize b pair signal x),
            totalTrades := b.portfolio.totalTrades + 1,
            winTrades :=
              if sellProfit b pair signal x buyTrade > 0 then b.portfolio.winTrades + 1
              else b.portfolio.winTrades,
            lossTrades :=
              if sellProfit b pair signal x buyTrade > 0 then b.portfolio.lossTrades
              else b.portfolio.lossTrades + 1,
            totalProfit := b.portfolio.totalProfit + sellProfit b pair signal x buyTrade,
            trades := b.portfolio.trades ++
              [{ pair := pair, action := Action.SELL, exitPrice := some x,
                 quantity := actualPositionSize b pair signal x,
                 confidence := signal.confidence,
                 profit := some (sellProfit b pair signal x buyTrade),
                 returnPercent := some (sellProfit b pair signal x buyTrade
                   / (buyTrade.entryPrice * actualPositionSize b pair signal x) * 100),
                 entryPrice := buyTrade.entryPrice, closedAt := true,
                 openCommission := some (buyTrade.commission.getD 0),
                 closeCommission := some (actualPositionSize b pair signal x * x * 0.001),
                 totalCommission := some (buyTrade.commission.getD 0
                   + actualPositionSize b pair signal x * x * 0.001) }] } } := by
  have h1 : ¬ (pair = "" ∨ x ≤ 0) := by
    rintro (h | h)
    · exact hpair h
    · exact absurd hx (not_lt.mpr h)
  have h2 : ¬ (signal.action = Action.BUY ∧ signal.confidence < 0.70) := by
    rw [hsell]; rintro ⟨h, _⟩; cases h
  unfold executeTrade
  rw [if_neg h1, if_neg h2]
  simp only [hsell, hopen, hfind]
  rw [if_neg hq0]
  simp only [actualPositionSize, sellProfit, Bool.false_eq_true, if_false]
  have e1 : ∀ q : ℚ, q * x - q * x * 0.001 = q * x * 0.999 := fun q => by ring
  simp only [e1]


/-- C1. With commission rate 0.001, a BUY fill of quantity `q` at price `p` (the sized quantity,
affordable: `q*p*1.001 ≤ cash`) decreases cash by exactly `q*p*1.001` and raises
`positions[pair]` by `q`; a later SELL fill of the same quantity `q` at price `p2` increases cash
by exactly `q*p2*0.999`, with close commission `q*p2*0.001`, and records
`profit = q*p2*0.999 - q*p - (BUY commission q*p*0.001)`.  (At `cash = 10000, q = 1, p = 100,
p2 = 103` these are 9899.9, 0.103, 102.897, 2.797 and 10002.797.) -/
theorem executeTrade_buy_then_sell_accounting (b : Bot) (pair : Pair) (buy sell : Signal)
    (p p2 q : ℚ) (hpair : pair ≠ "") (hp : 0 < p) (hp2 : 0 < p2)
    (hbuy : buy.action = Action.BUY) (hconf : 0.70 ≤ buy.confidence)
    (hq : calculatePositionSize b pair p buy.confidence = q) (hq0 : q ≠ 0)
    (hcash : q * p * 1.001 ≤ b.portfolio.cash)
    (hsell : sell.action = Action.SELL)
    (hfill : actualPositionSize (executeTrade b pair buy p) pair sell p2 = q) :
    (executeTrade b pair buy p).portfolio.cash = b.portfolio.cash - q * p * 1.001 ∧
    jsGet (executeTrade b pair buy p).portfolio.positions pair
      = some ((jsGet b.portfolio.positions pair).getD 0 + q) ∧
    (executeTrade (executeTrade b pair buy p) pair sell p2).portfolio.cash
      = (executeTrade b pair buy p).portfolio.cash + q * p2 * 0.999 ∧
    ∃ t, (executeTrade (executeTrade b pair buy p) pair sell p2).portfolio.trades.getLast? = some t
      ∧ t.action = Action.SELL ∧ t.quantity = q ∧ t.entryPrice = p
      ∧ t.openCommission = some (q * p * 0.001)
      ∧ t.closeCommission = some (q * p2 * 0.001)
      ∧ t.profit = some (q * p2 * 0.999 - q * p - q * p * 0.001) := by
  have hqpos : 0 < q := lt_of_le_of_ne (hq ▸ calculatePositionSize_nonneg b pair p buy.confidence)
    (Ne.symm hq0)
  have hb1 := executeTrade_buy_eq b pair buy p hpair hp hbuy hconf (by rw [hq]; exact hq0)
    (by rw [hq]; exact hcash)
  rw [hq] at hb1
  have hpos1 : jsGet (executeTrade b pair buy p).portfolio.positions pair
      = some ((jsGet b.portfolio.positions pair).getD 0 + q) := by
    rw [hb1]; exact jsGet_jsSet_self _ _ _
  have hheld : q ≤ (jsGet b.portfolio.positions pair).getD 0 + q := by
    have hmin := hfill
    unfold actualPositionSize at hmin
    rw [hpos1] at hmin
    have hle := min_le_right
      (calculatePositionSize (executeTrade b pair buy p) pair p2 sell.confidence)
      ((some ((jsGet b.portfolio.positions pair).getD 0 + q)).getD 0)
    rw [hmin] at hle
    exact hle
  have hsz : calculatePositionSize (executeTrade b pair buy p) pair p2 sell.confidence ≠ 0 := by
    intro h0
    have := hfill
    unfold actualPositionSize at this
    rw [h0, hpos1] at this
    have hle : min (0 : ℚ) ((some ((jsGet b.portfolio.positions pair).getD 0 + q)).getD 0) ≤ 0 :=
      min_le_left _ _
    rw [this] at hle
    exact absurd hqpos (not_lt.mpr hle)
  have hopen : noOpenPosition (executeTrade b pair buy p).portfolio.positions pair = false :=
    noOpenPosition_of_pos hpos1 (lt_of_lt_of_le hqpos hheld)
  have hfind : findOpenBuy (executeTrade b pair buy p).portfolio.trades pair
      = some { pair := pair, action := Action.BUY, entryPrice := p, quantity := q,
               confidence := buy.confidence, commission := some (q * p * 0.001),
               cost := some (q * p) } := by
    rw [hb1]
    exact findOpenBuy_append_buy _ _ _ rfl rfl rfl
  have hb2 := executeTrade_sell_eq (executeTrade b pair buy p) pair sell p2 _ hpair hp2 hsell hsz
    hopen hfind
  refine ⟨by rw [hb1], hpos1, ?_, ?_⟩
  · rw [hb2, hfill]
  · rw [hb2]
    refine ⟨_, List.getLast?_concat _, rfl, hfill, rfl, rfl, ?_, ?_⟩
    · rw [hfill]
    · simp only [sellProfit, hfill, Option.getD_some]
      congr 1
      ring

/-- Witness for C1: initial capital 10000, BUY at 100 with confidence 0.7 (sized 3.1 units), then
a SELL of the same 3.1 units at 103. -/
theorem executeTrade_buy_then_sell_accounting_witness :
    (executeTrade (new 10000) "BTCUSDT" { action := Action.BUY, confidence := 0.7 } 100).portfolio.cash
      = 10000 - 3.1 * 100 * 1.001 ∧
    (executeTrade (executeTrade (new 10000) "BTCUSDT" { action := Action.BUY, confidence := 0.7 } 100)
        "BTCUSDT" { action := Action.SELL, confidence := 1 } 103).portfolio.cash
      = (executeTrade (new 10000) "BTCUSDT" { action := Action.BUY, confidence := 0.7 } 100).portfolio.cash
        + 3.1 * 103 * 0.999 :=
  have h := executeTrade_buy_then_sell_accounting (new 10000) "BTCUSDT"
    { action := Action.BUY, confidence := 0.7 } { action := Action.SELL, confidence := 1 }
    100 103 3.1 (by decide) (by norm_num) (by norm_num) rfl (by norm_num) (by decide!)
    (by norm_num) (by decide!) rfl (by decide!)
  ⟨h.1, h.2.2.1⟩

/-- The SELL half of the scenario of C1 evaluated on the code: one unit held, entered at 100 with
commission 0.1, cash 9899.9; a SELL at 103 records close commission 0.103 and profit 2.797 and
leaves cash 10002.797. -/
theorem executeTrade_sell_scenario :
    (executeTrade
      { portfolio :=
          { cash := 9899.9, positions := [("BTCUSDT", 1)],
            trades := [{ pair := "BTCUSDT", action := Action.BUY, entryPrice := 100, quantity := 1,
                         confidence := 1, commission := some 0.1, cost := some 100 }],
            totalProfit := 0, winTrades := 0, lossTrades := 0, initialCapital := 10000,
            totalTrades := 0 },
        priceFeeds := [("BTCUSDT", 103)], candleHistory := [] }
      "BTCUSDT" { action := Action.SELL, confidence := 1 } 103).portfolio
    = { cash := 10002.797, positions := [("BTCUSDT", 0)],
        trades := [{ pair := "BTCUSDT", action := Action.BUY, entryPrice := 100, quantity := 1,
                     confidence := 1, commission := some 0.1, cost := some 100 },
                   { pair := "BTCUSDT", action := Action.SELL, entryPrice := 100, quantity := 1,
                     confidence := 1, exitPrice := some 103, profit := some 2.797,
                     returnPercent := some 2.797, closedAt := true,
                     openCommission := some 0.1, closeCommission := some 0.103,
                     totalCommission := some 0.203 }],
        totalProfit := 2.797, winTrades := 1, lossTrades := 0, initialCapital := 10000,
        totalTrades := 1 } := by
  decide!


/-! ### Cash never goes negative (paper bot) -/

theorem executeTrade_cash_nonneg (b : Bot) (pair : Pair) (signal : Signal) (price : ℚ)
    (h : 0 ≤ b.portfolio.cash) : 0 ≤ (executeTrade b pair signal price).portfolio.cash := by
  unfold executeTrade
  by_cases h1 : pair = "" ∨ price ≤ 0
  · rw [if_pos h1]; exact h
  rw [if_neg h1]
  by_cases h2 : signal.action = Action.BUY ∧ signal.confidence < 0.70
  · rw [if_pos h2]; exact h
  rw [if_neg h2]
  simp only []
  by_cases h3 : calculatePositionSize b pair price signal.confidence = 0
  · rw [if_pos h3]; exact h
  rw [if_neg h3]
  have hprice : 0 < price := not_le.mp (fun hle => h1 (Or.inr hle))
  have hsize := calculatePositionSize_nonneg b pair price signal.confidence
  cases hact : signal.action with
  | BUY =>
    simp only []
    split_ifs with h4
    · exact h
    · simp only []
      exact sub_nonneg.mpr (not_lt.mp h4)
  | SELL =>
    simp only []
    cases hopen : noOpenPosition b.portfolio.positions pair with
    | true => simpa using h
    | false =>
      obtain ⟨held, hheld, hpos⟩ := noOpenPosition_eq_false hopen
      have hmin : 0 ≤ min (calculatePositionSize b pair price signal.confidence)
          ((jsGet b.portfolio.positions pair).getD 0) := by
        rw [hheld]; exact le_min hsize (le_of_lt hpos)
      have hnet : 0 ≤ min (calculatePositionSize b pair price signal.confidence)
            ((jsGet b.portfolio.positions pair).getD 0) * price
          - min (calculatePositionSize b pair price signal.confidence)
            ((jsGet b.portfolio.positions pair).getD 0) * price * 0.001 := by
        have := mul_nonneg hmin (le_of_lt hprice)
        linarith
      simp only [Bool.false_eq_true, if_false]
      split <;> exact add_nonneg h hnet
  | HOLD => exact h

theorem checkStopLossAndTakeProfit_cash_nonneg (b : Bot) (pair : Pair) (price : ℚ)
    (h : 0 ≤ b.portfolio.cash) :
    0 ≤ (checkStopLossAndTakeProfit b pair price).1.portfolio.cash := by
  unfold checkStopLossAndTakeProfit
  split
  · exact h
  · split_ifs
    · exact h
    · dsimp only
      split_ifs
      · exact executeTrade_cash_nonneg _ _ _ _ h
      · exact executeTrade_cash_nonneg _ _ _ _ h
      · exact h

theorem onNewCandle_cash_nonneg (b : Bot) (pair : Pair) (candle : Candle)
    (h : 0 ≤ b.portfolio.cash) : 0 ≤ (onNewCandle b pair candle).portfolio.cash := by
  unfold onNewCandle
  simp only []
  have hc := checkStopLossAndTakeProfit_cash_nonneg (recordCandle b pair candle) pair
    candle.close h
  split_ifs
  · exact executeTrade_cash_nonneg _ _ _ _ hc
  · exact hc

theorem run_cash_nonneg (ticks : List (Pair × Candle)) (b : Bot) (h : 0 ≤ b.portfolio.cash) :
    0 ≤ (run b ticks).portfolio.cash := by
  induction ticks generalizing b with
  | nil => exact h
  | cons tick rest ih =>
    exact ih (onNewCandle b tick.1 tick.2) (onNewCandle_cash_nonneg b tick.1 tick.2 h)

end PaperTradingBot

namespace UltraTradingBot

/-! ### Cash never goes negative (ultra bot) -/

theorem closeTrade_cash (b : Bot) (pair : Pair) (t : Trade) (x : ℚ) (sl : Bool) :
    (closeTrade b pair t x sl).portfolio.cash
      = b.portfolio.cash + x * (jsGet b.portfolio.positions pair).getD 0 := rfl

theorem closeTrade_positions (b : Bot) (pair : Pair) (t : Trade) (x : ℚ) (sl : Bool) :
    (closeTrade b pair t x sl).portfolio.positions = jsSet b.portfolio.positions pair 0 := rfl

theorem firePartialLevel_cash (pair : Pair) (x e : ℚ) (idx : Nat) (b : Bot) (t : Trade)
    (cl : List ℚ) (level : UltraLSTM85.PartialLevel) :
    (firePartialLevel pair x e idx b t cl level).portfolio.cash
      = b.portfolio.cash + x * ((jsGet b.portfolio.positions pair).getD 0 * level.percentage) :=
  rfl

theorem firePartialLevel_positions (pair : Pair) (x e : ℚ) (idx : Nat) (b : Bot) (t : Trade)
    (cl : List ℚ) (level : UltraLSTM85.PartialLevel) :
    (firePartialLevel pair x e idx b t cl level).portfolio.positions
      = jsSet b.portfolio.positions pair ((jsGet b.portfolio.positions pair).getD 0
          - (jsGet b.portfolio.positions pair).getD 0 * level.percentage) :=
  rfl

theorem partialLevelStep_nonneg (pair : Pair) (x e pc : ℚ) (idx : Nat) (b : Bot)
    (level : UltraLSTM85.PartialLevel) (hx : 0 ≤ x) (hl0 : 0 ≤ level.percentage)
    (hl1 : level.percentage ≤ 1) (h : CashAndHeldNonneg pair b) :
    CashAndHeldNonneg pair (partialLevelStep pair x e pc idx b level) := by
  unfold partialLevelStep
  split
  · exact h
  · rename_i openTrade _
    by_cases hc : pc ≥ level.level ∧ openTrade.closedLevels = none
    · rw [if_pos hc]
      dsimp only
      by_cases hmem : level.level ∈ openTrade.closedLevels.getD []
      · rw [if_pos hmem]; exact h
      · rw [if_neg hmem]
        obtain ⟨hcash, hheld⟩ := h
        constructor
        · rw [firePartialLevel_cash]
          exact add_nonneg hcash (mul_nonneg hx (mul_nonneg hheld hl0))
        · rw [firePartialLevel_positions, jsGet_jsSet_self]
          have h1 : (jsGet b.portfolio.positions pair).getD 0 * level.percentage
              ≤ (jsGet b.portfolio.positions pair).getD 0 * 1 :=
            mul_le_mul_of_nonneg_left hl1 hheld
          have h2 : 0 ≤ (jsGet b.portfolio.positions pair).getD 0
              - (jsGet b.portfolio.positions pair).getD 0 * level.percentage := by linarith
          exact h2
    · rw [if_neg hc]; exact h

theorem partialLevels_foldl_nonneg (pair : Pair) (x e pc : ℚ) (idx : Nat)
    (levels : List UltraLSTM85.PartialLevel) (hx : 0 ≤ x)
    (hl : ∀ l ∈ levels, 0 ≤ l.percentage ∧ l.percentage ≤ 1) (b : Bot)
    (h : CashAndHeldNonneg pair b) :
    CashAndHeldNonneg pair (levels.foldl (partialLevelStep pair x e pc idx) b) := by
  induction levels generalizing b with
  | nil => exact h
  | cons l rest ih =>
    refine ih (fun l' hl' => hl l' (List.mem_cons_of_mem _ hl')) _ ?_
    exact partialLevelStep_nonneg pair x e pc idx b l hx (hl l (List.mem_cons_self _ _)).1
      (hl l (List.mem_cons_self _ _)).2 h

theorem partialLevels_percentage_bounds :
    ∀ l ∈ UltraLSTM85.takeProfit.partialLevels, 0 ≤ l.percentage ∧ l.percentage ≤ 1 := by
  intro l hl
  simp only [UltraLSTM85.takeProfit, List.mem_cons, List.mem_singleton, List.not_mem_nil,
    or_false] at hl
  rcases hl with rfl | rfl | rfl <;> norm_num

theorem ultra_check_cash_nonneg (b : Bot) (pair : Pair) (x : ℚ) (hx : 0 < x)
    (h : 0 ≤ b.portfolio.cash) :
    0 ≤ (checkStopLossAndTakeProfit b pair x).1.portfolio.cash := by
  unfold checkStopLossAndTakeProfit
  split
  · exact h
  · split
    · exact h
    · rename_i idx _ _ openTrade _
      cases hopen : noOpenPosition b.portfolio.positions pair with
      | true => simpa using h
      | false =>
        obtain ⟨held, hheld, hpos⟩ := noOpenPosition_eq_false hopen
        have hq : 0 ≤ (jsGet b.portfolio.positions pair).getD 0 := by
          rw [hheld]; exact le_of_lt hpos
        have hclose : 0 ≤ b.portfolio.cash + x * (jsGet b.portfolio.positions pair).getD 0 :=
          add_nonneg h (mul_nonneg (le_of_lt hx) hq)
        simp only [Bool.false_eq_true, if_false]
        split
        · exact h
        · rename_i atr _
          by_cases hsl : percentChange x openTrade.entryPrice < -slPercent atr x
          · rw [if_pos hsl]; exact hclose
          · rw [if_neg hsl]
            by_cases hact : percentChange x openTrade.entryPrice > UltraLSTM85.trailing.activation
            · rw [if_pos hact]
              by_cases htr : percentChange x openTrade.entryPrice
                  < trailedMaxProfit openTrade (percentChange x openTrade.entryPrice)
                    - UltraLSTM85.trailing.trailingPercent
              · rw [if_pos htr]; exact hclose
              · rw [if_neg htr]
                have hJ : CashAndHeldNonneg pair (modifyTrade b idx (fun t => { t with
                    maxProfit := some (trailedMaxProfit openTrade
                      (percentChange x openTrade.entryPrice)) })) := ⟨h, hq⟩
                have hfold := partialLevels_foldl_nonneg pair x openTrade.entryPrice
                  (percentChange x openTrade.entryPrice) idx UltraLSTM85.takeProfit.partialLevels
                  (le_of_lt hx) partialLevels_percentage_bounds _ hJ
                exact hfold.1
            · rw [if_neg hact]
              have hJ : CashAndHeldNonneg pair b := ⟨h, hq⟩
              have hfold := partialLevels_foldl_nonneg pair x openTrade.entryPrice
                (percentChange x openTrade.entryPrice) idx UltraLSTM85.takeProfit.partialLevels
                (le_of_lt hx) partialLevels_percentage_bounds _ hJ
              exact hfold.1

theorem ultra_executeTrade_cash_nonneg (b : Bot) (pair : Pair) (signal : Signal) (x : ℚ)
    (hx : 0 < x) (h : 0 ≤ b.portfolio.cash) :
    0 ≤ (executeTrade b pair signal x).portfolio.cash := by
  unfold executeTrade
  cases signal.action with
  | BUY =>
    dsimp only
    by_cases h0 : calculatePositionSizeKelly b pair x = 0
    · rw [if_pos h0]; exact h
    · rw [if_neg h0]
      by_cases h1 : calculatePositionSizeKelly b pair x * x
          + calculatePositionSizeKelly b pair x * x * 0.001 > b.portfolio.cash
      · rw [if_pos h1]; exact h
      · rw [if_neg h1]
        exact sub_nonneg.mpr (not_lt.mp h1)
  | SELL =>
    dsimp only
    cases hopen : noOpenPosition b.portfolio.positions pair with
    | true => simpa using h
    | false =>
      obtain ⟨held, hheld, hpos⟩ := noOpenPosition_eq_false hopen
      simp only [Bool.false_eq_true, if_false]
      split
      · exact h
      · show 0 ≤ b.portfolio.cash + ((jsGet b.portfolio.positions pair).getD 0 * x
          - (jsGet b.portfolio.positions pair).getD 0 * x * 0.001)
        rw [hheld]
        have := mul_pos hpos hx
        simp only [Option.getD_some]
        linarith
  | HOLD => exact h

theorem ultra_onNewCandle_cash_nonneg (b : Bot) (pair : Pair) (candle : Candle) (raw : Signal)
    (hx : 0 < candle.close) (h : 0 ≤ b.portfolio.cash) :
    0 ≤ (onNewCandle b pair candle raw).portfolio.cash := by
  unfold onNewCandle
  dsimp only
  have hc := ultra_check_cash_nonneg (recordCandle b pair candle) pair candle.close hx h
  split
  · exact hc
  · split
    · exact ultra_executeTrade_cash_nonneg _ _ _ _ hx hc
    · exact hc

theorem ultra_run_cash_nonneg (ticks : List Tick) (b : Bot)
    (hx : ∀ tick ∈ ticks, 0 < tick.candle.close) (h : 0 ≤ b.portfolio.cash) :
    0 ≤ (run b ticks).portfolio.cash := by
  induction ticks generalizing b with
  | nil => exact h
  | cons tick rest ih =>
    exact ih (onNewCandle b tick.pair tick.candle tick.raw)
      (fun t ht => hx t (List.mem_cons_of_mem _ ht))
      (ultra_onNewCandle_cash_nonneg b tick.pair tick.candle tick.raw
        (hx tick (List.mem_cons_self _ _)) h)

end UltraTradingBot

/-- C2. From a portfolio with `cash = initialCapital > 0` and no positions, after every sequence
of `onNewCandle` ticks with strictly positive prices the cash is non-negative, in
`PaperTradingBot` and in `UltraTradingBot` (whatever the signal engine answers).  The paper bot
needs no assumption on the prices: its `executeTrade` rejects a non-positive price itself. -/
theorem cash_nonneg_in_every_reachable_state (initialCapital : ℚ) (tradingPairs : List Pair)
    (paperTicks : List (Pair × Candle)) (ultraTicks : List UltraTradingBot.Tick)
    (hcap : 0 < initialCapital)
    (hultra : ∀ tick ∈ ultraTicks, 0 < tick.candle.close) :
    0 ≤ (PaperTradingBot.run (PaperTradingBot.new initialCapital) paperTicks).portfolio.cash ∧
    0 ≤ (UltraTradingBot.run (UltraTradingBot.new initialCapital tradingPairs)
          ultraTicks).portfolio.cash := by
  have hne : initialCapital ≠ 0 := ne_of_gt hcap
  constructor
  · apply PaperTradingBot.run_cash_nonneg
    show 0 ≤ (if initialCapital = 0 then (10000 : ℚ) else initialCapital)
    rw [if_neg hne]; exact le_of_lt hcap
  · apply UltraTradingBot.ultra_run_cash_nonneg _ _ hultra
    show 0 ≤ (if initialCapital = 0 then (10000 : ℚ) else initialCapital)
    rw [if_neg hne]; exact le_of_lt hcap

/-- Witness for C2: capital 10000; the paper bot after the sixteen ticks of the scenario
(a BUY, then a take-profit exit), the ultra bot after a BUY tick and a tick at 99. -/
theorem cash_nonneg_in_every_reachable_state_witness :
    0 ≤ (PaperTradingBot.run (PaperTradingBot.new 10000)
          (PaperTradingBot.fallingThenBuy ++ [("BTCUSDT", PaperTradingBot.candle 99 104)])).portfolio.cash ∧
    0 ≤ (UltraTradingBot.run (UltraTradingBot.new 10000 ["BTCUSDT"])
          [UltraTradingBot.buyTick, UltraTradingBot.holdTick 99]).portfolio.cash :=
  cash_nonneg_in_every_reachable_state 10000 ["BTCUSDT"]
    (PaperTradingBot.fallingThenBuy ++ [("BTCUSDT", PaperTradingBot.candle 99 104)])
    [UltraTradingBot.buyTick, UltraTradingBot.holdTick 99] (by norm_num) (by decide!)

namespace UltraTradingBot

/-- C3 (the code at the failing inputs).  From the state after a BUY of 10 units at 100
(cash 8999): the stop-loss close at 99 credits `10 * 99 = 990`, and the partial take-profit at 110
credits `3 * 110 = 330`, both without the 0.1% close commission, whereas the signal-driven SELL
at 99 credits `10 * 99 * (1 - 0.001) = 989.01`. -/
theorem exits_by_closeTrade_and_partial_close_pay_no_commission :
    (checkStopLossAndTakeProfit afterBuy "BTCUSDT" 99).2 = true ∧
    (checkStopLossAndTakeProfit afterBuy "BTCUSDT" 99).1.portfolio.cash = 8999 + 10 * 99 ∧
    (checkStopLossAndTakeProfit afterBuy "BTCUSDT" 99).1.portfolio.cash
      ≠ 8999 + 10 * 99 * (1 - 0.001) ∧
    (checkStopLossAndTakeProfit afterBuy "BTCUSDT" 110).1.portfolio.cash = 8999 + 3 * 110 ∧
    jsGet (checkStopLossAndTakeProfit afterBuy "BTCUSDT" 110).1.portfolio.positions "BTCUSDT"
      = some 7 ∧
    (checkStopLossAndTakeProfit afterBuy "BTCUSDT" 110).1.portfolio.cash
      ≠ 8999 + 3 * 110 * (1 - 0.001) ∧
    (executeTrade afterBuy "BTCUSDT" { action := Action.SELL, confidence := 1 } 99).portfolio.cash
      = 8999 + 10 * 99 * (1 - 0.001) := by
  decide!

/-- C4. A BUY whose sized quantity `q` at price `p > 0` has `q*p*(1 + 0.001) > cash` leaves the whole
bot state unchanged (cash, positions, trades, totalProfit and the counters among it); hence a
rejected entry for pair A followed by any entry for pair B gives the state obtained by applying
the entry for B alone. -/
theorem executeTrade_buy_insufficient_funds_no_mutation (b : Bot) (pairA pairB : Pair)
    (signalA signalB : Signal) (pA pB : ℚ) (hbuy : signalA.action = Action.BUY) (_hpA : 0 < pA)
    (hfunds : calculatePositionSizeKelly b pairA pA * pA * (1 + 0.001) > b.portfolio.cash) :
    executeTrade b pairA signalA pA = b ∧
    executeTrade (executeTrade b pairA signalA pA) pairB signalB pB
      = executeTrade b pairB signalB pB := by
  have h : executeTrade b pairA signalA pA = b := by
    unfold executeTrade
    rw [hbuy]
    dsimp only
    have hcost : calculatePositionSizeKelly b pairA pA * pA
        + calculatePositionSizeKelly b pairA pA * pA * 0.001 > b.portfolio.cash := by
      have e : calculatePositionSizeKelly b pairA pA * pA
          + calculatePositionSizeKelly b pairA pA * pA * 0.001
          = calculatePositionSizeKelly b pairA pA * pA * (1 + 0.001) := by ring
      rw [e]; exact hfunds
    rw [if_pos hcost]
    split_ifs <;> rfl
  exact ⟨h, by rw [h]⟩

/-- Witness for C4: after nine entries the cash left (about 995) is below the cost of a tenth
entry sized at 10% of the portfolio value; the BUY for BTCUSDT is rejected. -/
theorem executeTrade_buy_insufficient_funds_no_mutation_witness :
    executeTrade afterNineBuys "BTCUSDT" { action := Action.BUY, confidence := 0.9 } 100
      = afterNineBuys ∧
    executeTrade
        (executeTrade afterNineBuys "BTCUSDT" { action := Action.BUY, confidence := 0.9 } 100)
        "ETHUSDT" { action := Action.BUY, confidence := 0.9 } 50
      = executeTrade afterNineBuys "ETHUSDT" { action := Action.BUY, confidence := 0.9 } 50 :=
  executeTrade_buy_insufficient_funds_no_mutation afterNineBuys "BTCUSDT" "ETHUSDT"
    { action := Action.BUY, confidence := 0.9 } { action := Action.BUY, confidence := 0.9 }
    100 50 rfl (by norm_num) (by decide!)

end UltraTradingBot

/-- C5. In both bots `executeTrade` with a SELL signal for a pair without an open position
(`positions[pair]` absent, zero or negative) returns the state unchanged, for every price and
confidence. -/
theorem executeTrade_sell_without_position_no_effect (pb : PaperTradingBot.Bot)
    (ub : UltraTradingBot.Bot) (pair : Pair) (ps : PaperTradingBot.Signal)
    (us : UltraTradingBot.Signal) (price : ℚ)
    (hps : ps.action = Action.SELL) (hus : us.action = Action.SELL)
    (hp : ∀ q, jsGet pb.portfolio.positions pair = some q → q ≤ 0)
    (hu : ∀ q, jsGet ub.portfolio.positions pair = some q → q ≤ 0) :
    PaperTradingBot.executeTrade pb pair ps price = pb ∧
    UltraTradingBot.executeTrade ub pair us price = ub := by
  have hn : ∀ m : List (Pair × ℚ), (∀ q, jsGet m pair = some q → q ≤ 0) →
      noOpenPosition m pair = true := by
    intro m hm
    unfold noOpenPosition
    cases hq : jsGet m pair with
    | none => rfl
    | some q => simp [hm q hq]
  constructor
  · unfold PaperTradingBot.executeTrade
    by_cases h1 : pair = "" ∨ price ≤ 0
    · rw [if_pos h1]
    rw [if_neg h1]
    by_cases h2 : ps.action = Action.BUY ∧ ps.confidence < 0.70
    · rw [if_pos h2]
    rw [if_neg h2]
    dsimp only
    by_cases h3 : PaperTradingBot.calculatePositionSize pb pair price ps.confidence = 0
    · rw [if_pos h3]
    rw [if_neg h3, hps]
    dsimp only
    rw [hn _ hp, if_pos rfl]
  · unfold UltraTradingBot.executeTrade
    rw [hus]
    dsimp only
    rw [hn _ hu, if_pos rfl]

/-- Witness for C5: fresh bots (no entry for BTCUSDT in the paper bot's positions, position 0
for BTCUSDT in the ultra bot) and a SELL at price 100. -/
theorem executeTrade_sell_without_position_no_effect_witness :
    PaperTradingBot.executeTrade (PaperTradingBot.new 10000) "BTCUSDT"
        { action := Action.SELL, confidence := 1 } 100 = PaperTradingBot.new 10000 ∧
    UltraTradingBot.executeTrade (UltraTradingBot.new 10000 ["BTCUSDT"]) "BTCUSDT"
        { action := Action.SELL, confidence := 1 } 100 = UltraTradingBot.new 10000 ["BTCUSDT"] :=
  executeTrade_sell_without_position_no_effect (PaperTradingBot.new 10000)
    (UltraTradingBot.new 10000 ["BTCUSDT"]) "BTCUSDT"
    { action := Action.SELL, confidence := 1 } { action := Action.SELL, confidence := 1 } 100
    rfl rfl
    (fun q h => by
      have h0 : jsGet (PaperTradingBot.new 10000).portfolio.positions "BTCUSDT" = none := by
        decide!
      rw [h0] at h; cases h)
    (fun q h => by
      have h0 : jsGet (UltraTradingBot.new 10000 ["BTCUSDT"]).portfolio.positions "BTCUSDT"
          = some 0 := by decide!
      rw [h0] at h; cases h; exact le_refl 0)

namespace PaperTradingBot

/-- C6 (counterexample).  After two BUY fills for BTCUSDT (4 units at 100, then 4.01913567 units
at 99.5) the stop-loss at 97.9 sells 4.07941551 units in one SELL record; it copies the entry
price 99.5 of the second BUY record (index 1), against which it is closed and whose quantity is
4.01913567. -/
theorem oversell_against_most_recent_entry :
    ((run (new 10000) twoBuysThenStop).portfolio.trades.map
        (fun t => (t.action, t.entryPrice, t.quantity)))
      = [(Action.BUY, 100, 4), (Action.BUY, 99.5, 4.01913567),
         (Action.SELL, 99.5, 4.07941551)] ∧
    exitQuantityAgainst (run (new 10000) twoBuysThenStop).portfolio.trades 1 = 4.07941551 ∧
    ¬ NoOversell (run (new 10000) twoBuysThenStop).portfolio.trades := by
  decide!


/-! ### Ledger consistency of the paper bot -/

theorem boughtQuantity_append (ts : List Trade) (t : Trade) (pair : Pair) :
    boughtQuantity (ts ++ [t]) pair
      = boughtQuantity ts pair
        + (if t.pair = pair ∧ t.action = Action.BUY then t.quantity else 0) := by
  unfold boughtQuantity
  by_cases h : t.pair = pair ∧ t.action = Action.BUY
  · simp [List.filter_append, List.filter_cons, h.1, h.2]
  · have h' : (decide (t.pair = pair) && decide (t.action = Action.BUY)) = false := by
      simpa using h
    simp [List.filter_append, List.filter_cons, h', h]

theorem soldQuantity_append (ts : List Trade) (t : Trade) (pair : Pair) :
    soldQuantity (ts ++ [t]) pair
      = soldQuantity ts pair
        + (if t.pair = pair ∧ t.action = Action.SELL then t.quantity else 0) := by
  unfold soldQuantity
  by_cases h : t.pair = pair ∧ t.action = Action.SELL
  · simp [List.filter_append, List.filter_cons, h.1, h.2]
  · have h' : (decide (t.pair = pair) && decide (t.action = Action.SELL)) = false := by
      simpa using h
    simp [List.filter_append, List.filter_cons, h', h]

theorem soldQuantity_nonneg (ts : List Trade) (pair : Pair) (h : ∀ t ∈ ts, 0 ≤ t.quantity) :
    0 ≤ soldQuantity ts pair := by
  unfold soldQuantity
  apply List.sum_nonneg
  intro q hq
  obtain ⟨t, ht, rfl⟩ := List.mem_map.mp hq
  exact h t (List.mem_filter.mp ht).1

theorem exists_buy_of_boughtQuantity_pos (ts : List Trade) (pair : Pair)
    (h : 0 < boughtQuantity ts pair) :
    ∃ t ∈ ts, t.pair = pair ∧ t.action = Action.BUY := by
  by_contra hne
  have hnil : ts.filter (fun t => decide (t.pair = pair) && decide (t.action = Action.BUY)) = [] := by
    rw [List.filter_eq_nil_iff]
    intro t ht hp
    simp only [Bool.and_eq_true, decide_eq_true_eq] at hp
    exact hne ⟨t, ht, hp⟩
  unfold boughtQuantity at h
  rw [hnil] at h
  simp at h

theorem LedgerConsistent.findOpenBuy_isSome {b : Bot} (hb : LedgerConsistent b) {pair : Pair}
    (hopen : noOpenPosition b.portfolio.positions pair = false) :
    ∃ buyTrade, findOpenBuy b.portfolio.trades pair = some buyTrade := by
  obtain ⟨held, hheld, hpos⟩ := noOpenPosition_eq_false hopen
  have heq := hb.position_eq pair
  rw [hheld] at heq
  have hsold := soldQuantity_nonneg b.portfolio.trades pair hb.quantity_nonneg
  have hbought : 0 < boughtQuantity b.portfolio.trades pair := by
    simp only [Option.getD_some] at heq
    linarith
  obtain ⟨t, ht, htp, hta⟩ := exists_buy_of_boughtQuantity_pos _ _ hbought
  have hsome : (findOpenBuy b.portfolio.trades pair).isSome = true := by
    unfold findOpenBuy
    rw [List.find?_isSome]
    exact ⟨t, List.mem_reverse.mpr ht, by simp [htp, hta, hb.buy_open t ht hta]⟩
  exact Option.isSome_iff_exists.mp hsome

/-- The three outcomes of `executeTrade`: nothing happens, a BUY is filled, or a SELL passes the
guards. -/
theorem executeTrade_cases (b : Bot) (pair : Pair) (signal : Signal) (x : ℚ) :
    executeTrade b pair signal x = b ∨
    (pair ≠ "" ∧ 0 < x ∧ signal.action = Action.BUY ∧ 0.70 ≤ signal.confidence
      ∧ calculatePositionSize b pair x signal.confidence ≠ 0
      ∧ calculatePositionSize b pair x signal.confidence * x * 1.001 ≤ b.portfolio.cash) ∨
    (pair ≠ "" ∧ 0 < x ∧ signal.action = Action.SELL
      ∧ calculatePositionSize b pair x signal.confidence ≠ 0
      ∧ noOpenPosition b.portfolio.positions pair = false) := by
  by_cases h1 : pair = "" ∨ x ≤ 0
  · left; unfold executeTrade; rw [if_pos h1]
  by_cases h2 : signal.action = Action.BUY ∧ signal.confidence < 0.70
  · left; unfold executeTrade; rw [if_neg h1, if_pos h2]
  by_cases h3 : calculatePositionSize b pair x signal.confidence = 0
  · left; unfold executeTrade; rw [if_neg h1, if_neg h2]; dsimp only; rw [if_pos h3]
  have hpair : pair ≠ "" := fun h => h1 (Or.inl h)
  have hx : 0 < x := not_le.mp (fun h => h1 (Or.inr h))
  cases hact : signal.action with
  | BUY =>
    have hconf : 0.70 ≤ signal.confidence := not_lt.mp (fun h => h2 ⟨hact, h⟩)
    by_cases h4 : calculatePositionSize b pair x signal.confidence * x
        + calculatePositionSize b pair x signal.confidence * x * 0.001 > b.portfolio.cash
    · left
      unfold executeTrade
      rw [if_neg h1, if_neg h2]; dsimp only; rw [if_neg h3, hact]; dsimp only; rw [if_pos h4]
    · right; left
      refine ⟨hpair, hx, rfl, hconf, h3, ?_⟩
      have e : calculatePositionSize b pair x signal.confidence * x * 1.001
          = calculatePositionSize b pair x signal.confidence * x
            + calculatePositionSize b pair x signal.confidence * x * 0.001 := by ring
      rw [e]; exact not_lt.mp h4
  | SELL =>
    cases hopen : noOpenPosition b.portfolio.positions pair with
    | true =>
      left
      unfold executeTrade
      rw [if_neg h1, if_neg h2]; dsimp only; rw [if_neg h3, hact]; dsimp only
      rw [hopen, if_pos rfl]
    | false => right; right; exact ⟨hpair, hx, rfl, h3, rfl⟩
  | HOLD =>
    left
    unfold executeTrade
    rw [if_neg h1, if_neg h2]; dsimp only; rw [if_neg h3, hact]


theorem LedgerConsistent.executeTrade {b : Bot} (hb : LedgerConsistent b) (pair : Pair)
    (signal : Signal) (x : ℚ) : LedgerConsistent (executeTrade b pair signal x) := by
  rcases executeTrade_cases b pair signal x with h | h | h
  · rw [h]; exact hb
  · obtain ⟨hpair, hx, hbuy, hconf, hq0, hcash⟩ := h
    have hq := calculatePositionSize_nonneg b pair x signal.confidence
    rw [executeTrade_buy_eq b pair signal x hpair hx hbuy hconf hq0 hcash]
    constructor
    · intro pair'
      dsimp only
      rw [boughtQuantity_append, soldQuantity_append]
      by_cases hp : pair' = pair
      · subst hp
        rw [jsGet_jsSet_self]
        have := hb.position_eq pair'
        simp only [Option.getD_some, true_and, if_true, and_false, if_false, reduceCtorEq]
        linarith
      · rw [jsGet_jsSet_ne _ _ _ _ hp]
        have := hb.position_eq pair'
        have hp' : ¬ pair = pair' := fun h => hp h.symm
        simp only [hp', false_and, if_false]
        linarith
    · intro pair'
      dsimp only
      by_cases hp : pair' = pair
      · subst hp
        rw [jsGet_jsSet_self]
        have := hb.position_nonneg pair'
        simp only [Option.getD_some]
        linarith
      · rw [jsGet_jsSet_ne _ _ _ _ hp]
        exact hb.position_nonneg pair'
    · intro t ht hta
      dsimp only at ht
      rcases List.mem_append.mp ht with h | h
      · exact hb.buy_open t h hta
      · rw [List.mem_singleton.mp h]
    · intro t ht
      dsimp only at ht
      rcases List.mem_append.mp ht with h | h
      · exact hb.quantity_nonneg t h
      · rw [List.mem_singleton.mp h]; exact hq
  · obtain ⟨hpair, hx, hsell, hq0, hopen⟩ := h
    obtain ⟨buyTrade, hfind⟩ := hb.findOpenBuy_isSome hopen
    obtain ⟨held, hheld, hpos⟩ := noOpenPosition_eq_false hopen
    have hq := calculatePositionSize_nonneg b pair x signal.confidence
    have ha0 : 0 ≤ actualPositionSize b pair signal x := by
      unfold actualPositionSize
      rw [hheld]; exact le_min hq (le_of_lt hpos)
    have ha1 : actualPositionSize b pair signal x ≤ (jsGet b.portfolio.positions pair).getD 0 := by
      unfold actualPositionSize
      exact min_le_right _ _
    rw [executeTrade_sell_eq b pair signal x buyTrade hpair hx hsell hq0 hopen hfind]
    constructor
    · intro pair'
      dsimp only
      rw [boughtQuantity_append, soldQuantity_append]
      by_cases hp : pair' = pair
      · subst hp
        rw [jsGet_jsSet_self]
        have := hb.position_eq pair'
        simp only [Option.getD_some, true_and, if_true, and_false, if_false, reduceCtorEq]
        linarith
      · rw [jsGet_jsSet_ne _ _ _ _ hp]
        have := hb.position_eq pair'
        have hp' : ¬ pair = pair' := fun h => hp h.symm
        simp only [hp', false_and, if_false]
        linarith
    · intro pair'
      dsimp only
      by_cases hp : pair' = pair
      · subst hp
        rw [jsGet_jsSet_self]
        simp only [Option.getD_some]
        linarith
      · rw [jsGet_jsSet_ne _ _ _ _ hp]
        exact hb.position_nonneg pair'
    · intro t ht hta
      dsimp only at ht
      rcases List.mem_append.mp ht with h | h
      · exact hb.buy_open t h hta
      · rw [List.mem_singleton.mp h] at hta
        cases hta
    · intro t ht
      dsimp only at ht
      rcases List.mem_append.mp ht with h | h
      · exact hb.quantity_nonneg t h
      · rw [List.mem_singleton.mp h]; exact ha0

theorem LedgerConsistent.checkStopLossAndTakeProfit {b : Bot} (hb : LedgerConsistent b)
    (pair : Pair) (x : ℚ) : LedgerConsistent (checkStopLossAndTakeProfit b pair x).1 := by
  unfold PaperTradingBot.checkStopLossAndTakeProfit
  split
  · exact hb
  · split_ifs
    · exact hb
    · dsimp only
      split_ifs
      · exact hb.executeTrade _ _ _
      · exact hb.executeTrade _ _ _
      · exact hb

theorem LedgerConsistent.onNewCandle {b : Bot} (hb : LedgerConsistent b) (pair : Pair)
    (candle : Candle) : LedgerConsistent (onNewCandle b pair candle) := by
  unfold PaperTradingBot.onNewCandle
  dsimp only
  have hb1 : LedgerConsistent (recordCandle b pair candle) :=
    ⟨hb.position_eq, hb.position_nonneg, hb.buy_open, hb.quantity_nonneg⟩
  have hc := hb1.checkStopLossAndTakeProfit pair candle.close
  split_ifs
  · exact hc.executeTrade _ _ _
  · exact hc

theorem LedgerConsistent.run (ticks : List (Pair × Candle)) {b : Bot} (hb : LedgerConsistent b) :
    LedgerConsistent (run b ticks) := by
  induction ticks generalizing b with
  | nil => exact hb
  | cons tick rest ih => exact ih (hb.onNewCandle tick.1 tick.2)

theorem LedgerConsistent.new (initialCapital : ℚ) : LedgerConsistent (new initialCapital) := by
  constructor
  · intro pair; simp [PaperTradingBot.new, jsGet, boughtQuantity, soldQuantity]
  · intro pair; simp [PaperTradingBot.new, jsGet]
  · intro t ht; simp [PaperTradingBot.new] at ht
  · intro t ht; simp [PaperTradingBot.new] at ht

/-- C6 (amended).  In every state the paper bot reaches from its initial portfolio, for every
pair the quantities of the SELL records of the pair sum to at most the quantities of its BUY
records, and the difference is the open position `positions[pair]`. -/
theorem sold_quantity_le_bought_quantity (initialCapital : ℚ) (ticks : List (Pair × Candle))
    (pair : Pair) :
    soldQuantity (run (new initialCapital) ticks).portfolio.trades pair
      ≤ boughtQuantity (run (new initialCapital) ticks).portfolio.trades pair ∧
    (jsGet (run (new initialCapital) ticks).portfolio.positions pair).getD 0
      = boughtQuantity (run (new initialCapital) ticks).portfolio.trades pair
        - soldQuantity (run (new initialCapital) ticks).portfolio.trades pair := by
  have h := LedgerConsistent.run ticks (LedgerConsistent.new initialCapital)
  have h1 := h.position_eq pair
  have h2 := h.position_nonneg pair
  exact ⟨by linarith, h1⟩

end PaperTradingBot

namespace PaperTradingBot

/-- C7 (counterexample).  With 4 units entered at 100 (entry commission 0.4), a SELL at 104 is
sized 3.846 units; the recorded profit is 14.584016, the full 0.4 being charged, not the
proportional formula's 14.599416. -/
theorem sell_profit_is_not_proportional :
    ((executeTrade afterFirstBuy "BTCUSDT" { action := Action.SELL, confidence := 1 }
        104).portfolio.trades.getLast?.map
        (fun t => (t.action, t.quantity, t.entryPrice, t.openCommission, t.profit)))
      = some (Action.SELL, 3.846, 100, some 0.4, some 14.584016) ∧
    (findOpenBuy afterFirstBuy.portfolio.trades "BTCUSDT").map
        (fun t => (t.entryPrice, t.quantity, t.commission)) = some (100, 4, some 0.4) ∧
    proportionalProfit 104 100 3.846 4 0.4 = 14.599416 ∧
    (executeTrade afterFirstBuy "BTCUSDT" { action := Action.SELL, confidence := 1 }
        104).portfolio.trades.getLast?.bind Trade.profit
      ≠ some (proportionalProfit 104 100 3.846 4 0.4) := by
  decide!

/-- C7 (amended).  Every SELL fill of quantity `q` at exit price `x` against the entry record
`buyTrade` (entry price `e`, commission `c`) appends one SELL record with
`profit = (x - e)*q - c - x*q*0.001`: the whole entry commission is charged on each fill.  When
the fill closes the whole entry quantity this is the proportional formula. -/
theorem executeTrade_sell_profit_full_entry_commission (b : Bot) (pair : Pair) (signal : Signal)
    (x : ℚ) (buyTrade : Trade) (hpair : pair ≠ "") (hx : 0 < x)
    (hsell : signal.action = Action.SELL)
    (hq0 : calculatePositionSize b pair x signal.confidence ≠ 0)
    (hopen : noOpenPosition b.portfolio.positions pair = false)
    (hfind : findOpenBuy b.portfolio.trades pair = some buyTrade) :
    ∃ t, (executeTrade b pair signal x).portfolio.trades = b.portfolio.trades ++ [t] ∧
      t.action = Action.SELL ∧ t.quantity = actualPositionSize b pair signal x ∧
      t.entryPrice = buyTrade.entryPrice ∧
      t.profit = some ((x - buyTrade.entryPrice) * t.quantity - buyTrade.commission.getD 0
        - x * t.quantity * 0.001) ∧
      (t.quantity = buyTrade.quantity → buyTrade.quantity ≠ 0 →
        t.profit = some (proportionalProfit x buyTrade.entryPrice t.quantity buyTrade.quantity
          (buyTrade.commission.getD 0))) := by
  rw [executeTrade_sell_eq b pair signal x buyTrade hpair hx hsell hq0 hopen hfind]
  refine ⟨_, rfl, rfl, rfl, rfl, ?_, ?_⟩
  · dsimp only
    unfold sellProfit
    congr 1
    ring
  · dsimp only
    intro hq hQ
    unfold sellProfit proportionalProfit
    rw [hq, div_self hQ]
    congr 1
    ring

/-- Witness for C7 (amended): the SELL at 104 of the scenario, matched against the BUY of 4 units
at 100. -/
theorem executeTrade_sell_profit_full_entry_commission_witness :
    ∃ t, (executeTrade afterFirstBuy "BTCUSDT" { action := Action.SELL, confidence := 1 }
          104).portfolio.trades = afterFirstBuy.portfolio.trades ++ [t] ∧
      t.profit = some ((104 - 100) * t.quantity - 0.4 - 104 * t.quantity * 0.001) := by
  obtain ⟨t, h1, _, _, _, h5, _⟩ := executeTrade_sell_profit_full_entry_commission afterFirstBuy
    "BTCUSDT" { action := Action.SELL, confidence := 1 } 104
    { pair := "BTCUSDT", action := Action.BUY, entryPrice := 100, quantity := 4, confidence := 1,
      commission := some 0.4, cost := some 400 }
    (by decide) (by norm_num) rfl (by decide!) (by decide!) (by decide!)
  exact ⟨t, h1, h5⟩

/-- C8 (the code at the failing inputs).  With 4 units entered at 100, the take-profit check at
104 returns `true` but `executeTrade` re-sizes the SELL to 3.846 units: 0.154 units stay open
(0.14784616 when the tick comes through `onNewCandle`).  With capital 1255 (0.502 units entered
at 100) the stop-loss check of the tick at 90 returns `true` although the sizer returns 0: the
state is unchanged, no SELL record is appended and the position stays whole. -/
theorem triggered_exit_does_not_close_position :
    (checkStopLossAndTakeProfit afterFirstBuy "BTCUSDT" 104).2 = true ∧
    jsGet (checkStopLossAndTakeProfit afterFirstBuy "BTCUSDT" 104).1.portfolio.positions "BTCUSDT"
      = some 0.154 ∧
    jsGet (run (new 10000) (fallingThenBuy ++ [("BTCUSDT", candle 99 104)])).portfolio.positions
      "BTCUSDT" = some 0.14784616 ∧
    jsGet (run (new 1255) fallingThenBuy).portfolio.positions "BTCUSDT" = some 0.502 ∧
    checkStopLossAndTakeProfit
        (recordCandle (run (new 1255) fallingThenBuy) "BTCUSDT" (candle 91 90)) "BTCUSDT" 90
      = (recordCandle (run (new 1255) fallingThenBuy) "BTCUSDT" (candle 91 90), true) ∧
    (run (new 1255) buyThenCrash).portfolio.trades.length = 1 ∧
    jsGet (run (new 1255) buyThenCrash).portfolio.positions "BTCUSDT" = some 0.502 := by
  decide!

end PaperTradingBot

namespace UltraTradingBot

/-! ### The exit check of the ultra bot -/

/-- Unfolding of `checkStopLossAndTakeProfit` once the open BUY record, the open position and
the ATR are known. -/
theorem checkStopLossAndTakeProfit_eq (b : Bot) (pair : Pair) (x : ℚ) (idx : Nat)
    (openTrade : Trade) (atr : ℚ)
    (hidx : findOpenBuyIdx b.portfolio.trades pair = some idx)
    (ht : b.portfolio.trades[idx]? = some openTrade)
    (hopen : noOpenPosition b.portfolio.positions pair = false)
    (hatr : calculateATR ((jsGet b.priceBuffer pair).getD []) 14 = some atr) :
    checkStopLossAndTakeProfit b pair x =
      if percentChange x openTrade.entryPrice < -slPercent atr x then
        (closeTrade b pair openTrade x true, true)
      else if percentChange x openTrade.entryPrice > UltraLSTM85.trailing.activation then
        if percentChange x openTrade.entryPrice
            < trailedMaxProfit openTrade (percentChange x openTrade.entryPrice)
              - UltraLSTM85.trailing.trailingPercent then
          (closeTrade
            (modifyTrade b idx (fun t => { t with
              maxProfit := some (trailedMaxProfit openTrade
                (percentChange x openTrade.entryPrice)) }))
            pair
            { openTrade with
              maxProfit := some (trailedMaxProfit openTrade
                (percentChange x openTrade.entryPrice)) }
            x false, true)
        else
          (UltraLSTM85.takeProfit.partialLevels.foldl
            (partialLevelStep pair x openTrade.entryPrice
              (percentChange x openTrade.entryPrice) idx)
            (modifyTrade b idx (fun t => { t with
              maxProfit := some (trailedMaxProfit openTrade
                (percentChange x openTrade.entryPrice)) })), false)
      else
        (UltraLSTM85.takeProfit.partialLevels.foldl
          (partialLevelStep pair x openTrade.entryPrice
            (percentChange x openTrade.entryPrice) idx) b, false) := by
  unfold checkStopLossAndTakeProfit
  rw [hidx]
  dsimp only
  rw [ht]
  dsimp only
  rw [hopen, hatr]
  rfl

theorem closeTrade_getLast (b : Bot) (pair : Pair) (t : Trade) (x : ℚ) (sl : Bool) :
    ∃ t', (closeTrade b pair t x sl).portfolio.trades.getLast? = some t' ∧
      t'.action = Action.SELL ∧ t'.isStopLoss = some sl ∧
      t'.quantity = (jsGet b.portfolio.positions pair).getD 0 :=
  ⟨_, List.getLast?_concat _, rfl, rfl, rfl⟩

/-- C9 (counterexample).  Entry at 100 and `slPercent = 0.8`: at price 99.2 the change is exactly
`-0.8`, and the check returns `false` and leaves the state, with its 10 units, unchanged. -/
theorem stop_loss_does_not_fire_at_boundary :
    (atBoundary.portfolio.trades.map (fun t => (t.action, t.entryPrice))) = [(Action.BUY, 100)] ∧
    percentChange 99.2 100 = -0.8 ∧
    calculateATR ((jsGet atBoundary.priceBuffer "BTCUSDT").getD []) 14 = some 0.3968 ∧
    slPercent 0.3968 99.2 = 0.8 ∧
    jsGet atBoundary.portfolio.positions "BTCUSDT" = some 10 ∧
    checkStopLossAndTakeProfit atBoundary "BTCUSDT" 99.2 = (atBoundary, false) := by
  decide!

/-- C9 (amended).  For a pair with an open position, entry record `openTrade`, positive prices
and `slPercent = clamp(atrPercent * 2.0, 0.5, 3.0)`, the stop-loss fires exactly when
`percentChange < -slPercent`, the boundary excluded; when it fires the call returns `true` and
the position is closed in full. -/
theorem stop_loss_fires_iff_below_threshold (b : Bot) (pair : Pair) (x : ℚ) (idx : Nat)
    (openTrade : Trade) (atr : ℚ) (_hx : 0 < x) (_hentry : 0 < openTrade.entryPrice)
    (hidx : findOpenBuyIdx b.portfolio.trades pair = some idx)
    (ht : b.portfolio.trades[idx]? = some openTrade)
    (hopen : noOpenPosition b.portfolio.positions pair = false)
    (hatr : calculateATR ((jsGet b.priceBuffer pair).getD []) 14 = some atr) :
    (StopLossFired (checkStopLossAndTakeProfit b pair x)
      ↔ percentChange x openTrade.entryPrice < -slPercent atr x) ∧
    (percentChange x openTrade.entryPrice < -slPercent atr x →
      (checkStopLossAndTakeProfit b pair x).2 = true ∧
      jsGet (checkStopLossAndTakeProfit b pair x).1.portfolio.positions pair = some 0) := by
  rw [checkStopLossAndTakeProfit_eq b pair x idx openTrade atr hidx ht hopen hatr]
  by_cases hsl : percentChange x openTrade.entryPrice < -slPercent atr x
  · rw [if_pos hsl]
    refine ⟨⟨fun _ => hsl, fun _ => ?_⟩, fun _ => ⟨rfl, ?_⟩⟩
    · obtain ⟨t', h1, h2, h3, _⟩ := closeTrade_getLast b pair openTrade x true
      exact ⟨rfl, t', h1, h2, h3⟩
    · show jsGet (closeTrade b pair openTrade x true).portfolio.positions pair = some 0
      rw [closeTrade_positions]
      exact jsGet_jsSet_self _ _ _
  · rw [if_neg hsl]
    refine ⟨⟨fun hfired => ?_, fun h => absurd h hsl⟩, fun h => absurd h hsl⟩
    exfalso
    by_cases hact : percentChange x openTrade.entryPrice > UltraLSTM85.trailing.activation
    · rw [if_pos hact] at hfired
      by_cases htr : percentChange x openTrade.entryPrice
          < trailedMaxProfit openTrade (percentChange x openTrade.entryPrice)
            - UltraLSTM85.trailing.trailingPercent
      · rw [if_pos htr] at hfired
        obtain ⟨_, t, hlast, _, hflag⟩ := hfired
        obtain ⟨t', h1, _, h3, _⟩ := closeTrade_getLast
          (modifyTrade b idx (fun t => { t with
            maxProfit := some (trailedMaxProfit openTrade
              (percentChange x openTrade.entryPrice)) }))
          pair
          { openTrade with
            maxProfit := some (trailedMaxProfit openTrade
              (percentChange x openTrade.entryPrice)) } x false
        have hlast' : (closeTrade
          (modifyTrade b idx (fun t => { t with
            maxProfit := some (trailedMaxProfit openTrade
              (percentChange x openTrade.entryPrice)) }))
          pair
          { openTrade with
            maxProfit := some (trailedMaxProfit openTrade
              (percentChange x openTrade.entryPrice)) } x false).portfolio.trades.getLast?
            = some t := hlast
        rw [h1] at hlast'
        cases hlast'
        rw [h3] at hflag
        cases hflag
      · rw [if_neg htr] at hfired
        exact Bool.false_ne_true hfired.1
    · rw [if_neg hact] at hfired
      exact Bool.false_ne_true hfired.1

/-- Witness for C9 (amended): at the boundary (`percentChange = -0.8 = -slPercent`) the stop-loss
does not fire; one tick lower, at 99 with `slPercent = 0.5`, it fires. -/
theorem stop_loss_fires_iff_below_threshold_witness :
    ¬ StopLossFired (checkStopLossAndTakeProfit atBoundary "BTCUSDT" 99.2) ∧
    StopLossFired (checkStopLossAndTakeProfit afterBuy "BTCUSDT" 99) :=
  ⟨fun h => absurd
      ((stop_loss_fires_iff_below_threshold atBoundary "BTCUSDT" 99.2 0
        { pair := "BTCUSDT", action := Action.BUY, entryPrice := 100, quantity := 10,
          confidence := some 0.9, commission := some 1, cost := some 1000 } 0.3968
        (by norm_num) (by norm_num) (by decide!) (by decide!) (by decide!) (by decide!)).1.mp h)
      (by decide!),
   (stop_loss_fires_iff_below_threshold afterBuy "BTCUSDT" 99 0
        { pair := "BTCUSDT", action := Action.BUY, entryPrice := 100, quantity := 10,
          confidence := some 0.9, commission := some 1, cost := some 1000 } 0
        (by norm_num) (by norm_num) (by decide!) (by decide!) (by decide!) (by decide!)).1.mpr
      (by decide!)⟩

/-- C10 (the code at the failing input).  With 10 units entered at 100, a tick at 110 has
`percentChange = 10 = maxTP`, at or above every threshold in `[minTP, maxTP] = [1, 10]`; the
check returns `false` and only the first partial level sells 30%: 7 units stay open, also after
further ticks at 110. -/
theorem no_full_close_at_take_profit_threshold :
    percentChange 110 100 = 10 ∧
    UltraLSTM85.takeProfit.minTP = 1 ∧ UltraLSTM85.takeProfit.maxTP = 10 ∧
    (checkStopLossAndTakeProfit afterBuy "BTCUSDT" 110).2 = false ∧
    jsGet (checkStopLossAndTakeProfit afterBuy "BTCUSDT" 110).1.portfolio.positions "BTCUSDT"
      = some 7 ∧
    jsGet (run (new 10000 ["BTCUSDT"])
      [buyTick, holdTick 110, holdTick 110, holdTick 110]).portfolio.positions "BTCUSDT"
      = some 7 := by
  decide!

end UltraTradingBot

namespace PaperTradingBot

/-! ### Position sizing -/

/-- C17 (counterexample).  With cash 9599.6 and 4 units held at price 100 (portfolio value
9999.6), confidence 1 and price 100 the sizer returns 3.99984, from 2% of the portfolio value;
the fixed-fraction policy on cash gives 3.83984. -/
theorem calculatePositionSize_is_not_on_cash :
    afterFirstBuy.portfolio.cash = 9599.6 ∧
    afterFirstBuy.portfolio.positions = [("BTCUSDT", 4)] ∧
    afterFirstBuy.priceFeeds = [("BTCUSDT", 100)] ∧
    calculatePositionSize afterFirstBuy "BTCUSDT" 100 1 = 3.99984 ∧
    fixedFractionOnCash 9599.6 100 1 = 3.83984 ∧
    calculatePositionSize afterFirstBuy "BTCUSDT" 100 1
      ≠ fixedFractionOnCash afterFirstBuy.portfolio.cash 100 1 := by
  decide!

/-- C17 (amended).  For every state and price > 0, `calculatePositionSize` is the fixed-fraction
policy with the 2% base taken from the portfolio value `cash + Σ qty * price` and the 30% cap
from cash: `cost = min(portfolioValue * 0.02 * (0.5 + 1.5 * min(confidence, 1)), cash * 0.3)`,
0 when `cost < 50`, else `cost / price` rounded down to 8 decimals.  It is the policy on cash
when the open positions are worth 0. -/
theorem calculatePositionSize_fixed_fraction_of_portfolio_value (b : Bot) (pair : Pair)
    (price confidence : ℚ) (hprice : 0 < price) :
    calculatePositionSize b pair price confidence
      = fixedFraction (b.portfolio.cash + positionsValue b.portfolio.positions b.priceFeeds)
          b.portfolio.cash price confidence ∧
    (positionsValue b.portfolio.positions b.priceFeeds = 0 →
      calculatePositionSize b pair price confidence
        = fixedFractionOnCash b.portfolio.cash price confidence) := by
  have main : calculatePositionSize b pair price confidence
      = fixedFraction (b.portfolio.cash + positionsValue b.portfolio.positions b.priceFeeds)
          b.portfolio.cash price confidence := by
    unfold calculatePositionSize fixedFraction
    dsimp only
    have e : (b.portfolio.cash + positionsValue b.portfolio.positions b.priceFeeds) * 0.02
          * (0.5 + min confidence 1 * 1.5)
        = (b.portfolio.cash + positionsValue b.portfolio.positions b.priceFeeds) * 0.02
          * (0.5 + 1.5 * min confidence 1) := by ring
    rw [e]
    by_cases h : min ((b.portfolio.cash + positionsValue b.portfolio.positions b.priceFeeds) * 0.02
        * (0.5 + 1.5 * min confidence 1)) (b.portfolio.cash * 0.3) < 50
    · rw [if_pos h, if_pos h]
    · rw [if_neg h, if_neg h]
      apply max_eq_left
      have hcost : (0 : ℚ) ≤ min ((b.portfolio.cash
          + positionsValue b.portfolio.positions b.priceFeeds) * 0.02
          * (0.5 + 1.5 * min confidence 1)) (b.portfolio.cash * 0.3) :=
        le_trans (by norm_num) (not_lt.mp h)
      exact div_nonneg (Int.cast_nonneg.mpr (Int.floor_nonneg.mpr
        (mul_nonneg (div_nonneg hcost (le_of_lt hprice)) (by norm_num)))) (by norm_num)
  refine ⟨main, fun h0 => ?_⟩
  rw [main, h0, add_zero]
  rfl

/-- Witness for C17 (amended): the state with 4 units held at price 100 and cash 9599.6. -/
theorem calculatePositionSize_fixed_fraction_of_portfolio_value_witness :
    calculatePositionSize afterFirstBuy "BTCUSDT" 100 1
      = fixedFraction (afterFirstBuy.portfolio.cash
          + positionsValue afterFirstBuy.portfolio.positions afterFirstBuy.priceFeeds)
          afterFirstBuy.portfolio.cash 100 1 :=
  (calculatePositionSize_fixed_fraction_of_portfolio_value afterFirstBuy "BTCUSDT" 100 1
    (by norm_num)).1

end PaperTradingBot

namespace UltraTradingBot

theorem calculatePositionSizeKelly_nonneg (b : Bot) (pair : Pair) (price : ℚ)
    (hprice : 0 < price) : 0 ≤ calculatePositionSizeKelly b pair price := by
  have key : ∀ v : ℚ, 0 ≤ (if v < 50 then 0 else v / price) := by
    intro v
    split_ifs with hv
    · exact le_refl 0
    · exact div_nonneg (le_trans (by norm_num) (not_lt.mp hv)) (le_of_lt hprice)
  unfold calculatePositionSizeKelly
  dsimp only
  by_cases h1 : getAverageWinSize b = 0 ∨ getAverageLossSize b = 0
  · rw [if_pos h1]
  · rw [if_neg h1]
    exact key _

theorem getAverageWinSize_of_no_wins (b : Bot)
    (h : ∀ t ∈ b.portfolio.trades, ¬ 0 < t.profit.getD 0) : getAverageWinSize b = 10 := by
  unfold getAverageWinSize
  have hnil : b.portfolio.trades.filter (fun t => decide (0 < t.profit.getD 0)) = [] := by
    rw [List.filter_eq_nil_iff]
    intro t ht hp
    exact h t ht (of_decide_eq_true hp)
  rw [hnil]
  simp

theorem getAverageLossSize_of_no_losses (b : Bot)
    (h : ∀ t ∈ b.portfolio.trades, ¬ t.profit.getD 0 < 0) : getAverageLossSize b = 5 := by
  unfold getAverageLossSize
  have hnil : b.portfolio.trades.filter (fun t => decide (t.profit.getD 0 < 0)) = [] := by
    rw [List.filter_eq_nil_iff]
    intro t ht hp
    exact h t ht (of_decide_eq_true hp)
  rw [hnil]
  simp

/-- C19. At cold start (no completed trade, no record with a positive or negative profit,
`maxDrawdown = 0`, `positionSizeKelly = 0.25`) the sizer uses win rate 0.6, average win 10 and
average loss 5: the Kelly fraction is 0.4 and the position value is 10% of the portfolio value
(0 is returned when that is below 50); for portfolio value 10000 and price `p > 0` it returns
`1000 / p`. -/
theorem calculatePositionSizeKelly_cold_start (b : Bot) (pair : Pair) (p : ℚ) (_hp : 0 < p)
    (htrades : b.portfolio.totalTrades = 0)
    (hwins : ∀ t ∈ b.portfolio.trades, ¬ 0 < t.profit.getD 0)
    (hlosses : ∀ t ∈ b.portfolio.trades, ¬ t.profit.getD 0 < 0)
    (hdd : b.portfolio.maxDrawdown = 0)
    (hkelly : b.adaptiveParams.positionSizeKelly = 0.25) :
    ((0.6 : ℚ) * getAverageWinSize b - (1 - 0.6) * getAverageLossSize b) / getAverageWinSize b
      = 0.4 ∧
    calculatePositionSizeKelly b pair p
      = (if getPortfolioValue b * 0.1 < 50 then 0 else getPortfolioValue b * 0.1 / p) ∧
    (getPortfolioValue b = 10000 → calculatePositionSizeKelly b pair p = 1000 / p) := by
  have hw := getAverageWinSize_of_no_wins b hwins
  have hl := getAverageLossSize_of_no_losses b hlosses
  have hfactor : max (0 : ℚ) (min 0.4 (((0.6 : ℚ) * 10 - (1 - 0.6) * 5) / 10 * 0.25
      * max 0.1 (1 - 0 * 2))) = 0.1 := by norm_num
  have main : calculatePositionSizeKelly b pair p
      = (if getPortfolioValue b * 0.1 < 50 then 0 else getPortfolioValue b * 0.1 / p) := by
    unfold calculatePositionSizeKelly
    dsimp only
    rw [hw, hl, hdd, hkelly, htrades]
    have hne : ¬ ((10 : ℚ) = 0 ∨ (5 : ℚ) = 0) := by norm_num
    rw [if_neg hne, if_neg (lt_irrefl 0), hfactor]
  refine ⟨by rw [hw, hl]; norm_num, main, fun hv => ?_⟩
  rw [main, hv]
  norm_num

/-- Witness for C19: the fresh bot with capital 10000 and price 100 (10 units). -/
theorem calculatePositionSizeKelly_cold_start_witness :
    calculatePositionSizeKelly (new 10000 ["BTCUSDT"]) "BTCUSDT" 100 = 1000 / 100 :=
  (calculatePositionSizeKelly_cold_start (new 10000 ["BTCUSDT"]) "BTCUSDT" 100 (by norm_num)
    rfl (fun t ht => by simp [new] at ht) (fun t ht => by simp [new] at ht) rfl rfl).2.2
    (by decide!)

end UltraTradingBot

/-- C20. Both position sizers return a quantity `≥ 0` for every bot state, every confidence and
every price > 0. -/
theorem position_sizers_nonneg (pb : PaperTradingBot.Bot) (ub : UltraTradingBot.Bot)
    (pair : Pair) (price confidence : ℚ) (hprice : 0 < price) :
    0 ≤ PaperTradingBot.calculatePositionSize pb pair price confidence ∧
    0 ≤ UltraTradingBot.calculatePositionSizeKelly ub pair price :=
  ⟨PaperTradingBot.calculatePositionSize_nonneg pb pair price confidence,
   UltraTradingBot.calculatePositionSizeKelly_nonneg ub pair price hprice⟩

/-- Witness for C20: the bots of the scenarios, confidence 1 and price 100. -/
theorem position_sizers_nonneg_witness :
    0 ≤ PaperTradingBot.calculatePositionSize PaperTradingBot.afterFirstBuy "BTCUSDT" 100 1 ∧
    0 ≤ UltraTradingBot.calculatePositionSizeKelly UltraTradingBot.afterBuy "BTCUSDT" 100 :=
  position_sizers_nonneg PaperTradingBot.afterFirstBuy UltraTradingBot.afterBuy "BTCUSDT" 100 1
    (by norm_num)

namespace UltraTradingBot

/-! ### Drawdown tracking -/

theorem DrawdownLe.refl (b : Bot) : DrawdownLe b b := ⟨le_refl _, le_refl _⟩

theorem DrawdownLe.trans {a b c : Bot} (h1 : DrawdownLe a b) (h2 : DrawdownLe b c) :
    DrawdownLe a c := ⟨le_trans h1.1 h2.1, le_trans h1.2 h2.2⟩

theorem DrawdownLe.of_eq {a b : Bot} (hp : b.portfolio.peakEquity = a.portfolio.peakEquity)
    (hm : b.portfolio.maxDrawdown = a.portfolio.maxDrawdown) : DrawdownLe a b :=
  ⟨le_of_eq hp.symm, le_of_eq hm.symm⟩

theorem updateDrawdown_drawdownLe (a b : Bot)
    (hp : b.portfolio.peakEquity = a.portfolio.peakEquity)
    (hm : b.portfolio.maxDrawdown = a.portfolio.maxDrawdown) :
    DrawdownLe a (updateDrawdown b) := by
  constructor
  · show a.portfolio.peakEquity
      ≤ (if getPortfolioValue b > b.portfolio.peakEquity then getPortfolioValue b
          else b.portfolio.peakEquity)
    rw [← hp]
    split_ifs with h
    · exact le_of_lt h
    · exact le_refl _
  · show a.portfolio.maxDrawdown ≤ max b.portfolio.maxDrawdown _
    rw [← hm]
    exact le_max_left _ _

theorem updateDrawdown_recomputed (b : Bot) : DrawdownRecomputed (updateDrawdown b) := by
  refine ⟨?_, rfl, ?_⟩
  · show getPortfolioValue b
      ≤ (if getPortfolioValue b > b.portfolio.peakEquity then getPortfolioValue b
          else b.portfolio.peakEquity)
    split_ifs with h
    · exact le_refl _
    · exact not_lt.mp h
  · show (updateDrawdown b).portfolio.currentDrawdown
      ≤ max b.portfolio.maxDrawdown (updateDrawdown b).portfolio.currentDrawdown
    exact le_max_right _ _

theorem closeTrade_drawdownLe (b : Bot) (pair : Pair) (t : Trade) (x : ℚ) (sl : Bool) :
    DrawdownLe b (closeTrade b pair t x sl) :=
  updateDrawdown_drawdownLe b _ rfl rfl

theorem partialLevelStep_drawdown (pair : Pair) (x e pc : ℚ) (idx : Nat) (b : Bot)
    (level : UltraLSTM85.PartialLevel) :
    (partialLevelStep pair x e pc idx b level).portfolio.peakEquity = b.portfolio.peakEquity ∧
    (partialLevelStep pair x e pc idx b level).portfolio.maxDrawdown = b.portfolio.maxDrawdown ∧
    (partialLevelStep pair x e pc idx b level).portfolio.currentDrawdown
      = b.portfolio.currentDrawdown := by
  unfold partialLevelStep
  split
  · exact ⟨rfl, rfl, rfl⟩
  · rename_i openTrade _
    by_cases hc : pc ≥ level.level ∧ openTrade.closedLevels = none
    · rw [if_pos hc]
      dsimp only
      by_cases hmem : level.level ∈ openTrade.closedLevels.getD []
      · rw [if_pos hmem]; exact ⟨rfl, rfl, rfl⟩
      · rw [if_neg hmem]; exact ⟨rfl, rfl, rfl⟩
    · rw [if_neg hc]; exact ⟨rfl, rfl, rfl⟩

theorem partialLevels_foldl_drawdown (pair : Pair) (x e pc : ℚ) (idx : Nat)
    (levels : List UltraLSTM85.PartialLevel) (b : Bot) :
    (levels.foldl (partialLevelStep pair x e pc idx) b).portfolio.peakEquity
      = b.portfolio.peakEquity ∧
    (levels.foldl (partialLevelStep pair x e pc idx) b).portfolio.maxDrawdown
      = b.portfolio.maxDrawdown ∧
    (levels.foldl (partialLevelStep pair x e pc idx) b).portfolio.currentDrawdown
      = b.portfolio.currentDrawdown := by
  induction levels generalizing b with
  | nil => exact ⟨rfl, rfl, rfl⟩
  | cons l rest ih =>
    have h1 := partialLevelStep_drawdown pair x e pc idx b l
    have h2 := ih (partialLevelStep pair x e pc idx b l)
    exact ⟨h2.1.trans h1.1, h2.2.1.trans h1.2.1, h2.2.2.trans h1.2.2⟩

theorem ultra_check_drawdownLe (b : Bot) (pair : Pair) (x : ℚ) :
    DrawdownLe b (checkStopLossAndTakeProfit b pair x).1 := by
  unfold checkStopLossAndTakeProfit
  split
  · exact DrawdownLe.refl b
  · split
    · exact DrawdownLe.refl b
    · rename_i idx _ _ openTrade _
      cases hopen : noOpenPosition b.portfolio.positions pair with
      | true => simpa using DrawdownLe.refl b
      | false =>
        simp only [Bool.false_eq_true, if_false]
        split
        · exact DrawdownLe.refl b
        · rename_i atr _
          by_cases hsl : percentChange x openTrade.entryPrice < -slPercent atr x
          · rw [if_pos hsl]; exact closeTrade_drawdownLe b pair openTrade x true
          · rw [if_neg hsl]
            by_cases hact : percentChange x openTrade.entryPrice > UltraLSTM85.trailing.activation
            · rw [if_pos hact]
              by_cases htr : percentChange x openTrade.entryPrice
                  < trailedMaxProfit openTrade (percentChange x openTrade.entryPrice)
                    - UltraLSTM85.trailing.trailingPercent
              · rw [if_pos htr]
                exact updateDrawdown_drawdownLe b _ rfl rfl
              · rw [if_neg htr]
                have hfold := partialLevels_foldl_drawdown pair x openTrade.entryPrice
                  (percentChange x openTrade.entryPrice) idx UltraLSTM85.takeProfit.partialLevels
                  (modifyTrade b idx (fun t => { t with
                    maxProfit := some (trailedMaxProfit openTrade
                      (percentChange x openTrade.entryPrice)) }))
                exact DrawdownLe.of_eq hfold.1 hfold.2.1
            · rw [if_neg hact]
              have hfold := partialLevels_foldl_drawdown pair x openTrade.entryPrice
                (percentChange x openTrade.entryPrice) idx UltraLSTM85.takeProfit.partialLevels b
              exact DrawdownLe.of_eq hfold.1 hfold.2.1

theorem ultra_executeTrade_drawdownLe (b : Bot) (pair : Pair) (signal : Signal) (x : ℚ) :
    DrawdownLe b (executeTrade b pair signal x) := by
  unfold executeTrade
  cases signal.action with
  | BUY =>
    dsimp only
    by_cases h0 : calculatePositionSizeKelly b pair x = 0
    · rw [if_pos h0]; exact DrawdownLe.refl b
    · rw [if_neg h0]
      by_cases h1 : calculatePositionSizeKelly b pair x * x
          + calculatePositionSizeKelly b pair x * x * 0.001 > b.portfolio.cash
      · rw [if_pos h1]; exact DrawdownLe.refl b
      · rw [if_neg h1]; exact DrawdownLe.of_eq rfl rfl
  | SELL =>
    dsimp only
    cases hopen : noOpenPosition b.portfolio.positions pair with
    | true => simpa using DrawdownLe.refl b
    | false =>
      simp only [Bool.false_eq_true, if_false]
      split
      · exact DrawdownLe.refl b
      · exact updateDrawdown_drawdownLe b _ rfl rfl
  | HOLD => exact DrawdownLe.refl b

theorem ultra_onNewCandle_drawdownLe (b : Bot) (pair : Pair) (candle : Candle) (raw : Signal) :
    DrawdownLe b (onNewCandle b pair candle raw) := by
  unfold onNewCandle
  dsimp only
  have h1 : DrawdownLe b (recordCandle b pair candle) := DrawdownLe.of_eq rfl rfl
  have hc := h1.trans (ultra_check_drawdownLe (recordCandle b pair candle) pair candle.close)
  split
  · exact hc
  · have hg : DrawdownLe (checkStopLossAndTakeProfit (recordCandle b pair candle) pair
          candle.close).1
        (generateSignalUltraLSTM (checkStopLossAndTakeProfit (recordCandle b pair candle) pair
          candle.close).1 raw).1 := DrawdownLe.of_eq rfl rfl
    split
    · exact (hc.trans hg).trans (ultra_executeTrade_drawdownLe _ _ _ _)
    · exact hc.trans hg

theorem ultra_run_drawdownLe (ticks : List Tick) (b : Bot) : DrawdownLe b (run b ticks) := by
  induction ticks generalizing b with
  | nil => exact DrawdownLe.refl b
  | cons tick rest ih =>
    exact (ultra_onNewCandle_drawdownLe b tick.pair tick.candle tick.raw).trans
      (ih (onNewCandle b tick.pair tick.candle tick.raw))

theorem ultra_run_append (b : Bot) (ticks more : List Tick) :
    run b (ticks ++ more) = run (run b ticks) more := by
  unfold run
  rw [List.foldl_append]

/-- C15. From `peakEquity = initialCapital > 0` and `maxDrawdown = 0`, along every sequence of
ticks `peakEquity` and `maxDrawdown` never decrease: their values after `ticks ++ more` are at
least their values after `ticks`; the peak stays at or above the initial capital and
`maxDrawdown` at or above 0. -/
theorem peakEquity_and_maxDrawdown_never_decrease (initialCapital : ℚ)
    (tradingPairs : List Pair) (ticks more : List Tick) (hcap : 0 < initialCapital) :
    (run (new initialCapital tradingPairs) ticks).portfolio.peakEquity
      ≤ (run (new initialCapital tradingPairs) (ticks ++ more)).portfolio.peakEquity ∧
    (run (new initialCapital tradingPairs) ticks).portfolio.maxDrawdown
      ≤ (run (new initialCapital tradingPairs) (ticks ++ more)).portfolio.maxDrawdown ∧
    initialCapital ≤ (run (new initialCapital tradingPairs) ticks).portfolio.peakEquity ∧
    0 ≤ (run (new initialCapital tradingPairs) ticks).portfolio.maxDrawdown := by
  have hstep := ultra_run_drawdownLe more (run (new initialCapital tradingPairs) ticks)
  rw [← ultra_run_append] at hstep
  have hinit := ultra_run_drawdownLe ticks (new initialCapital tradingPairs)
  have hne : initialCapital ≠ 0 := ne_of_gt hcap
  have hpeak0 : (new initialCapital tradingPairs).portfolio.peakEquity = initialCapital := by
    show (if initialCapital = 0 then (10000 : ℚ) else initialCapital) = initialCapital
    rw [if_neg hne]
  have hdd0 : (new initialCapital tradingPairs).portfolio.maxDrawdown = 0 := rfl
  refine ⟨hstep.1, hstep.2, ?_, ?_⟩
  · exact le_of_eq_of_le hpeak0.symm hinit.1
  · exact le_of_eq_of_le hdd0.symm hinit.2

/-- Witness for C15: capital 10000, a BUY tick and a stop-loss tick at 99, then a tick at 98. -/
theorem peakEquity_and_maxDrawdown_never_decrease_witness :
    (run (new 10000 ["BTCUSDT"]) [buyTick, holdTick 99]).portfolio.maxDrawdown
      ≤ (run (new 10000 ["BTCUSDT"])
          ([buyTick, holdTick 99] ++ [holdTick 98])).portfolio.maxDrawdown :=
  (peakEquity_and_maxDrawdown_never_decrease 10000 ["BTCUSDT"] [buyTick, holdTick 99]
    [holdTick 98] (by norm_num)).2.1

/-- C16 (the code at the failing input).  With 10 units entered at 100, the tick at 110 performs
a partial close (3 units) and no drawdown update: afterwards the portfolio value is 10099 while
`peakEquity` is still 10000, so the drawdown fields are not those of the current value.  After
the full close of the stop-loss tick at 99 they are. -/
theorem partial_close_does_not_recompute_drawdown :
    (run afterBuy [holdTick 110]).portfolio.trades.map (fun t => (t.action, t.isPartial, t.quantity))
      = [(Action.BUY, false, 10), (Action.SELL, true, 3)] ∧
    getPortfolioValue (run afterBuy [holdTick 110]) = 10099 ∧
    (run afterBuy [holdTick 110]).portfolio.peakEquity = 10000 ∧
    (run afterBuy [holdTick 110]).portfolio.currentDrawdown = 0 ∧
    ¬ DrawdownRecomputed (run afterBuy [holdTick 110]) ∧
    DrawdownRecomputed (run afterBuy [holdTick 99]) := by
  decide!

end UltraTradingBot

namespace UltraTradingBot

/-! ### Entries, exits and the tick loop of the ultra bot -/

/-- C11 (the code at the failing input).  Entry at 100; the tick at 101.2 records
`maxProfit = 1.2` (and sells 30% at the first partial level); at the next tick, 100.6, the
change 0.6 is below `maxProfit - 0.5 = 0.7`, but it is not above the activation 1.0, so the
trailing block is skipped: the check returns `false`, appends nothing, and 7 units stay open. -/
theorem trailing_stop_skipped_below_activation :
    percentChange 101.2 100 = 1.2 ∧ percentChange 100.6 100 = 0.6 ∧
    ((run afterBuy [holdTick 101.2]).portfolio.trades.map
        (fun t => (t.action, t.quantity, t.maxProfit)))
      = [(Action.BUY, 10, some 1.2), (Action.SELL, 3, some 1.2)] ∧
    checkStopLossAndTakeProfit
        (recordCandle (run afterBuy [holdTick 101.2]) "BTCUSDT" (flatCandle 100.6)) "BTCUSDT" 100.6
      = (recordCandle (run afterBuy [holdTick 101.2]) "BTCUSDT" (flatCandle 100.6), false) ∧
    jsGet (run afterBuy [holdTick 101.2, holdTick 100.6]).portfolio.positions "BTCUSDT"
      = some 7 := by
  decide!

theorem countP_modify_of_preserve {α : Type} (p : α → Bool) (f : α → α)
    (hf : ∀ a, p (f a) = p a) (l : List α) (i : Nat) :
    (l.modify f i).countP p = l.countP p := by
  induction l generalizing i with
  | nil => simp
  | cons a rest ih =>
    cases i with
    | zero => simp [List.countP_cons, hf]
    | succ n => simp [List.countP_cons, ih]

theorem closeTrade_entryCount (b : Bot) (pair : Pair) (t : Trade) (x : ℚ) (sl : Bool)
    (pair' : Pair) :
    entryCount (closeTrade b pair t x sl).portfolio.trades pair'
      = entryCount b.portfolio.trades pair' := by
  show List.countP _ (b.portfolio.trades ++ [_]) = _
  simp [entryCount, List.countP_append, List.countP_cons]

theorem modifyTrade_maxProfit_entryCount (b : Bot) (idx : Nat) (m : ℚ) (pair' : Pair) :
    entryCount (modifyTrade b idx (fun t => { t with maxProfit := some m })).portfolio.trades
      pair' = entryCount b.portfolio.trades pair' := by
  unfold entryCount modifyTrade
  dsimp only
  apply countP_modify_of_preserve
  intro a
  rfl

theorem ultra_check_true_entryCount (b : Bot) (pair : Pair) (x : ℚ) (pair' : Pair) :
    (checkStopLossAndTakeProfit b pair x).2 = true →
    entryCount (checkStopLossAndTakeProfit b pair x).1.portfolio.trades pair'
      = entryCount b.portfolio.trades pair' := by
  unfold checkStopLossAndTakeProfit
  split
  · intro h; exact absurd h Bool.false_ne_true
  · split
    · intro h; exact absurd h Bool.false_ne_true
    · rename_i idx _ _ openTrade _
      cases hopen : noOpenPosition b.portfolio.positions pair with
      | true => intro h; simp at h
      | false =>
        simp only [Bool.false_eq_true, if_false]
        split
        · intro h; exact absurd h Bool.false_ne_true
        · rename_i atr _
          by_cases hsl : percentChange x openTrade.entryPrice < -slPercent atr x
          · rw [if_pos hsl]
            intro _
            exact closeTrade_entryCount b pair openTrade x true pair'
          · rw [if_neg hsl]
            by_cases hact : percentChange x openTrade.entryPrice > UltraLSTM85.trailing.activation
            · rw [if_pos hact]
              by_cases htr : percentChange x openTrade.entryPrice
                  < trailedMaxProfit openTrade (percentChange x openTrade.entryPrice)
                    - UltraLSTM85.trailing.trailingPercent
              · rw [if_pos htr]
                intro _
                exact (closeTrade_entryCount _ pair _ x false pair').trans
                  (modifyTrade_maxProfit_entryCount b idx _ pair')
              · rw [if_neg htr]
                intro h; exact absurd h Bool.false_ne_true
            · rw [if_neg hact]
              intro h; exact absurd h Bool.false_ne_true

/-- C13 (counterexample).  With 10 units entered at 100, the tick at 101 first sells 3 units at
the first partial level, and then, in the same tick, the BUY answered by the engine is executed:
a second BUY record for the pair is appended after the partial SELL record. -/
theorem entry_in_the_tick_of_a_partial_close :
    (checkStopLossAndTakeProfit (recordCandle afterBuy "BTCUSDT" (flatCandle 101)) "BTCUSDT"
      101).2 = false ∧
    ((checkStopLossAndTakeProfit (recordCandle afterBuy "BTCUSDT" (flatCandle 101)) "BTCUSDT"
      101).1.portfolio.trades.map (fun t => (t.action, t.isPartial, t.entryPrice)))
      = [(Action.BUY, false, 100), (Action.SELL, true, 100)] ∧
    ((onNewCandle afterBuy "BTCUSDT" (flatCandle 101)
        { action := Action.BUY, confidence := 0.9 }).portfolio.trades.map
        (fun t => (t.action, t.isPartial, t.entryPrice)))
      = [(Action.BUY, false, 100), (Action.SELL, true, 100), (Action.BUY, false, 101)] ∧
    entryCount afterBuy.portfolio.trades "BTCUSDT" = 1 ∧
    entryCount (onNewCandle afterBuy "BTCUSDT" (flatCandle 101)
        { action := Action.BUY, confidence := 0.9 }).portfolio.trades "BTCUSDT" = 2 := by
  decide!

/-- C13 (amended).  On every tick in which the exit check performs a full close (it returns
`true`), `onNewCandle` stops there: the state is the one the check left and no BUY record is
appended for any pair, whatever the engine answers. -/
theorem no_entry_in_the_tick_of_a_full_close (b : Bot) (pair : Pair) (candle : Candle)
    (raw : Signal)
    (hfull : (checkStopLossAndTakeProfit (recordCandle b pair candle) pair candle.close).2
      = true) :
    onNewCandle b pair candle raw
      = (checkStopLossAndTakeProfit (recordCandle b pair candle) pair candle.close).1 ∧
    ∀ pair', entryCount (onNewCandle b pair candle raw).portfolio.trades pair'
      = entryCount b.portfolio.trades pair' := by
  have h1 : onNewCandle b pair candle raw
      = (checkStopLossAndTakeProfit (recordCandle b pair candle) pair candle.close).1 := by
    unfold onNewCandle
    dsimp only
    rw [if_pos hfull]
  refine ⟨h1, fun pair' => ?_⟩
  rw [h1]
  exact ultra_check_true_entryCount (recordCandle b pair candle) pair candle.close pair' hfull

/-- Witness for C13 (amended): the stop-loss tick at 99 after the BUY at 100, with the engine
answering BUY. -/
theorem no_entry_in_the_tick_of_a_full_close_witness :
    entryCount (onNewCandle afterBuy "BTCUSDT" (flatCandle 99)
        { action := Action.BUY, confidence := 0.9 }).portfolio.trades "BTCUSDT"
      = entryCount afterBuy.portfolio.trades "BTCUSDT" :=
  (no_entry_in_the_tick_of_a_full_close afterBuy "BTCUSDT" (flatCandle 99)
    { action := Action.BUY, confidence := 0.9 } (by decide!)).2 "BTCUSDT"

/-- Unfolding of an accepted BUY of the ultra bot. -/
theorem ultra_executeTrade_buy_eq (b : Bot) (pair : Pair) (signal : Signal) (x : ℚ)
    (hbuy : signal.action = Action.BUY)
    (hq0 : calculatePositionSizeKelly b pair x ≠ 0)
    (hcash : calculatePositionSizeKelly b pair x * x * 1.001 ≤ b.portfolio.cash) :
    executeTrade b pair signal x =
      { b with portfolio :=
          { b.portfolio with
            cash := b.portfolio.cash - calculatePositionSizeKelly b pair x * x * 1.001,
            positions := jsSet b.portfolio.positions pair
              ((jsGet b.portfolio.positions pair).getD 0 + calculatePositionSizeKelly b pair x),
            trades := b.portfolio.trades ++
              [{ pair := pair, action := Action.BUY, entryPrice := x,
                 quantity := calculatePositionSizeKelly b pair x,
                 confidence := some signal.confidence,
                 commission := some (calculatePositionSizeKelly b pair x * x * 0.001),
                 cost := some (calculatePositionSizeKelly b pair x * x) }] } } := by
  have h3 : ¬ (calculatePositionSizeKelly b pair x * x
      + calculatePositionSizeKelly b pair x * x * 0.001 > b.portfolio.cash) := by
    have e : calculatePositionSizeKelly b pair x * x
        + calculatePositionSizeKelly b pair x * x * 0.001
        = calculatePositionSizeKelly b pair x * x * 1.001 := by ring
    rw [e]; exact not_lt.mpr hcash
  unfold executeTrade
  rw [hbuy]
  dsimp only
  rw [if_neg hq0, if_neg h3]
  congr 2
  ring

end UltraTradingBot

/-- C14 (counterexample).  In both bots a BUY for a pair whose position is open is executed: the
paper bot holding 4 units buys 3.99984 more at 100, the ultra bot holding 10 units buys 9.999
more; cash is debited and a second BUY record is appended. -/
theorem buy_with_open_position_is_executed :
    jsGet PaperTradingBot.afterFirstBuy.portfolio.positions "BTCUSDT" = some 4 ∧
    jsGet (PaperTradingBot.executeTrade PaperTradingBot.afterFirstBuy "BTCUSDT"
      { action := Action.BUY, confidence := 1 } 100).portfolio.positions "BTCUSDT"
      = some 7.99984 ∧
    PaperTradingBot.afterFirstBuy.portfolio.cash = 9599.6 ∧
    (PaperTradingBot.executeTrade PaperTradingBot.afterFirstBuy "BTCUSDT"
      { action := Action.BUY, confidence := 1 } 100).portfolio.cash = 9199.216016 ∧
    ((PaperTradingBot.executeTrade PaperTradingBot.afterFirstBuy "BTCUSDT"
      { action := Action.BUY, confidence := 1 } 100).portfolio.trades.map
        (fun t => (t.action, t.quantity))) = [(Action.BUY, 4), (Action.BUY, 3.99984)] ∧
    jsGet UltraTradingBot.afterBuy.portfolio.positions "BTCUSDT" = some 10 ∧
    jsGet (UltraTradingBot.executeTrade UltraTradingBot.afterBuy "BTCUSDT"
      { action := Action.BUY, confidence := 0.9 } 100).portfolio.positions "BTCUSDT"
      = some 19.999 ∧
    UltraTradingBot.afterBuy.portfolio.cash = 8999 ∧
    (UltraTradingBot.executeTrade UltraTradingBot.afterBuy "BTCUSDT"
      { action := Action.BUY, confidence := 0.9 } 100).portfolio.cash = 7998.1001 ∧
    ((UltraTradingBot.executeTrade UltraTradingBot.afterBuy "BTCUSDT"
      { action := Action.BUY, confidence := 0.9 } 100).portfolio.trades.map
        (fun t => (t.action, t.quantity))) = [(Action.BUY, 10), (Action.BUY, 9.999)] := by
  decide!

/-- C14 (amended).  In both bots an accepted BUY (sized quantity `q ≠ 0`, affordable, and for the
paper bot confidence at least 0.70) for a pair whose position `held > 0` is already open adds
`q` to the position, debits cash by `q * price * 1.001` and appends a new BUY record of quantity
`q`: several open entries can exist per pair. -/
theorem buy_with_open_position_adds_to_it (pb : PaperTradingBot.Bot) (ub : UltraTradingBot.Bot)
    (pair : Pair) (ps : PaperTradingBot.Signal) (us : UltraTradingBot.Signal) (price : ℚ)
    (heldPaper heldUltra : ℚ) (hpair : pair ≠ "") (hprice : 0 < price)
    (hps : ps.action = Action.BUY) (hconf : 0.70 ≤ ps.confidence)
    (hus : us.action = Action.BUY)
    (hpheld : jsGet pb.portfolio.positions pair = some heldPaper) (_hpopen : 0 < heldPaper)
    (huheld : jsGet ub.portfolio.positions pair = some heldUltra) (_huopen : 0 < heldUltra)
    (hpq : PaperTradingBot.calculatePositionSize pb pair price ps.confidence ≠ 0)
    (hpcash : PaperTradingBot.calculatePositionSize pb pair price ps.confidence * price * 1.001
      ≤ pb.portfolio.cash)
    (huq : UltraTradingBot.calculatePositionSizeKelly ub pair price ≠ 0)
    (hucash : UltraTradingBot.calculatePositionSizeKelly ub pair price * price * 1.001
      ≤ ub.portfolio.cash) :
    (jsGet (PaperTradingBot.executeTrade pb pair ps price).portfolio.positions pair
        = some (heldPaper + PaperTradingBot.calculatePositionSize pb pair price ps.confidence) ∧
      (PaperTradingBot.executeTrade pb pair ps price).portfolio.cash
        = pb.portfolio.cash
          - PaperTradingBot.calculatePositionSize pb pair price ps.confidence * price * 1.001 ∧
      ∃ t, (PaperTradingBot.executeTrade pb pair ps price).portfolio.trades
          = pb.portfolio.trades ++ [t] ∧ t.action = Action.BUY ∧ t.pair = pair ∧
        t.quantity = PaperTradingBot.calculatePositionSize pb pair price ps.confidence) ∧
    (jsGet (UltraTradingBot.executeTrade ub pair us price).portfolio.positions pair
        = some (heldUltra + UltraTradingBot.calculatePositionSizeKelly ub pair price) ∧
      (UltraTradingBot.executeTrade ub pair us price).portfolio.cash
        = ub.portfolio.cash
          - UltraTradingBot.calculatePositionSizeKelly ub pair price * price * 1.001 ∧
      ∃ t, (UltraTradingBot.executeTrade ub pair us price).portfolio.trades
          = ub.portfolio.trades ++ [t] ∧ t.action = Action.BUY ∧ t.pair = pair ∧
        t.quantity = UltraTradingBot.calculatePositionSizeKelly ub pair price) := by
  constructor
  · rw [PaperTradingBot.executeTrade_buy_eq pb pair ps price hpair hprice hps hconf hpq hpcash]
    refine ⟨?_, rfl, _, rfl, rfl, rfl, rfl⟩
    dsimp only
    rw [jsGet_jsSet_self, hpheld]
    rfl
  · rw [UltraTradingBot.ultra_executeTrade_buy_eq ub pair us price hus huq hucash]
    refine ⟨?_, rfl, _, rfl, rfl, rfl, rfl⟩
    dsimp only
    rw [jsGet_jsSet_self, huheld]
    rfl

/-- Witness for C14 (amended): the paper bot holding 4 units and the ultra bot holding 10 units,
each with a BUY at 100. -/
theorem buy_with_open_position_adds_to_it_witness :
    jsGet (PaperTradingBot.executeTrade PaperTradingBot.afterFirstBuy "BTCUSDT"
      { action := Action.BUY, confidence := 1 } 100).portfolio.positions "BTCUSDT"
      = some (4 + PaperTradingBot.calculatePositionSize PaperTradingBot.afterFirstBuy
          "BTCUSDT" 100 1) ∧
    jsGet (UltraTradingBot.executeTrade UltraTradingBot.afterBuy "BTCUSDT"
      { action := Action.BUY, confidence := 0.9 } 100).portfolio.positions "BTCUSDT"
      = some (10 + UltraTradingBot.calculatePositionSizeKelly UltraTradingBot.afterBuy
          "BTCUSDT" 100) :=
  have h := buy_with_open_position_adds_to_it PaperTradingBot.afterFirstBuy
    UltraTradingBot.afterBuy "BTCUSDT" { action := Action.BUY, confidence := 1 }
    { action := Action.BUY, confidence := 0.9 } 100 4 10 (by decide) (by norm_num) rfl
    (by norm_num) rfl (by decide!) (by norm_num) (by decide!) (by norm_num) (by decide!)
    (by decide!) (by decide!) (by decide!)
  ⟨h.1.1, h.2.1⟩

namespace UltraTradingBot

/-- C18 (the code at the failing input).  After a dip (drawdown 0.00007 recorded as
`maxDrawdown`) and a recovery to a new peak (`currentDrawdown = 0`), the sizer still scales by
`max(0.1, 1 - 2 * maxDrawdown) = 0.99986`: its result is the formula at `maxDrawdown`, and
0.99986 times the formula at the current drawdown. -/
theorem kelly_sizing_uses_max_drawdown :
    afterRecovery.portfolio.maxDrawdown = 0.00007 ∧
    afterRecovery.portfolio.currentDrawdown = 0 ∧
    DrawdownRecomputed afterRecovery ∧
    calculatePositionSizeKelly afterRecovery "BTCUSDT" 100
      = kellySizeAt afterRecovery afterRecovery.portfolio.maxDrawdown 100 ∧
    calculatePositionSizeKelly afterRecovery "BTCUSDT" 100
      = 0.99986 * kellySizeAt afterRecovery afterRecovery.portfolio.currentDrawdown 100 ∧
    0 < kellySizeAt afterRecovery afterRecovery.portfolio.currentDrawdown 100 ∧
    calculatePositionSizeKelly afterRecovery "BTCUSDT" 100
      ≠ kellySizeAt afterRecovery afterRecovery.portfolio.currentDrawdown 100 := by
  decide!

end UltraTradingBot

namespace UltraTradingBot

/-! ### Partial take-profit levels and entry records -/

theorem countP_modify_of_getElem {α : Type} (p : α → Bool) (f : α → α) (l : List α) (i : Nat)
    (a : α) (h : l[i]? = some a) :
    (l.modify f i).countP p + (if p a then 1 else 0)
      = l.countP p + (if p (f a) then 1 else 0) := by
  induction l generalizing i with
  | nil => simp at h
  | cons a' rest ih =>
    cases i with
    | zero =>
      simp only [List.getElem?_cons_zero, Option.some.injEq] at h
      subst h
      simp only [List.modify_zero_cons, List.countP_cons]
      omega
    | succ n =>
      simp only [List.getElem?_cons_succ] at h
      have := ih n h
      simp only [List.modify_succ_cons, List.countP_cons]
      omega

theorem modify_append_of_lt {α : Type} (f : α → α) (l r : List α) (i : Nat)
    (h : i < l.length) : (l ++ r).modify f i = l.modify f i ++ r := by
  induction l generalizing i with
  | nil => simp at h
  | cons a rest ih =>
    cases i with
    | zero => simp
    | succ n =>
      simp only [List.length_cons, Nat.add_lt_add_iff_right] at h
      simp [ih n h]

theorem modify_append_length {α : Type} (f : α → α) (l : List α) (a : α) :
    (l ++ [a]).modify f l.length = l ++ [f a] := by
  induction l with
  | nil => simp
  | cons a' rest ih => simp [ih]

theorem firePartialLevel_trades (pair : Pair) (x e : ℚ) (idx : Nat) (b : Bot) (ot : Trade)
    (cl : List ℚ) (level : UltraLSTM85.PartialLevel) (hidx : idx < b.portfolio.trades.length) :
    (firePartialLevel pair x e idx b ot cl level).portfolio.trades
      = b.portfolio.trades.modify
          (fun t => { t with closedLevels := some (cl ++ [level.level]) }) idx
        ++ [{ ot with
              action := Action.SELL,
              exitPrice := some x,
              quantity := (jsGet b.portfolio.positions pair).getD 0 * level.percentage,
              closedAt := true,
              isPartial := true,
              profit := some ((x - e)
                * ((jsGet b.portfolio.positions pair).getD 0 * level.percentage)),
              closedLevels := some (cl ++ [level.level]) }] := by
  unfold firePartialLevel executePartialClose modifyTrade
  dsimp only
  rw [modify_append_of_lt _ _ _ _ hidx]
  have hlen : (b.portfolio.trades ++
      [({ ot with
          action := Action.SELL,
          exitPrice := some x,
          quantity := (jsGet b.portfolio.positions pair).getD 0 * level.percentage,
          closedAt := true,
          isPartial := true,
          profit := some ((x - e)
            * ((jsGet b.portfolio.positions pair).getD 0 * level.percentage)) } : Trade)]).length - 1
      = (b.portfolio.trades.modify
          (fun t => { t with closedLevels := some (cl ++ [level.level]) }) idx).length := by
    simp
  rw [hlen, modify_append_length]

/-- The two outcomes of one iteration of the partial take-profit loop: nothing happens, or (only
when `closedLevels` of the open record is still undefined) the level is written on the open
record and one partial SELL record carrying the level is appended. -/
theorem partialLevelStep_cases (pair : Pair) (x e pc : ℚ) (idx : Nat) (b : Bot)
    (level : UltraLSTM85.PartialLevel) (ot : Trade) (hot : b.portfolio.trades[idx]? = some ot) :
    partialLevelStep pair x e pc idx b level = b ∨
    (pc ≥ level.level ∧ ot.closedLevels = none ∧
      ∃ pt : Trade, pt.pair = ot.pair ∧ pt.action = Action.SELL ∧ pt.isPartial = true ∧
        pt.closedLevels = some [level.level] ∧
        (partialLevelStep pair x e pc idx b level).portfolio.trades
          = b.portfolio.trades.modify
              (fun t => { t with closedLevels := some [level.level] }) idx ++ [pt]) := by
  have hidx : idx < b.portfolio.trades.length := by
    rcases List.getElem?_eq_some.mp hot with ⟨h, _⟩
    exact h
  unfold partialLevelStep
  rw [hot]
  dsimp only
  by_cases hc : pc ≥ level.level ∧ ot.closedLevels = none
  · right
    rw [if_pos hc]
    have hcl : ot.closedLevels.getD [] = [] := by rw [hc.2]; rfl
    rw [hcl, if_neg (List.not_mem_nil _)]
    have hidx1 : idx < (modifyTrade b idx
        (fun t => { t with closedLevels := some [] })).portfolio.trades.length := by
      show idx < (List.modify _ idx b.portfolio.trades).length
      rw [List.length_modify]
      exact hidx
    have htr := firePartialLevel_trades pair x e idx
      (modifyTrade b idx (fun t => { t with closedLevels := some [] }))
      { ot with closedLevels := some [] } [] level hidx1
    refine ⟨hc.1, hc.2, ?_⟩
    rw [htr]
    refine ⟨{ ot with
              action := Action.SELL,
              exitPrice := some x,
              quantity := (jsGet (modifyTrade b idx
                (fun t => { t with closedLevels := some [] })).portfolio.positions pair).getD 0
                  * level.percentage,
              closedAt := true,
              isPartial := true,
              profit := some ((x - e)
                * ((jsGet (modifyTrade b idx
                (fun t => { t with closedLevels := some [] })).portfolio.positions pair).getD 0
                  * level.percentage)),
              closedLevels := some [level.level] }, rfl, rfl, rfl, rfl, ?_⟩
    show List.modify _ idx (List.modify _ idx b.portfolio.trades) ++ _ = _
    rw [List.modify_modify_eq]
    rfl
  · left
    rw [if_neg hc]

theorem PartialsMatch.append_neutral {rs rb : Option (List ℚ) → Bool} {l : List Trade}
    (h : PartialsMatch rs rb l) (t : Trade)
    (hs : t.action = Action.SELL → t.isPartial = false)
    (hb : t.action = Action.BUY → rb t.closedLevels = false) :
    PartialsMatch rs rb (l ++ [t]) := by
  intro pair
  have hp := h pair
  unfold partialSells entriesWith at *
  rw [List.countP_append, List.countP_append, hp]
  congr 1
  cases ha : t.action with
  | BUY => simp [List.countP_cons, ha, hb ha]
  | SELL => simp [List.countP_cons, ha, hs ha]
  | HOLD => simp [List.countP_cons, ha]

theorem PartialsMatch.modify_preserve {rs rb : Option (List ℚ) → Bool} {l : List Trade}
    (h : PartialsMatch rs rb l) (f : Trade → Trade) (i : Nat)
    (hf : ∀ t, (f t).pair = t.pair ∧ (f t).action = t.action ∧ (f t).isPartial = t.isPartial
      ∧ (f t).closedLevels = t.closedLevels) :
    PartialsMatch rs rb (l.modify f i) := by
  intro pair
  have hp := h pair
  unfold partialSells entriesWith at *
  rw [countP_modify_of_preserve _ f _ l i, countP_modify_of_preserve _ f _ l i, hp]
  · intro a
    rw [(hf a).1, (hf a).2.1, (hf a).2.2.2]
  · intro a
    rw [(hf a).1, (hf a).2.1, (hf a).2.2.1, (hf a).2.2.2]

/-- Counting step of a fired level: the level is written on the BUY record at `idx`, whose
`closedLevels` was undefined, and one partial SELL record carrying it is appended. -/
theorem PartialsMatch.fire {rs rb : Option (List ℚ) → Bool} {l : List Trade}
    (h : PartialsMatch rs rb l) (hnone : rb none = false)
    (hsingle : ∀ L : ℚ, rs (some [L]) = rb (some [L]))
    (idx : Nat) (ot pt : Trade) (L : ℚ) (hot : l[idx]? = some ot)
    (hbuy : ot.action = Action.BUY) (hcl : ot.closedLevels = none)
    (hpair : pt.pair = ot.pair) (hsell : pt.action = Action.SELL) (hpart : pt.isPartial = true)
    (hptcl : pt.closedLevels = some [L]) :
    PartialsMatch rs rb
      (l.modify (fun t => { t with closedLevels := some [L] }) idx ++ [pt]) := by
  intro pair
  have hp := h pair
  unfold partialSells entriesWith at *
  rw [List.countP_append, List.countP_append]
  have c1 := countP_modify_of_getElem
    (fun t : Trade => decide (t.pair = pair) && decide (t.action = Action.SELL)
      && t.isPartial && rs t.closedLevels)
    (fun t => { t with closedLevels := some [L] }) l idx ot hot
  have c2 := countP_modify_of_getElem
    (fun t : Trade => decide (t.pair = pair) && decide (t.action = Action.BUY)
      && rb t.closedLevels)
    (fun t => { t with closedLevels := some [L] }) l idx ot hot
  simp only [hbuy, hcl, hnone, hsingle, List.countP_cons, List.countP_nil, hpair, hsell, hpart,
    hptcl] at c1 c2 ⊢
  simp at c1 c2 ⊢
  by_cases hq : ot.pair = pair ∧ rb (some [L]) = true
  · simp only [hq, and_self, if_true] at c2 ⊢
    omega
  · simp only [hq, if_false] at c2 ⊢
    omega

theorem BuyAt.modify {l : List Trade} {idx : Nat} (h : BuyAt l idx) (f : Trade → Trade)
    (i : Nat) (hf : ∀ t, (f t).action = t.action) : BuyAt (l.modify f i) idx := by
  rcases h with ⟨t, ht, hb⟩
  by_cases hi : i = idx
  · subst hi
    exact ⟨f t, by rw [List.getElem?_modify_eq, ht]; rfl, (hf t).trans hb⟩
  · exact ⟨t, by rw [List.getElem?_modify_ne _ _ hi, ht], hb⟩

theorem BuyAt.append {l : List Trade} {idx : Nat} (h : BuyAt l idx) (r : List Trade) :
    BuyAt (l ++ r) idx := by
  rcases h with ⟨t, ht, hb⟩
  have hlt : idx < l.length := (List.getElem?_eq_some.mp ht).1
  exact ⟨t, by rw [List.getElem?_append_left hlt, ht], hb⟩

theorem partialLevelStep_partialsMatch {rs rb : Option (List ℚ) → Bool}
    (hnone : rb none = false) (hsingle : ∀ L : ℚ, rs (some [L]) = rb (some [L]))
    (pair : Pair) (x e pc : ℚ) (idx : Nat) (b : Bot) (level : UltraLSTM85.PartialLevel)
    (h : PartialsMatch rs rb b.portfolio.trades) (hb : BuyAt b.portfolio.trades idx) :
    PartialsMatch rs rb (partialLevelStep pair x e pc idx b level).portfolio.trades ∧
    BuyAt (partialLevelStep pair x e pc idx b level).portfolio.trades idx := by
  rcases hb with ⟨ot, hot, hbuy⟩
  rcases partialLevelStep_cases pair x e pc idx b level ot hot with
    heq | ⟨_, hcl, pt, hp, hs, hpart, hptcl, htr⟩
  · rw [heq]
    exact ⟨h, ot, hot, hbuy⟩
  · rw [htr]
    have hbm : BuyAt (b.portfolio.trades.modify
        (fun t => { t with closedLevels := some [level.level] }) idx) idx :=
      BuyAt.modify ⟨ot, hot, hbuy⟩ _ idx (fun _ => rfl)
    exact ⟨h.fire hnone hsingle idx ot pt level.level hot hbuy hcl hp hs hpart hptcl,
      hbm.append _⟩

theorem partialLevels_foldl_partialsMatch {rs rb : Option (List ℚ) → Bool}
    (hnone : rb none = false) (hsingle : ∀ L : ℚ, rs (some [L]) = rb (some [L]))
    (pair : Pair) (x e pc : ℚ) (idx : Nat) (levels : List UltraLSTM85.PartialLevel) (b : Bot)
    (h : PartialsMatch rs rb b.portfolio.trades) (hb : BuyAt b.portfolio.trades idx) :
    PartialsMatch rs rb (levels.foldl (partialLevelStep pair x e pc idx) b).portfolio.trades := by
  induction levels generalizing b with
  | nil => exact h
  | cons l rest ih =>
    have hstep := partialLevelStep_partialsMatch hnone hsingle pair x e pc idx b l h hb
    exact ih (partialLevelStep pair x e pc idx b l) hstep.1 hstep.2

theorem findOpenBuyIdx_buyAt (trades : List Trade) (pair : Pair) (idx : Nat)
    (h : findOpenBuyIdx trades pair = some idx) : BuyAt trades idx := by
  unfold findOpenBuyIdx at h
  have hp := List.find?_some h
  cases ht : trades[idx]? with
  | none => simp [ht] at hp
  | some t =>
    simp only [ht, Bool.and_eq_true, decide_eq_true_eq] at hp
    exact ⟨t, ht, hp.1.2⟩

theorem closeTrade_partialsMatch {rs rb : Option (List ℚ) → Bool} (b : Bot) (pair : Pair)
    (t : Trade) (x : ℚ) (sl : Bool) (h : PartialsMatch rs rb b.portfolio.trades) :
    PartialsMatch rs rb (closeTrade b pair t x sl).portfolio.trades := by
  show PartialsMatch rs rb (b.portfolio.trades ++ [_])
  exact h.append_neutral _ (fun _ => rfl) (fun hh => by cases hh)

theorem ultra_check_partialsMatch {rs rb : Option (List ℚ) → Bool}
    (hnone : rb none = false) (hsingle : ∀ L : ℚ, rs (some [L]) = rb (some [L]))
    (b : Bot) (pair : Pair) (x : ℚ) (h : PartialsMatch rs rb b.portfolio.trades) :
    PartialsMatch rs rb (checkStopLossAndTakeProfit b pair x).1.portfolio.trades := by
  unfold checkStopLossAndTakeProfit
  split
  · exact h
  · rename_i idx hfind
    have hb : BuyAt b.portfolio.trades idx := findOpenBuyIdx_buyAt _ _ _ hfind
    split
    · exact h
    · rename_i openTrade _
      cases hopen : noOpenPosition b.portfolio.positions pair with
      | true => simpa using h
      | false =>
        simp only [Bool.false_eq_true, if_false]
        split
        · exact h
        · rename_i atr _
          have hm : ∀ m : ℚ, PartialsMatch rs rb
              (modifyTrade b idx (fun t => { t with maxProfit := some m })).portfolio.trades :=
            fun m => h.modify_preserve _ idx (fun _ => ⟨rfl, rfl, rfl, rfl⟩)
          have hbm : ∀ m : ℚ, BuyAt
              (modifyTrade b idx (fun t => { t with maxProfit := some m })).portfolio.trades
              idx :=
            fun m => hb.modify _ idx (fun _ => rfl)
          by_cases hsl : percentChange x openTrade.entryPrice < -slPercent atr x
          · rw [if_pos hsl]; exact closeTrade_partialsMatch b pair openTrade x true h
          · rw [if_neg hsl]
            by_cases hact : percentChange x openTrade.entryPrice > UltraLSTM85.trailing.activation
            · rw [if_pos hact]
              by_cases htr : percentChange x openTrade.entryPrice
                  < trailedMaxProfit openTrade (percentChange x openTrade.entryPrice)
                    - UltraLSTM85.trailing.trailingPercent
              · rw [if_pos htr]
                exact closeTrade_partialsMatch _ pair _ x false (hm _)
              · rw [if_neg htr]
                exact partialLevels_foldl_partialsMatch hnone hsingle pair x
                  openTrade.entryPrice (percentChange x openTrade.entryPrice) idx
                  UltraLSTM85.takeProfit.partialLevels _ (hm _) (hbm _)
            · rw [if_neg hact]
              exact partialLevels_foldl_partialsMatch hnone hsingle pair x
                openTrade.entryPrice (percentChange x openTrade.entryPrice) idx
                UltraLSTM85.takeProfit.partialLevels b h hb

theorem ultra_executeTrade_partialsMatch {rs rb : Option (List ℚ) → Bool}
    (hnone : rb none = false) (b : Bot) (pair : Pair) (signal : Signal) (x : ℚ)
    (h : PartialsMatch rs rb b.portfolio.trades) :
    PartialsMatch rs rb (executeTrade b pair signal x).portfolio.trades := by
  unfold executeTrade
  cases signal.action with
  | BUY =>
    dsimp only
    by_cases h0 : calculatePositionSizeKelly b pair x = 0
    · rw [if_pos h0]; exact h
    · rw [if_neg h0]
      by_cases h1 : calculatePositionSizeKelly b pair x * x
          + calculatePositionSizeKelly b pair x * x * 0.001 > b.portfolio.cash
      · rw [if_pos h1]; exact h
      · rw [if_neg h1]
        exact h.append_neutral _ (fun _ => rfl) (fun _ => hnone)
  | SELL =>
    dsimp only
    cases hopen : noOpenPosition b.portfolio.positions pair with
    | true => simpa using h
    | false =>
      simp only [Bool.false_eq_true, if_false]
      split
      · exact h
      · show PartialsMatch rs rb (b.portfolio.trades ++ [_])
        exact h.append_neutral _ (fun _ => rfl) (fun hh => by cases hh)
  | HOLD => exact h

theorem ultra_onNewCandle_partialsMatch {rs rb : Option (List ℚ) → Bool}
    (hnone : rb none = false) (hsingle : ∀ L : ℚ, rs (some [L]) = rb (some [L]))
    (b : Bot) (pair : Pair) (candle : Candle) (raw : Signal)
    (h : PartialsMatch rs rb b.portfolio.trades) :
    PartialsMatch rs rb (onNewCandle b pair candle raw).portfolio.trades := by
  unfold onNewCandle
  dsimp only
  have h1 : PartialsMatch rs rb (recordCandle b pair candle).portfolio.trades := h
  have hc := ultra_check_partialsMatch hnone hsingle (recordCandle b pair candle) pair
    candle.close h1
  split
  · exact hc
  · have hg : PartialsMatch rs rb
        (generateSignalUltraLSTM (checkStopLossAndTakeProfit (recordCandle b pair candle) pair
          candle.close).1 raw).1.portfolio.trades := hc
    split
    · exact ultra_executeTrade_partialsMatch hnone _ _ _ _ hg
    · exact hg

theorem ultra_run_partialsMatch {rs rb : Option (List ℚ) → Bool}
    (hnone : rb none = false) (hsingle : ∀ L : ℚ, rs (some [L]) = rb (some [L]))
    (ticks : List Tick) (b : Bot) (h : PartialsMatch rs rb b.portfolio.trades) :
    PartialsMatch rs rb (run b ticks).portfolio.trades := by
  induction ticks generalizing b with
  | nil => exact h
  | cons tick rest ih =>
    exact ih (onNewCandle b tick.pair tick.candle tick.raw)
      (ultra_onNewCandle_partialsMatch hnone hsingle b tick.pair tick.candle tick.raw h)

theorem entriesWith_le_entryCount (r : Option (List ℚ) → Bool) (trades : List Trade)
    (pair : Pair) : entriesWith r trades pair ≤ entryCount trades pair := by
  unfold entriesWith entryCount
  apply List.countP_mono_left
  intro t _ ht
  simp only [Bool.and_eq_true] at ht ⊢
  exact ht.1

/-- C12 (counterexample).  One position lifetime of BTCUSDT: 10 units are entered at 100; on the
tick at 101 the level 0.5 fires (3 units sold, 7 left) and the BUY answered by the engine is
filled at 101; on the tick at 101.6, which is 0.594% above the entry price of the second BUY
record, the level 0.5 fires again.  The position is positive after every step, and the log holds
two partial SELL records of level 0.5. -/
theorem partial_level_fires_twice_in_one_lifetime :
    jsGet (run (new 10000 ["BTCUSDT"]) [buyTick]).portfolio.positions "BTCUSDT" = some 10 ∧
    jsGet (checkStopLossAndTakeProfit
      (recordCandle (run (new 10000 ["BTCUSDT"]) [buyTick]) "BTCUSDT" (flatCandle 101))
      "BTCUSDT" 101).1.portfolio.positions "BTCUSDT" = some 7 ∧
    jsGet (run (new 10000 ["BTCUSDT"]) [buyTick, buyTickAt101]).portfolio.positions "BTCUSDT"
      = some (12837 / 404) ∧
    jsGet (run (new 10000 ["BTCUSDT"]) reentryDuringLifetime).portfolio.positions "BTCUSDT"
      = some (89859 / 4040) ∧
    percentChange 101.6 101 = 60 / 101 ∧
    ((run (new 10000 ["BTCUSDT"]) reentryDuringLifetime).portfolio.trades.map
        (fun t => (t.action, t.isPartial, t.entryPrice, t.quantity, t.closedLevels)))
      = [(Action.BUY, false, 100, 10, some [0.5]),
         (Action.SELL, true, 100, 3, some [0.5]),
         (Action.BUY, false, 101, 10009 / 404, some [0.5]),
         (Action.SELL, true, 101, 38511 / 4040, some [0.5])] ∧
    partialFires (run (new 10000 ["BTCUSDT"]) reentryDuringLifetime).portfolio.trades
      "BTCUSDT" 0.5 = 2 := by
  refine ⟨?_, ?_, ?_, ?_, ?_, ?_, ?_⟩ <;> decide!

/-- C12 (amended).  For every sequence of ticks and engine answers, every pair and every level:
the partial SELL records of the pair fired at the level are exactly as many as the BUY records
of the pair on which the level is recorded, so they never exceed the number of BUY records of
the pair: a level fires at most once per entry record (not per position lifetime).  Every
partial SELL record carries exactly one level, so the count misses none. -/
theorem partial_level_fires_at_most_once_per_entry_record (initialCapital : ℚ)
    (tradingPairs : List Pair) (ticks : List Tick) (pair : Pair) (level : ℚ) :
    partialFires (run (new initialCapital tradingPairs) ticks).portfolio.trades pair level
      = markedEntries (run (new initialCapital tradingPairs) ticks).portfolio.trades pair level ∧
    partialFires (run (new initialCapital tradingPairs) ticks).portfolio.trades pair level
      ≤ entryCount (run (new initialCapital tradingPairs) ticks).portfolio.trades pair ∧
    partialsWithoutLevel (run (new initialCapital tradingPairs) ticks).portfolio.trades pair
      = 0 := by
  have h0 : ∀ rs rb : Option (List ℚ) → Bool,
      PartialsMatch rs rb (new initialCapital tradingPairs).portfolio.trades :=
    fun _ _ _ => rfl
  have hlevel : PartialsMatch (fun cl => decide (cl = some [level]))
      (fun cl => decide (cl = some [level]))
      (run (new initialCapital tradingPairs) ticks).portfolio.trades :=
    @ultra_run_partialsMatch (fun cl => decide (cl = some [level]))
      (fun cl => decide (cl = some [level])) (by simp) (fun _ => rfl) ticks _ (h0 _ _)
  have hall : PartialsMatch (fun cl => match cl with | some [_] => false | _ => true)
      (fun _ => false) (run (new initialCapital tradingPairs) ticks).portfolio.trades :=
    @ultra_run_partialsMatch (fun cl => match cl with | some [_] => false | _ => true)
      (fun _ => false) rfl (fun _ => rfl) ticks _ (h0 _ _)
  have e1 : partialFires (run (new initialCapital tradingPairs) ticks).portfolio.trades pair
      level = markedEntries (run (new initialCapital tradingPairs) ticks).portfolio.trades pair
      level := hlevel pair
  have e2 : partialsWithoutLevel (run (new initialCapital tradingPairs) ticks).portfolio.trades
      pair = entriesWith (fun _ => false)
        (run (new initialCapital tradingPairs) ticks).portfolio.trades pair :=
    hall pair
  refine ⟨e1, ?_, ?_⟩
  · rw [e1]; exact entriesWith_le_entryCount _ _ _
  · rw [e2]
    unfold entriesWith
    simp

end UltraTradingBot

namespace UltraTradingBot

/-! ### Indicators of the ultra bot -/

theorem ema_foldl_const (m multiplier : ℚ) (k : Nat) :
    (List.replicate k m).foldl (fun ema close => (close - ema) * multiplier + ema) m = m := by
  induction k with
  | zero => rfl
  | succ n ih =>
    rw [List.replicate_succ, List.foldl_cons]
    have e : (m - m) * multiplier + m = m := by ring
    rw [e]
    exact ih

theorem calculateEMA_replicate (m : ℚ) (k : Nat) :
    calculateEMA (List.replicate (k + 1) m) (k + 1) = some m := by
  unfold calculateEMA
  rw [if_neg (by simp)]
  rw [List.replicate_succ]
  dsimp only
  rw [ema_foldl_const]

theorem calculateEMA_isSome (closes : List ℚ) (period : Nat) (h : closes ≠ []) :
    ∃ v, calculateEMA closes period = some v := by
  unfold calculateEMA
  by_cases hlt : closes.length < period
  · rw [if_pos hlt]
    cases hl : closes.getLast? with
    | none => exact absurd (List.getLast?_eq_none_iff.mp hl) h
    | some v => exact ⟨v, rfl⟩
  · rw [if_neg hlt]
    cases closes with
    | nil => exact absurd rfl h
    | cons first rest => exact ⟨_, rfl⟩

theorem signal_window (data : List Candle) (m : ℚ) (h : 26 ≤ data.length) :
    (data.map (fun _ => m)).drop (data.length - 9) = List.replicate 9 m := by
  have e : data.map (fun _ => m) = List.replicate data.length m :=
    List.eq_replicate_iff.mpr ⟨by simp, by simp⟩
  rw [e, List.drop_replicate]
  congr 1
  omega

theorem calculateMACD_histogram (data : List Candle) :
    ∃ r, calculateMACD data = some r ∧ r.histogram = 0 := by
  unfold calculateMACD
  by_cases hlt : data.length < 26
  · rw [if_pos hlt]
    exact ⟨_, rfl, rfl⟩
  · rw [if_neg hlt]
    have hne : data.map Candle.close ≠ [] := by
      intro h
      have hlen := congrArg List.length h
      rw [List.length_map, List.length_nil] at hlen
      omega
    obtain ⟨e12, h12⟩ := calculateEMA_isSome (data.map Candle.close) 12 hne
    obtain ⟨e26, h26⟩ := calculateEMA_isSome (data.map Candle.close) 26 hne
    rw [h12, h26]
    dsimp only [Option.bind]
    rw [signal_window data (e12 - e26) (by omega), calculateEMA_replicate (e12 - e26) 8]
    exact ⟨_, rfl, sub_self _⟩

/-- C30. `calculateMACD` returns an object whose `histogram` is 0 for every candle list, and
never throws: below 26 candles by the early return, from 26 candles on because the signal line is
the EMA of nine copies of the MACD value and equals it.  So the `macd` entry `updateIndicators`
stores for the signal source is 0 whenever it stores anything. -/
theorem calculateMACD_histogram_is_always_zero (sqrt : ℚ → ℚ) (data : List Candle) :
    (∃ r, calculateMACD data = some r ∧ r.histogram = 0 ∧ r.signal = r.macd) ∧
    (∀ m : ℚ, calculateEMA (List.replicate 9 m) 9 = some m) ∧
    (updateIndicators sqrt data).map Indicators.macd
      = (updateIndicators sqrt data).map (fun _ => 0) := by
  obtain ⟨r, hr, h0⟩ := calculateMACD_histogram data
  refine ⟨?_, ?_, ?_⟩
  · unfold calculateMACD
    by_cases hlt : data.length < 26
    · rw [if_pos hlt]
      exact ⟨_, rfl, rfl, rfl⟩
    · rw [if_neg hlt]
      have hne : data.map Candle.close ≠ [] := by
        intro h
        have hlen := congrArg List.length h
        rw [List.length_map, List.length_nil] at hlen
        omega
      obtain ⟨e12, h12⟩ := calculateEMA_isSome (data.map Candle.close) 12 hne
      obtain ⟨e26, h26⟩ := calculateEMA_isSome (data.map Candle.close) 26 hne
      rw [h12, h26]
      dsimp only [Option.bind]
      rw [signal_window data (e12 - e26) (by omega), calculateEMA_replicate (e12 - e26) 8]
      exact ⟨_, rfl, sub_self _, rfl⟩
  · intro m
    exact calculateEMA_replicate m 8
  · unfold updateIndicators
    by_cases h14 : data.length < 14
    · rw [if_pos h14]
      rfl
    · rw [if_neg h14, hr]
      cases calculateRSI data 14 with
      | none => rfl
      | some rsi =>
        cases calculateBB sqrt data 20 2 with
        | none => rfl
        | some bb =>
          dsimp only [Option.bind]
          split
          · cases (data[data.length - 1]?) with
            | none => rfl
            | some last =>
              cases (data[data.length - 2]?) with
              | none => rfl
              | some prev => simp [h0]
          · simp [h0]

/-- C23 (counterexample).  For one candle with high 101 and low 99, `calculateATR` returns the
range 2 of that candle, not 0; the same holds for thirteen candles. -/
theorem calculateATR_short_history_is_not_zero :
    (risingCandles 1).length = 1 ∧
    calculateATR (risingCandles 1) 14 = some 2 ∧
    calculateATR (risingCandles 1) 14 ≠ some 0 ∧
    (risingCandles 13).length = 13 ∧
    calculateATR (risingCandles 13) 14 = some 2 := by
  refine ⟨?_, ?_, ?_, ?_, ?_⟩ <;> decide!

/-- C23 (amended).  For every candle list, the empty one included, `calculateRSI` returns 50
for fewer than 15 candles, `calculateMACD` returns histogram 0 for fewer than 26 and
`calculateBB` returns position 0.5 for fewer than 20, without throwing; for a non-empty list of
fewer than 14 candles `calculateATR` returns the range `high - low` of the last candle. -/
theorem indicators_on_short_history (sqrt : ℚ → ℚ) (data : List Candle) :
    (data.length < 15 → calculateRSI data 14 = some 50) ∧
    (data.length < 26 → calculateMACD data = some { histogram := 0 }) ∧
    (data.length < 20 → calculateBB sqrt data 20 2 = some { position := 0.5 }) ∧
    (∀ last, data.length < 14 → data.getLast? = some last →
      calculateATR data 14 = some (last.high - last.low)) := by
  refine ⟨fun h => ?_, fun h => ?_, fun h => ?_, fun last h hlast => ?_⟩
  · unfold calculateRSI
    rw [if_pos h]
  · unfold calculateMACD
    rw [if_pos h]
  · unfold calculateBB
    rw [if_pos h]
  · unfold calculateATR
    rw [if_pos h, hlast]

/-- Witness for C23 (amended): the empty list for the three defaults, three candles for the
range. -/
theorem indicators_on_short_history_witness :
    calculateRSI [] 14 = some 50 ∧
    calculateMACD [] = some { histogram := 0 } ∧
    calculateBB (fun v => v) [] 20 2 = some { position := 0.5 } ∧
    calculateATR (risingCandles 3) 14 = some (103 - 101) :=
  ⟨(indicators_on_short_history (fun v => v) []).1 (by decide),
   (indicators_on_short_history (fun v => v) []).2.1 (by decide),
   (indicators_on_short_history (fun v => v) []).2.2.1 (by decide),
   (indicators_on_short_history (fun v => v) (risingCandles 3)).2.2.2
     { time := 2, openPrice := 102, high := 103, low := 101, close := 102, volume := 1,
       isClosed := true } (by decide) (by decide!)⟩

end UltraTradingBot

namespace PaperTradingBot

/-! ### Funds check and round trips of the paper bot -/

theorem calculatePositionSize_cost_le (b : Bot) (pair : Pair) (price confidence : ℚ)
    (hcash : 0 ≤ b.portfolio.cash) (hprice : 0 < price) :
    calculatePositionSize b pair price confidence * price ≤ b.portfolio.cash * 0.3 := by
  unfold calculatePositionSize
  dsimp only
  by_cases h : min ((b.portfolio.cash + positionsValue b.portfolio.positions b.priceFeeds) * 0.02
      * (0.5 + min confidence 1 * 1.5)) (b.portfolio.cash * 0.3) < 50
  · rw [if_pos h, zero_mul]
    exact mul_nonneg hcash (by norm_num)
  · rw [if_neg h]
    have hcost : (0 : ℚ) ≤ min ((b.portfolio.cash
        + positionsValue b.portfolio.positions b.priceFeeds) * 0.02
        * (0.5 + min confidence 1 * 1.5)) (b.portfolio.cash * 0.3) :=
      le_trans (by norm_num) (not_lt.mp h)
    have hfloor : (0 : ℚ) ≤ ((⌊min ((b.portfolio.cash
        + positionsValue b.portfolio.positions b.priceFeeds) * 0.02
        * (0.5 + min confidence 1 * 1.5)) (b.portfolio.cash * 0.3) / price * 100000000⌋ : ℤ) : ℚ)
        / 100000000 :=
      div_nonneg (Int.cast_nonneg.mpr (Int.floor_nonneg.mpr
        (mul_nonneg (div_nonneg hcost (le_of_lt hprice)) (by norm_num)))) (by norm_num)
    rw [max_eq_left hfloor]
    have hle : ((⌊min ((b.portfolio.cash
        + positionsValue b.portfolio.positions b.priceFeeds) * 0.02
        * (0.5 + min confidence 1 * 1.5)) (b.portfolio.cash * 0.3) / price * 100000000⌋ : ℤ) : ℚ)
        / 100000000
        ≤ min ((b.portfolio.cash + positionsValue b.portfolio.positions b.priceFeeds) * 0.02
          * (0.5 + min confidence 1 * 1.5)) (b.portfolio.cash * 0.3) / price := by
      rw [div_le_iff₀ (by norm_num : (0 : ℚ) < 100000000)]
      exact Int.floor_le _
    calc _ ≤ min ((b.portfolio.cash + positionsValue b.portfolio.positions b.priceFeeds) * 0.02
          * (0.5 + min confidence 1 * 1.5)) (b.portfolio.cash * 0.3) / price * price :=
          mul_le_mul_of_nonneg_right hle (le_of_lt hprice)
      _ = min ((b.portfolio.cash + positionsValue b.portfolio.positions b.priceFeeds) * 0.02
          * (0.5 + min confidence 1 * 1.5)) (b.portfolio.cash * 0.3) :=
          div_mul_cancel₀ _ (ne_of_gt hprice)
      _ ≤ b.portfolio.cash * 0.3 := min_le_right _ _

/-- C25. For every state with `cash ≥ 0`, every confidence and every price > 0 the sized
quantity `q` satisfies `q * price * 1.001 ≤ 0.3003 * cash ≤ cash`; so the total cost of a BUY
never exceeds cash, and a BUY with confidence at least 0.70 and `q ≠ 0` is filled: cash is
debited by `q * price * 1.001` and one BUY record of quantity `q` is appended. -/
theorem buy_is_never_rejected_for_lack_of_funds (b : Bot) (pair : Pair) (signal : Signal)
    (price : ℚ) (hcash : 0 ≤ b.portfolio.cash) (hprice : 0 < price) :
    calculatePositionSize b pair price signal.confidence * price * 1.001
      ≤ 0.3003 * b.portfolio.cash ∧
    0.3003 * b.portfolio.cash ≤ b.portfolio.cash ∧
    ¬ (calculatePositionSize b pair price signal.confidence * price
        + calculatePositionSize b pair price signal.confidence * price * 0.001
        > b.portfolio.cash) ∧
    (pair ≠ "" → signal.action = Action.BUY → 0.70 ≤ signal.confidence →
      calculatePositionSize b pair price signal.confidence ≠ 0 →
      (executeTrade b pair signal price).portfolio.cash
        = b.portfolio.cash - calculatePositionSize b pair price signal.confidence * price * 1.001 ∧
      ∃ t, (executeTrade b pair signal price).portfolio.trades = b.portfolio.trades ++ [t] ∧
        t.action = Action.BUY ∧
        t.quantity = calculatePositionSize b pair price signal.confidence) := by
  have hcost := calculatePositionSize_cost_le b pair price signal.confidence hcash hprice
  have h1 : calculatePositionSize b pair price signal.confidence * price * 1.001
      ≤ 0.3003 * b.portfolio.cash := by
    have e : (0.3003 : ℚ) * b.portfolio.cash = b.portfolio.cash * 0.3 * 1.001 := by ring
    rw [e]
    exact mul_le_mul_of_nonneg_right hcost (by norm_num)
  have h2 : 0.3003 * b.portfolio.cash ≤ b.portfolio.cash := by
    have e : b.portfolio.cash - 0.3003 * b.portfolio.cash = 0.6997 * b.portfolio.cash := by ring
    have : 0 ≤ b.portfolio.cash - 0.3003 * b.portfolio.cash := by
      rw [e]; exact mul_nonneg (by norm_num) hcash
    linarith
  refine ⟨h1, h2, ?_, fun hpair hbuy hconf hq0 => ?_⟩
  · have e : calculatePositionSize b pair price signal.confidence * price
        + calculatePositionSize b pair price signal.confidence * price * 0.001
        = calculatePositionSize b pair price signal.confidence * price * 1.001 := by ring
    rw [e]
    exact not_lt.mpr (le_trans h1 h2)
  · have hb := executeTrade_buy_eq b pair signal price hpair hprice hbuy hconf hq0
      (le_trans h1 h2)
    rw [hb]
    exact ⟨rfl, _, rfl, rfl, rfl⟩

/-- Witness for C25: capital 10000, confidence 1 and price 100 (4 units, cost 400.4). -/
theorem buy_is_never_rejected_for_lack_of_funds_witness :
    calculatePositionSize (new 10000) "BTCUSDT" 100 1 * 100 * 1.001 ≤ 0.3003 * 10000 ∧
    (executeTrade (new 10000) "BTCUSDT" { action := Action.BUY, confidence := 1 }
      100).portfolio.cash
      = 10000 - calculatePositionSize (new 10000) "BTCUSDT" 100 1 * 100 * 1.001 :=
  have h := buy_is_never_rejected_for_lack_of_funds (new 10000) "BTCUSDT"
    { action := Action.BUY, confidence := 1 } 100 (by decide!) (by norm_num)
  ⟨h.1, (h.2.2.2 (by decide) rfl (by norm_num) (by decide!)).1⟩

/-- C26. A BUY fill of quantity `q` at price `p` followed by a SELL fill at price `x` that
closes exactly `q` against it: the SELL record's profit is the net change of cash over the two
fills, `cash_after_sell - cash_before_buy`. -/
theorem round_trip_cash_change_is_recorded_profit (b : Bot) (pair : Pair) (buy sell : Signal)
    (p x q : ℚ) (hpair : pair ≠ "") (hp : 0 < p) (hx : 0 < x)
    (hbuy : buy.action = Action.BUY) (hconf : 0.70 ≤ buy.confidence)
    (hq : calculatePositionSize b pair p buy.confidence = q) (hq0 : q ≠ 0)
    (hcash : q * p * 1.001 ≤ b.portfolio.cash)
    (hsell : sell.action = Action.SELL)
    (hfill : actualPositionSize (executeTrade b pair buy p) pair sell x = q) :
    ∃ t, (executeTrade (executeTrade b pair buy p) pair sell x).portfolio.trades
        = b.portfolio.trades
          ++ [{ pair := pair, action := Action.BUY, entryPrice := p, quantity := q,
                confidence := buy.confidence, commission := some (q * p * 0.001),
                cost := some (q * p) }, t] ∧
      t.action = Action.SELL ∧ t.quantity = q ∧ t.entryPrice = p ∧
      t.profit = some ((executeTrade (executeTrade b pair buy p) pair sell x).portfolio.cash
        - b.portfolio.cash) ∧
      (executeTrade (executeTrade b pair buy p) pair sell x).portfolio.cash - b.portfolio.cash
        = q * x * 0.999 - q * p * 1.001 := by
  have hqpos : 0 < q := lt_of_le_of_ne (hq ▸ calculatePositionSize_nonneg b pair p buy.confidence)
    (Ne.symm hq0)
  have hb1 := executeTrade_buy_eq b pair buy p hpair hp hbuy hconf (by rw [hq]; exact hq0)
    (by rw [hq]; exact hcash)
  rw [hq] at hb1
  have hpos1 : jsGet (executeTrade b pair buy p).portfolio.positions pair
      = some ((jsGet b.portfolio.positions pair).getD 0 + q) := by
    rw [hb1]; exact jsGet_jsSet_self _ _ _
  have hheld : q ≤ (jsGet b.portfolio.positions pair).getD 0 + q := by
    have hmin := hfill
    unfold actualPositionSize at hmin
    rw [hpos1] at hmin
    have hle := min_le_right
      (calculatePositionSize (executeTrade b pair buy p) pair x sell.confidence)
      ((some ((jsGet b.portfolio.positions pair).getD 0 + q)).getD 0)
    rw [hmin] at hle
    exact hle
  have hsz : calculatePositionSize (executeTrade b pair buy p) pair x sell.confidence ≠ 0 := by
    intro h0
    have hmin := hfill
    unfold actualPositionSize at hmin
    rw [h0, hpos1] at hmin
    have hle : min (0 : ℚ) ((some ((jsGet b.portfolio.positions pair).getD 0 + q)).getD 0) ≤ 0 :=
      min_le_left _ _
    rw [hmin] at hle
    exact absurd hqpos (not_lt.mpr hle)
  have hopen : noOpenPosition (executeTrade b pair buy p).portfolio.positions pair = false :=
    noOpenPosition_of_pos hpos1 (lt_of_lt_of_le hqpos hheld)
  have hfind : findOpenBuy (executeTrade b pair buy p).portfolio.trades pair
      = some { pair := pair, action := Action.BUY, entryPrice := p, quantity := q,
               confidence := buy.confidence, commission := some (q * p * 0.001),
               cost := some (q * p) } := by
    rw [hb1]
    exact findOpenBuy_append_buy _ _ _ rfl rfl rfl
  have hb2 := executeTrade_sell_eq (executeTrade b pair buy p) pair sell x _ hpair hx hsell hsz
    hopen hfind
  have hcash1 : (executeTrade b pair buy p).portfolio.cash = b.portfolio.cash - q * p * 1.001 := by
    rw [hb1]
  have htrades1 : (executeTrade b pair buy p).portfolio.trades
      = b.portfolio.trades
        ++ [{ pair := pair, action := Action.BUY, entryPrice := p, quantity := q,
              confidence := buy.confidence, commission := some (q * p * 0.001),
              cost := some (q * p) }] := by
    rw [hb1]
  have hcash2 : (executeTrade (executeTrade b pair buy p) pair sell x).portfolio.cash
      = b.portfolio.cash - q * p * 1.001 + q * x * 0.999 := by
    rw [hb2]
    show (executeTrade b pair buy p).portfolio.cash
      + actualPositionSize (executeTrade b pair buy p) pair sell x * x * 0.999 = _
    rw [hfill, hcash1]
  refine ⟨{ pair := pair, action := Action.SELL, exitPrice := some x, quantity := q,
            confidence := sell.confidence,
            profit := some (q * x * 0.999 - q * p * 1.001),
            returnPercent := some ((q * x * 0.999 - q * p * 1.001) / (p * q) * 100),
            entryPrice := p, closedAt := true,
            openCommission := some (q * p * 0.001),
            closeCommission := some (q * x * 0.001),
            totalCommission := some (q * p * 0.001 + q * x * 0.001) }, ?_, rfl, rfl, rfl, ?_, ?_⟩
  · rw [hb2]
    show (executeTrade b pair buy p).portfolio.trades ++ [_] = _
    rw [htrades1, List.append_assoc]
    congr 1
    have hprofit : sellProfit (executeTrade b pair buy p) pair sell x
        { pair := pair, action := Action.BUY, entryPrice := p, quantity := q,
          confidence := buy.confidence, commission := some (q * p * 0.001),
          cost := some (q * p) } = q * x * 0.999 - q * p * 1.001 := by
      simp only [sellProfit, hfill, Option.getD_some]
      ring
    rw [hprofit, hfill]
    rfl
  · rw [hcash2]
    exact congrArg some (by ring)
  · rw [hcash2]
    ring

/-- Witness for C26: capital 10000, BUY at 100 with confidence 0.7 (3.1 units) and a SELL of the
same 3.1 units at 103. -/
theorem round_trip_cash_change_is_recorded_profit_witness :
    (executeTrade (executeTrade (new 10000) "BTCUSDT" { action := Action.BUY, confidence := 0.7 }
        100) "BTCUSDT" { action := Action.SELL, confidence := 1 } 103).portfolio.cash - 10000
      = 3.1 * 103 * 0.999 - 3.1 * 100 * 1.001 :=
  (round_trip_cash_change_is_recorded_profit (new 10000) "BTCUSDT"
    { action := Action.BUY, confidence := 0.7 } { action := Action.SELL, confidence := 1 }
    100 103 3.1 (by decide) (by norm_num) (by norm_num) rfl (by norm_num) (by decide!)
    (by norm_num) (by decide!) rfl (by decide!)).choose_spec.2.2.2.2.2

end PaperTradingBot

namespace UltraTradingBot

/-! ### The partial take-profit loop, step by step -/

/-- An iteration of the partial take-profit loop whose guard fails changes nothing. -/
theorem partialLevelStep_eq_self (pair : Pair) (x e pc : ℚ) (idx : Nat) (b : Bot)
    (level : UltraLSTM85.PartialLevel)
    (h : ∀ ot, b.portfolio.trades[idx]? = some ot →
      ¬ (pc ≥ level.level ∧ ot.closedLevels = none)) :
    partialLevelStep pair x e pc idx b level = b := by
  unfold partialLevelStep
  split
  · rfl
  · rename_i ot hot
    rw [if_neg (h ot hot)]

/-- The state left by an iteration of the partial take-profit loop whose guard holds. -/
theorem partialLevelStep_fire (pair : Pair) (x e pc : ℚ) (idx : Nat) (b : Bot)
    (level : UltraLSTM85.PartialLevel) (ot : Trade) (hot : b.portfolio.trades[idx]? = some ot)
    (hpc : pc ≥ level.level) (hcl : ot.closedLevels = none) :
    partialLevelStep pair x e pc idx b level =
      { b with portfolio :=
          { b.portfolio with
            trades := b.portfolio.trades.modify
                (fun t => { t with closedLevels := some [level.level] }) idx
              ++ [{ ot with
                    action := Action.SELL,
                    exitPrice := some x,
                    quantity := (jsGet b.portfolio.positions pair).getD 0 * level.percentage,
                    closedAt := true,
                    isPartial := true,
                    profit := some ((x - e)
                      * ((jsGet b.portfolio.positions pair).getD 0 * level.percentage)),
                    closedLevels := some [level.level] }],
            positions := jsSet b.portfolio.positions pair
              ((jsGet b.portfolio.positions pair).getD 0
                - (jsGet b.portfolio.positions pair).getD 0 * level.percentage),
            cash := b.portfolio.cash
              + x * ((jsGet b.portfolio.positions pair).getD 0 * level.percentage),
            totalProfit := b.portfolio.totalProfit
              + (x - e) * ((jsGet b.portfolio.positions pair).getD 0 * level.percentage),
            winTrades :=
              if (x - e) * ((jsGet b.portfolio.positions pair).getD 0 * level.percentage) > 0
              then b.portfolio.winTrades + 1 else b.portfolio.winTrades,
            totalTrades := b.portfolio.totalTrades + 1 } } := by
  have hidx : idx < b.portfolio.trades.length := (List.getElem?_eq_some.mp hot).1
  have hcl0 : ot.closedLevels.getD [] = [] := by rw [hcl]; rfl
  unfold partialLevelStep
  rw [hot]
  dsimp only
  rw [if_pos ⟨hpc, hcl⟩, hcl0, if_neg (List.not_mem_nil _)]
  unfold firePartialLevel executePartialClose modifyTrade
  dsimp only
  have hidx1 : idx < (List.modify (fun t : Trade => { t with closedLevels := some [] }) idx
      b.portfolio.trades).length := by
    rw [List.length_modify]; exact hidx
  rw [modify_append_of_lt _ _ _ _ hidx1, List.modify_modify_eq]
  rw [List.length_append, List.length_modify, List.length_singleton, Nat.add_sub_cancel]
  have hlen2 : b.portfolio.trades.length
      = (List.modify ((fun t : Trade => { t with closedLevels := some ([] ++ [level.level]) })
          ∘ (fun t : Trade => { t with closedLevels := some [] })) idx
          b.portfolio.trades).length := by
    rw [List.length_modify]
  rw [hlen2, modify_append_length]
  rfl

/-- The loop over the ladder of partial levels is its first iteration: once the level 0.5 has
been tried, the guard of the levels 1.0 and 2.0 fails. -/
theorem partialLevels_foldl_eq (pair : Pair) (x e pc : ℚ) (idx : Nat) (b : Bot) :
    UltraLSTM85.takeProfit.partialLevels.foldl (partialLevelStep pair x e pc idx) b
      = partialLevelStep pair x e pc idx b { level := 0.5, percentage := 0.3 } := by
  have key : ∀ level : UltraLSTM85.PartialLevel, 0.5 ≤ level.level →
      partialLevelStep pair x e pc idx
        (partialLevelStep pair x e pc idx b { level := 0.5, percentage := 0.3 }) level
      = partialLevelStep pair x e pc idx b { level := 0.5, percentage := 0.3 } := by
    intro level hlevel
    apply partialLevelStep_eq_self
    intro ot1 hot1 hguard
    cases hot : b.portfolio.trades[idx]? with
    | none =>
      have hself : partialLevelStep pair x e pc idx b { level := 0.5, percentage := 0.3 } = b :=
        partialLevelStep_eq_self pair x e pc idx b _ (fun ot h => by rw [hot] at h; cases h)
      rw [hself, hot] at hot1
      cases hot1
    | some ot =>
      by_cases hc : pc ≥ (0.5 : ℚ) ∧ ot.closedLevels = none
      · have hfire := partialLevelStep_fire pair x e pc idx b
          { level := 0.5, percentage := 0.3 } ot hot hc.1 hc.2
        have hidx : idx < (b.portfolio.trades.modify
            (fun t => { t with closedLevels := some [(0.5 : ℚ)] }) idx).length := by
          rw [List.length_modify]; exact (List.getElem?_eq_some.mp hot).1
        rw [hfire] at hot1
        dsimp only at hot1
        rw [List.getElem?_append_left hidx, List.getElem?_modify_eq, hot] at hot1
        simp only [Option.map_eq_map, Option.map_some', Option.some.injEq] at hot1
        rw [← hot1] at hguard
        exact absurd hguard.2 (by simp)
      · have hself : partialLevelStep pair x e pc idx b { level := 0.5, percentage := 0.3 }
            = b :=
          partialLevelStep_eq_self pair x e pc idx b _ (fun ot2 h => by
            rw [hot] at h
            cases h
            exact hc)
        rw [hself, hot] at hot1
        cases hot1
        exact hc ⟨le_trans hlevel hguard.1, hguard.2⟩
  show partialLevelStep pair x e pc idx
      (partialLevelStep pair x e pc idx
        (partialLevelStep pair x e pc idx b { level := 0.5, percentage := 0.3 })
        { level := 1.0, percentage := 0.3 })
      { level := 2.0, percentage := 0.4 } = _
  rw [key _ (by norm_num), key _ (by norm_num)]

/-- The two outcomes of an iteration of the partial take-profit loop on the record `ot` at
index `idx`: nothing changes, or the guard holds and the state is the one of
`partialLevelStep_fire`. -/
theorem partialLevelStep_outcome (pair : Pair) (x e pc : ℚ) (idx : Nat) (b : Bot)
    (level : UltraLSTM85.PartialLevel) (ot : Trade) (hot : b.portfolio.trades[idx]? = some ot) :
    partialLevelStep pair x e pc idx b level = b ∨
    (pc ≥ level.level ∧ ot.closedLevels = none ∧
      partialLevelStep pair x e pc idx b level =
        { b with portfolio :=
            { b.portfolio with
              trades := b.portfolio.trades.modify
                  (fun t => { t with closedLevels := some [level.level] }) idx
                ++ [{ ot with
                      action := Action.SELL,
                      exitPrice := some x,
                      quantity := (jsGet b.portfolio.positions pair).getD 0 * level.percentage,
                      closedAt := true,
                      isPartial := true,
                      profit := some ((x - e)
                        * ((jsGet b.portfolio.positions pair).getD 0 * level.percentage)),
                      closedLevels := some [level.level] }],
              positions := jsSet b.portfolio.positions pair
                ((jsGet b.portfolio.positions pair).getD 0
                  - (jsGet b.portfolio.positions pair).getD 0 * level.percentage),
              cash := b.portfolio.cash
                + x * ((jsGet b.portfolio.positions pair).getD 0 * level.percentage),
              totalProfit := b.portfolio.totalProfit
                + (x - e) * ((jsGet b.portfolio.positions pair).getD 0 * level.percentage),
              winTrades :=
                if (x - e) * ((jsGet b.portfolio.positions pair).getD 0 * level.percentage) > 0
                then b.portfolio.winTrades + 1 else b.portfolio.winTrades,
              totalTrades := b.portfolio.totalTrades + 1 } }) := by
  by_cases hc : pc ≥ level.level ∧ ot.closedLevels = none
  · exact Or.inr ⟨hc.1, hc.2, partialLevelStep_fire pair x e pc idx b level ot hot hc.1 hc.2⟩
  · left
    apply partialLevelStep_eq_self
    intro ot2 h
    rw [hot] at h
    cases h
    exact hc

/-- The record found by the open-trade scan is an open BUY record of the pair. -/
theorem findOpenBuyIdx_spec (trades : List Trade) (pair : Pair) (idx : Nat) (t : Trade)
    (h : findOpenBuyIdx trades pair = some idx) (ht : trades[idx]? = some t) :
    t.pair = pair ∧ t.action = Action.BUY ∧ t.closedAt = false := by
  unfold findOpenBuyIdx at h
  have hp := List.find?_some h
  simp only [ht, Bool.and_eq_true, decide_eq_true_eq, Bool.not_eq_true'] at hp
  exact ⟨hp.1.1, hp.1.2, hp.2⟩

/-- The outcomes of `executeTrade`: nothing changes, a BUY is filled, or the whole position is
sold against the open record `buyTrade`. -/
theorem ultra_executeTrade_outcome (b : Bot) (pair : Pair) (signal : Signal) (x : ℚ) :
    executeTrade b pair signal x = b ∨
    (signal.action = Action.BUY ∧ calculatePositionSizeKelly b pair x ≠ 0 ∧
      executeTrade b pair signal x =
        { b with portfolio :=
            { b.portfolio with
              cash := b.portfolio.cash - (calculatePositionSizeKelly b pair x * x
                + calculatePositionSizeKelly b pair x * x * 0.001),
              positions := jsSet b.portfolio.positions pair
                ((jsGet b.portfolio.positions pair).getD 0 + calculatePositionSizeKelly b pair x),
              trades := b.portfolio.trades ++
                [{ pair := pair, action := Action.BUY, entryPrice := x,
                   quantity := calculatePositionSizeKelly b pair x,
                   confidence := some signal.confidence,
                   commission := some (calculatePositionSizeKelly b pair x * x * 0.001),
                   cost := some (calculatePositionSizeKelly b pair x * x) }] } }) ∨
    (signal.action = Action.SELL ∧ noOpenPosition b.portfolio.positions pair = false ∧
      ∃ profit : ℚ, ∃ t : Trade, t.action = Action.SELL ∧ t.profit = some profit ∧
        t.isPartial = false ∧ t.closedLevels = none ∧
        executeTrade b pair signal x =
          updateDrawdown
            { b with portfolio :=
                { b.portfolio with
                  totalTrades := b.portfolio.totalTrades + 1,
                  winTrades :=
                    if profit > 0 then b.portfolio.winTrades + 1 else b.portfolio.winTrades,
                  lossTrades :=
                    if profit > 0 then b.portfolio.lossTrades else b.portfolio.lossTrades + 1,
                  totalProfit := b.portfolio.totalProfit + profit,
                  cash := b.portfolio.cash
                    + ((jsGet b.portfolio.positions pair).getD 0 * x
                      - (jsGet b.portfolio.positions pair).getD 0 * x * 0.001),
                  positions := jsSet b.portfolio.positions pair 0,
                  trades := b.portfolio.trades ++ [t] } }) := by
  unfold executeTrade
  cases hact : signal.action with
  | BUY =>
    dsimp only
    by_cases h0 : calculatePositionSizeKelly b pair x = 0
    · rw [if_pos h0]; exact Or.inl rfl
    · rw [if_neg h0]
      by_cases h1 : calculatePositionSizeKelly b pair x * x
          + calculatePositionSizeKelly b pair x * x * 0.001 > b.portfolio.cash
      · rw [if_pos h1]; exact Or.inl rfl
      · rw [if_neg h1]
        exact Or.inr (Or.inl ⟨rfl, h0, rfl⟩)
  | SELL =>
    dsimp only
    cases hopen : noOpenPosition b.portfolio.positions pair with
    | true => simp
    | false =>
      simp only [Bool.false_eq_true, if_false]
      split
      · exact Or.inl rfl
      · exact Or.inr (Or.inr ⟨trivial, trivial, _, _, rfl, rfl, rfl, rfl, rfl⟩)
  | HOLD => exact Or.inl rfl

/-- Induction over the state changes of `checkStopLossAndTakeProfit`: a property kept by a
full close, by the update of `maxProfit` on the open record and by the first iteration of the
partial take-profit loop is kept by the whole check. -/
theorem ultra_check_induct (P : Bot → Prop) (pair : Pair) (x : ℚ)
    (hclose : ∀ s t sl, noOpenPosition s.portfolio.positions pair = false → P s →
      P (closeTrade s pair t x sl))
    (htrack : ∀ s idx ot m, s.portfolio.trades[idx]? = some ot → ot.action = Action.BUY →
      P s → P (modifyTrade s idx (fun t => { t with maxProfit := some m })))
    (hfirstLevel : ∀ s idx ot, s.portfolio.trades[idx]? = some ot → ot.action = Action.BUY →
      ot.pair = pair → noOpenPosition s.portfolio.positions pair = false → P s →
      P (partialLevelStep pair x ot.entryPrice (percentChange x ot.entryPrice) idx s
        { level := 0.5, percentage := 0.3 }))
    (b : Bot) (h : P b) : P (checkStopLossAndTakeProfit b pair x).1 := by
  unfold checkStopLossAndTakeProfit
  split
  · exact h
  · rename_i idx hfind
    split
    · exact h
    · rename_i openTrade hot
      have hspec := findOpenBuyIdx_spec _ _ _ _ hfind hot
      cases hopen : noOpenPosition b.portfolio.positions pair with
      | true => simpa using h
      | false =>
        simp only [Bool.false_eq_true, if_false]
        split
        · exact h
        · rename_i atr _
          have hm : ∀ m : ℚ,
              P (modifyTrade b idx (fun t => { t with maxProfit := some m })) :=
            fun m => htrack b idx openTrade m hot hspec.2.1 h
          have hotm : ∀ m : ℚ,
              (modifyTrade b idx (fun t => { t with maxProfit := some m })).portfolio.trades[idx]?
                = some { openTrade with maxProfit := some m } := by
            intro m
            show (List.modify _ idx b.portfolio.trades)[idx]? = _
            rw [List.getElem?_modify_eq, hot]
            rfl
          by_cases hsl : percentChange x openTrade.entryPrice < -slPercent atr x
          · rw [if_pos hsl]; exact hclose b openTrade true hopen h
          · rw [if_neg hsl]
            by_cases hact : percentChange x openTrade.entryPrice > UltraLSTM85.trailing.activation
            · rw [if_pos hact]
              by_cases htr : percentChange x openTrade.entryPrice
                  < trailedMaxProfit openTrade (percentChange x openTrade.entryPrice)
                    - UltraLSTM85.trailing.trailingPercent
              · rw [if_pos htr]
                exact hclose _ _ false hopen (hm _)
              · rw [if_neg htr]
                dsimp only
                rw [partialLevels_foldl_eq]
                exact hfirstLevel _ idx
                  { openTrade with
                    maxProfit := some (trailedMaxProfit openTrade
                      (percentChange x openTrade.entryPrice)) }
                  (hotm _) hspec.2.1 hspec.1 hopen (hm _)
            · rw [if_neg hact]
              dsimp only
              rw [partialLevels_foldl_eq]
              exact hfirstLevel b idx openTrade hot hspec.2.1 hspec.1 hopen h

/-- Induction over the state changes of one tick after the candle has been recorded. -/
theorem ultra_onNewCandle_induct (P : Bot → Prop) (pair : Pair) (candle : Candle) (raw : Signal)
    (hclose : ∀ s t sl, noOpenPosition s.portfolio.positions pair = false → P s →
      P (closeTrade s pair t candle.close sl))
    (htrack : ∀ s idx ot m, s.portfolio.trades[idx]? = some ot → ot.action = Action.BUY →
      P s → P (modifyTrade s idx (fun t => { t with maxProfit := some m })))
    (hfirstLevel : ∀ s idx ot, s.portfolio.trades[idx]? = some ot → ot.action = Action.BUY →
      ot.pair = pair → noOpenPosition s.portfolio.positions pair = false → P s →
      P (partialLevelStep pair candle.close ot.entryPrice
        (percentChange candle.close ot.entryPrice) idx s { level := 0.5, percentage := 0.3 }))
    (hadapt : ∀ s r, P s → P (generateSignalUltraLSTM s r).1)
    (htrade : ∀ s signal, P s → P (executeTrade s pair signal candle.close))
    (b : Bot) (h : P (recordCandle b pair candle)) : P (onNewCandle b pair candle raw) := by
  have hc : P (checkStopLossAndTakeProfit (recordCandle b pair candle) pair candle.close).1 :=
    ultra_check_induct P pair candle.close hclose htrack hfirstLevel _ h
  unfold onNewCandle
  dsimp only
  split
  · exact hc
  · split
    · exact htrade _ _ (hadapt _ _ hc)
    · exact hadapt _ _ hc

/-- Induction over a run: a property kept by every state change of a tick whose close price
satisfies `G` holds after every sequence of such ticks. -/
theorem ultra_run_induct (G : ℚ → Prop) (P : Bot → Prop)
    (hrecord : ∀ s pair candle, G candle.close → P s → P (recordCandle s pair candle))
    (hclose : ∀ s pair x t sl, G x → noOpenPosition s.portfolio.positions pair = false → P s →
      P (closeTrade s pair t x sl))
    (htrack : ∀ s idx ot m, s.portfolio.trades[idx]? = some ot → ot.action = Action.BUY →
      P s → P (modifyTrade s idx (fun t => { t with maxProfit := some m })))
    (hfirstLevel : ∀ s pair x idx ot, G x → s.portfolio.trades[idx]? = some ot →
      ot.action = Action.BUY → ot.pair = pair →
      noOpenPosition s.portfolio.positions pair = false → P s →
      P (partialLevelStep pair x ot.entryPrice (percentChange x ot.entryPrice) idx s
        { level := 0.5, percentage := 0.3 }))
    (hadapt : ∀ s r, P s → P (generateSignalUltraLSTM s r).1)
    (htrade : ∀ s pair signal x, G x → P s → P (executeTrade s pair signal x))
    (ticks : List Tick) (hticks : ∀ tick ∈ ticks, G tick.candle.close) (b : Bot) (h : P b) :
    P (run b ticks) := by
  induction ticks generalizing b with
  | nil => exact h
  | cons tick rest ih =>
    have hG : G tick.candle.close := hticks tick (List.mem_cons_self _ _)
    exact ih (fun t ht => hticks t (List.mem_cons_of_mem _ ht))
      (onNewCandle b tick.pair tick.candle tick.raw)
      (ultra_onNewCandle_induct P tick.pair tick.candle tick.raw
        (fun s t sl => hclose s tick.pair tick.candle.close t sl hG)
        htrack
        (fun s idx ot => hfirstLevel s tick.pair tick.candle.close idx ot hG)
        hadapt
        (fun s signal => htrade s tick.pair signal tick.candle.close hG)
        b (hrecord b tick.pair tick.candle hG h))

end UltraTradingBot

namespace UltraTradingBot

/-! ### Fields a step leaves alone -/

theorem partialLevelStep_frame (pair : Pair) (x e pc : ℚ) (idx : Nat) (b : Bot)
    (level : UltraLSTM85.PartialLevel) :
    (partialLevelStep pair x e pc idx b level).adaptiveParams = b.adaptiveParams ∧
    (partialLevelStep pair x e pc idx b level).priceBuffer = b.priceBuffer ∧
    (partialLevelStep pair x e pc idx b level).priceFeeds = b.priceFeeds := by
  unfold partialLevelStep
  split
  · exact ⟨rfl, rfl, rfl⟩
  · rename_i openTrade _
    by_cases hc : pc ≥ level.level ∧ openTrade.closedLevels = none
    · rw [if_pos hc]
      dsimp only
      by_cases hmem : level.level ∈ openTrade.closedLevels.getD []
      · rw [if_pos hmem]; exact ⟨rfl, rfl, rfl⟩
      · rw [if_neg hmem]; exact ⟨rfl, rfl, rfl⟩
    · rw [if_neg hc]; exact ⟨rfl, rfl, rfl⟩

theorem ultra_executeTrade_frame (b : Bot) (pair : Pair) (signal : Signal) (x : ℚ) :
    (executeTrade b pair signal x).adaptiveParams = b.adaptiveParams ∧
    (executeTrade b pair signal x).priceBuffer = b.priceBuffer ∧
    (executeTrade b pair signal x).priceFeeds = b.priceFeeds := by
  rcases ultra_executeTrade_outcome b pair signal x with h | ⟨_, _, h⟩ | ⟨_, _, _, _, _, _, _, _, h⟩
  · rw [h]; exact ⟨rfl, rfl, rfl⟩
  · rw [h]; exact ⟨rfl, rfl, rfl⟩
  · rw [h]; exact ⟨rfl, rfl, rfl⟩

/-! ### The adaptive confidence threshold -/

theorem generateSignalUltraLSTM_thresholdInRange (b : Bot) (raw : Signal)
    (h : ThresholdInRange b) : ThresholdInRange (generateSignalUltraLSTM b raw).1 := by
  unfold ThresholdInRange generateSignalUltraLSTM
  dsimp only
  generalize (if b.portfolio.totalTrades > 0
    then (b.portfolio.winTrades : ℚ) / b.portfolio.totalTrades else 0.5) = w
  by_cases h1 : w < 0.6
  · rw [if_pos h1]
    refine ⟨le_min (by norm_num) ?_, min_le_left _ _⟩
    have : (0 : ℚ) ≤ (0.6 - w) * 2 := mul_nonneg (by linarith) (by norm_num)
    linarith
  · rw [if_neg h1]
    by_cases h2 : w > 0.7
    · rw [if_pos h2]
      refine ⟨le_max_left _ _, max_le (by norm_num) ?_⟩
      have : (0 : ℚ) ≤ (w - 0.7) * 1.5 := mul_nonneg (by linarith) (by norm_num)
      linarith
    · rw [if_neg h2]
      exact h

theorem generateSignalUltraLSTM_threshold_cold (b : Bot) (raw : Signal)
    (h : b.portfolio.totalTrades = 0) :
    (generateSignalUltraLSTM b raw).1.adaptiveParams.confidenceThreshold = 0.85 := by
  unfold generateSignalUltraLSTM
  dsimp only
  rw [h, if_neg (lt_irrefl 0)]
  norm_num

theorem ultra_run_thresholdInRange (ticks : List Tick) (b : Bot) (h : ThresholdInRange b) :
    ThresholdInRange (run b ticks) := by
  refine ultra_run_induct (fun _ => True) ThresholdInRange ?_ ?_ ?_ ?_ ?_ ?_ ticks
    (fun _ _ => trivial) b h
  · intro s pair candle _ hs; exact hs
  · intro s pair x t sl _ _ hs; exact hs
  · intro s idx ot m _ _ hs; exact hs
  · intro s pair x idx ot _ _ _ _ _ hs
    unfold ThresholdInRange
    rw [(partialLevelStep_frame pair x ot.entryPrice (percentChange x ot.entryPrice) idx s
      { level := 0.5, percentage := 0.3 }).1]
    exact hs
  · intro s r hs; exact generateSignalUltraLSTM_thresholdInRange s r hs
  · intro s pair signal x _ hs
    unfold ThresholdInRange
    rw [(ultra_executeTrade_frame s pair signal x).1]
    exact hs

/-- C29. The threshold starts at 0.75 and lies in `[0.65, 0.85]` in every reachable state and
after every call of `generateSignalUltraLSTM`; the call sets it to 0.85 whenever no trade has
completed (`totalTrades = 0`).  So on a fresh bot an answer of the engine with confidence below
0.85 opens no position, whatever the pair and the candle. -/
theorem confidenceThreshold_stays_in_range (initialCapital : ℚ) (tradingPairs : List Pair)
    (ticks : List Tick) (b : Bot) (pair : Pair) (candle : Candle) (raw : Signal) :
    (new initialCapital tradingPairs).adaptiveParams.confidenceThreshold = 0.75 ∧
    ThresholdInRange (run (new initialCapital tradingPairs) ticks) ∧
    ThresholdInRange (generateSignalUltraLSTM (run (new initialCapital tradingPairs) ticks) raw).1 ∧
    (ThresholdInRange b → ThresholdInRange (generateSignalUltraLSTM b raw).1) ∧
    (b.portfolio.totalTrades = 0 →
      (generateSignalUltraLSTM b raw).1.adaptiveParams.confidenceThreshold = 0.85) ∧
    (raw.confidence < 0.85 →
      (onNewCandle (new initialCapital tradingPairs) pair candle raw).portfolio
        = (new initialCapital tradingPairs).portfolio) := by
  have h0 : ThresholdInRange (new initialCapital tradingPairs) := by
    unfold ThresholdInRange new
    dsimp only
    norm_num
  have hrun := ultra_run_thresholdInRange ticks _ h0
  refine ⟨rfl, hrun, generateSignalUltraLSTM_thresholdInRange _ raw hrun,
    generateSignalUltraLSTM_thresholdInRange b raw,
    generateSignalUltraLSTM_threshold_cold b raw, fun hconf => ?_⟩
  have hcheck : checkStopLossAndTakeProfit
      (recordCandle (new initialCapital tradingPairs) pair candle) pair candle.close
      = (recordCandle (new initialCapital tradingPairs) pair candle, false) := rfl
  have hthr : (generateSignalUltraLSTM
      (recordCandle (new initialCapital tradingPairs) pair candle) raw).1.adaptiveParams.confidenceThreshold
      = 0.85 := generateSignalUltraLSTM_threshold_cold _ raw rfl
  have hsig : (generateSignalUltraLSTM
      (recordCandle (new initialCapital tradingPairs) pair candle) raw).2.confidence
      = max 0 (min 1 raw.confidence) := rfl
  have hlt : max 0 (min 1 raw.confidence) < (0.85 : ℚ) :=
    max_lt (by norm_num) (lt_of_le_of_lt (min_le_right _ _) hconf)
  unfold onNewCandle
  dsimp only
  rw [hcheck]
  dsimp only
  rw [if_neg (by decide), hthr, hsig, if_neg (fun hh => absurd hh.2 (not_le.mpr hlt))]
  rfl

/-- Witness for C29: the fresh bot with capital 10000; an answer BUY with confidence 0.8 on the
first tick opens no position. -/
theorem confidenceThreshold_stays_in_range_witness :
    (generateSignalUltraLSTM (new 10000 ["BTCUSDT"])
      { action := Action.BUY, confidence := 0.8 }).1.adaptiveParams.confidenceThreshold = 0.85 ∧
    (onNewCandle (new 10000 ["BTCUSDT"]) "BTCUSDT" (flatCandle 100)
      { action := Action.BUY, confidence := 0.8 }).portfolio
      = (new 10000 ["BTCUSDT"]).portfolio ∧
    (run (new 10000 ["BTCUSDT"]) [buyTickWith 0.8]).portfolio.trades = [] ∧
    (run (new 10000 ["BTCUSDT"]) [buyTickWith 0.85]).portfolio.trades.length = 1 :=
  have h := confidenceThreshold_stays_in_range 10000 ["BTCUSDT"] [] (new 10000 ["BTCUSDT"])
    "BTCUSDT" (flatCandle 100) { action := Action.BUY, confidence := 0.8 }
  ⟨h.2.2.2.2.1 rfl, h.2.2.2.2.2 (by norm_num), by decide!, by decide!⟩

end UltraTradingBot

/-! ## Position quantities are never negative -/

theorem positionsNonneg_jsSet {m : List (Pair × ℚ)} (h : PositionsNonneg m) (k : Pair) (v : ℚ)
    (hv : 0 ≤ v) : PositionsNonneg (jsSet m k v) := by
  intro pair q hq
  by_cases hk : pair = k
  · subst hk
    rw [jsGet_jsSet_self] at hq
    cases hq
    exact hv
  · rw [jsGet_jsSet_ne _ _ _ _ hk] at hq
    exact h pair q hq

theorem positionsNonneg_getD {m : List (Pair × ℚ)} (h : PositionsNonneg m) (k : Pair) :
    0 ≤ (jsGet m k).getD 0 := by
  cases hq : jsGet m k with
  | none => exact le_refl _
  | some q => exact h k q hq

theorem positionsNonneg_init (pairs : List Pair) (m : List (Pair × ℚ))
    (h : PositionsNonneg m) :
    PositionsNonneg (pairs.foldl (fun m pair => jsSet m pair 0) m) := by
  induction pairs generalizing m with
  | nil => exact h
  | cons p rest ih => exact ih _ (positionsNonneg_jsSet h p 0 (le_refl _))

namespace UltraTradingBot

theorem ultra_run_positionsNonneg (ticks : List Tick)
    (hticks : ∀ tick ∈ ticks, 0 < tick.candle.close) (b : Bot)
    (h : PositionsNonneg b.portfolio.positions) :
    PositionsNonneg (run b ticks).portfolio.positions := by
  refine ultra_run_induct (fun x => 0 < x) (fun s => PositionsNonneg s.portfolio.positions)
    ?_ ?_ ?_ ?_ ?_ ?_ ticks hticks b h
  · intro s pair candle _ hs; exact hs
  · intro s pair x t sl _ _ hs
    exact positionsNonneg_jsSet hs pair 0 (le_refl _)
  · intro s idx ot m _ _ hs; exact hs
  · intro s pair x idx ot _ hot _ _ _ hs
    rcases partialLevelStep_outcome pair x ot.entryPrice (percentChange x ot.entryPrice) idx s
      { level := 0.5, percentage := 0.3 } ot hot with heq | ⟨_, _, heq⟩
    · show PositionsNonneg (partialLevelStep pair x ot.entryPrice
        (percentChange x ot.entryPrice) idx s { level := 0.5, percentage := 0.3 }).portfolio.positions
      rw [heq]; exact hs
    · show PositionsNonneg (partialLevelStep pair x ot.entryPrice
        (percentChange x ot.entryPrice) idx s { level := 0.5, percentage := 0.3 }).portfolio.positions
      rw [heq]
      apply positionsNonneg_jsSet hs
      have hheld := positionsNonneg_getD hs pair
      have e : (jsGet s.portfolio.positions pair).getD 0
          - (jsGet s.portfolio.positions pair).getD 0 * 0.3
          = (jsGet s.portfolio.positions pair).getD 0 * 0.7 := by ring
      show 0 ≤ (jsGet s.portfolio.positions pair).getD 0
          - (jsGet s.portfolio.positions pair).getD 0 * 0.3
      rw [e]
      exact mul_nonneg hheld (by norm_num)
  · intro s r hs; exact hs
  · intro s pair signal x hx hs
    rcases ultra_executeTrade_outcome s pair signal x with heq | ⟨_, _, heq⟩ |
      ⟨_, _, _, _, _, _, _, _, heq⟩
    · show PositionsNonneg (executeTrade s pair signal x).portfolio.positions
      rw [heq]; exact hs
    · show PositionsNonneg (executeTrade s pair signal x).portfolio.positions
      rw [heq]
      exact positionsNonneg_jsSet hs pair _
        (add_nonneg (positionsNonneg_getD hs pair) (calculatePositionSizeKelly_nonneg s pair x hx))
    · show PositionsNonneg (executeTrade s pair signal x).portfolio.positions
      rw [heq]
      exact positionsNonneg_jsSet hs pair 0 (le_refl _)

end UltraTradingBot

/-- C28. In both bots every quantity in `positions` is at least 0 in every state reached from
the initial portfolio: for the paper bot after every sequence of ticks, for the ultra bot after
every sequence of ticks with positive close prices and every answer of the signal engine. -/
theorem positions_nonneg_in_every_reachable_state (initialCapital : ℚ)
    (tradingPairs : List Pair) (paperTicks : List (Pair × Candle))
    (ultraTicks : List UltraTradingBot.Tick)
    (hultra : ∀ tick ∈ ultraTicks, 0 < tick.candle.close) :
    PositionsNonneg
      (PaperTradingBot.run (PaperTradingBot.new initialCapital) paperTicks).portfolio.positions ∧
    PositionsNonneg
      (UltraTradingBot.run (UltraTradingBot.new initialCapital tradingPairs)
        ultraTicks).portfolio.positions := by
  constructor
  · intro pair q hq
    have hl := (PaperTradingBot.LedgerConsistent.run paperTicks
      (PaperTradingBot.LedgerConsistent.new initialCapital)).position_nonneg pair
    rw [hq] at hl
    exact hl
  · apply UltraTradingBot.ultra_run_positionsNonneg ultraTicks hultra
    exact positionsNonneg_init tradingPairs [] (fun pair q hq => by cases hq)

/-- Witness for C28: the paper bot after a BUY and a take-profit SELL, the ultra bot after a
BUY, a partial close at 110 and the stop-loss at 99. -/
theorem positions_nonneg_in_every_reachable_state_witness :
    PositionsNonneg
      (PaperTradingBot.run (PaperTradingBot.new 10000)
        (PaperTradingBot.fallingThenBuy
          ++ [("BTCUSDT", PaperTradingBot.candle 99 104)])).portfolio.positions ∧
    PositionsNonneg
      (UltraTradingBot.run (UltraTradingBot.new 10000 ["BTCUSDT"])
        [UltraTradingBot.buyTick, UltraTradingBot.holdTick 110,
         UltraTradingBot.holdTick 99]).portfolio.positions :=
  positions_nonneg_in_every_reachable_state 10000 ["BTCUSDT"]
    (PaperTradingBot.fallingThenBuy ++ [("BTCUSDT", PaperTradingBot.candle 99 104)])
    [UltraTradingBot.buyTick, UltraTradingBot.holdTick 110, UltraTradingBot.holdTick 99]
    (by decide!)

namespace UltraTradingBot

/-! ### Only the first partial level fires -/

theorem mem_modify_cases {α : Type} (f : α → α) (l : List α) (i : Nat) (a : α)
    (h : a ∈ l.modify f i) : a ∈ l ∨ ∃ a0 ∈ l, a = f a0 := by
  induction l generalizing i with
  | nil => simp at h
  | cons hd tl ih =>
    cases i with
    | zero =>
      rw [List.modify_zero_cons, List.mem_cons] at h
      rcases h with h | h
      · exact Or.inr ⟨hd, List.mem_cons_self _ _, h⟩
      · exact Or.inl (List.mem_cons_of_mem _ h)
    | succ n =>
      rw [List.modify_succ_cons, List.mem_cons] at h
      rcases h with h | h
      · exact Or.inl (h ▸ List.mem_cons_self _ _)
      · rcases ih n h with h1 | ⟨a0, ha0, h1⟩
        · exact Or.inl (List.mem_cons_of_mem _ h1)
        · exact Or.inr ⟨a0, List.mem_cons_of_mem _ ha0, h1⟩

theorem ultra_run_firstLevelOnly (ticks : List Tick) (b : Bot)
    (h : ∀ t ∈ b.portfolio.trades, FirstLevelOnly t) :
    ∀ t ∈ (run b ticks).portfolio.trades, FirstLevelOnly t := by
  refine ultra_run_induct (fun _ => True)
    (fun s => ∀ t ∈ s.portfolio.trades, FirstLevelOnly t)
    ?_ ?_ ?_ ?_ ?_ ?_ ticks (fun _ _ => trivial) b h
  · intro s pair candle _ hs; exact hs
  · intro s pair x t sl _ _ hs t1 ht1
    have ht1' : t1 ∈ s.portfolio.trades ++ [_] := ht1
    rw [List.mem_append, List.mem_singleton] at ht1'
    rcases ht1' with h1 | h1
    · exact hs t1 h1
    · rw [h1]
      exact And.intro (fun hp => by cases hp) (Or.inl rfl)
  · intro s idx ot m _ _ hs t1 ht1
    rcases mem_modify_cases _ _ _ _ ht1 with h1 | ⟨a0, ha0, h1⟩
    · exact hs t1 h1
    · rw [h1]
      exact hs a0 ha0
  · intro s pair x idx ot _ hot _ _ _ hs
    rcases partialLevelStep_outcome pair x ot.entryPrice (percentChange x ot.entryPrice) idx s
      { level := 0.5, percentage := 0.3 } ot hot with heq | ⟨_, _, heq⟩
    · rw [heq]; exact hs
    · rw [heq]
      intro t1 ht1
      have ht1' : t1 ∈ s.portfolio.trades.modify
          (fun t => { t with closedLevels := some [(0.5 : ℚ)] }) idx ++ [_] := ht1
      rw [List.mem_append, List.mem_singleton] at ht1'
      rcases ht1' with h1 | h1
      · rcases mem_modify_cases _ _ _ _ h1 with h2 | ⟨a0, _, h2⟩
        · exact hs t1 h2
        · rw [h2]
          exact And.intro (fun _ => rfl) (Or.inr rfl)
      · rw [h1]
        exact And.intro (fun _ => rfl) (Or.inr rfl)
  · intro s r hs; exact hs
  · intro s pair signal x _ hs
    rcases ultra_executeTrade_outcome s pair signal x with heq | ⟨_, _, heq⟩ |
      ⟨_, _, profit, t, _, _, hpart, hcl, heq⟩
    · rw [heq]; exact hs
    · rw [heq]
      intro t1 ht1
      have ht1' : t1 ∈ s.portfolio.trades ++ [_] := ht1
      rw [List.mem_append, List.mem_singleton] at ht1'
      rcases ht1' with h1 | h1
      · exact hs t1 h1
      · rw [h1]
        exact And.intro (fun hp => by cases hp) (Or.inl rfl)
    · rw [heq]
      intro t1 ht1
      have ht1' : t1 ∈ s.portfolio.trades ++ [t] := ht1
      rw [List.mem_append, List.mem_singleton] at ht1'
      rcases ht1' with h1 | h1
      · exact hs t1 h1
      · rw [h1]
        exact And.intro (fun hp => by rw [hpart] at hp; cases hp) (Or.inl hcl)

theorem partialFires_eq_zero_of_firstLevelOnly (trades : List Trade) (pair : Pair) (level : ℚ)
    (hlevel : level ≠ 0.5) (h : ∀ t ∈ trades, FirstLevelOnly t) :
    partialFires trades pair level = 0 := by
  unfold partialFires partialSells
  rw [List.countP_eq_zero]
  intro t ht hp
  simp only [Bool.and_eq_true, decide_eq_true_eq] at hp
  have h1 := (h t ht).1 hp.1.2
  rw [h1] at hp
  have h2 := hp.2
  simp only [Option.some.injEq, List.cons.injEq, and_true] at h2
  exact hlevel h2.symm

/-- C27. The loop over the ladder of partial levels is its first iteration, at level 0.5 with
percentage 0.3: it changes nothing when `closedLevels` of the entry record is already set, and
when it fires it leaves 70% of the position.  In every run every partial SELL record carries the
level 0.5, the levels 1.0 and 2.0 never fire, and the partial SELL records of a pair are as many
as the BUY records of the pair whose `closedLevels` is set, so at most one per BUY record. -/
theorem only_the_first_partial_level_ever_fires (initialCapital : ℚ)
    (tradingPairs : List Pair) (ticks : List Tick) (pair : Pair) (b : Bot) (x e pc : ℚ)
    (idx : Nat) :
    UltraLSTM85.takeProfit.partialLevels.foldl (partialLevelStep pair x e pc idx) b
      = partialLevelStep pair x e pc idx b { level := 0.5, percentage := 0.3 } ∧
    (∀ ot, b.portfolio.trades[idx]? = some ot → ot.closedLevels ≠ none →
      UltraLSTM85.takeProfit.partialLevels.foldl (partialLevelStep pair x e pc idx) b = b) ∧
    (∀ ot, b.portfolio.trades[idx]? = some ot → ot.closedLevels = none → pc ≥ 0.5 →
      jsGet (UltraLSTM85.takeProfit.partialLevels.foldl (partialLevelStep pair x e pc idx)
        b).portfolio.positions pair
        = some ((jsGet b.portfolio.positions pair).getD 0
            - (jsGet b.portfolio.positions pair).getD 0 * 0.3)) ∧
    (∀ t ∈ (run (new initialCapital tradingPairs) ticks).portfolio.trades,
      t.isPartial = true → t.closedLevels = some [0.5]) ∧
    partialFires (run (new initialCapital tradingPairs) ticks).portfolio.trades pair 1.0 = 0 ∧
    partialFires (run (new initialCapital tradingPairs) ticks).portfolio.trades pair 2.0 = 0 ∧
    partialCloses (run (new initialCapital tradingPairs) ticks).portfolio.trades pair
      = closedEntries (run (new initialCapital tradingPairs) ticks).portfolio.trades pair ∧
    partialCloses (run (new initialCapital tradingPairs) ticks).portfolio.trades pair
      ≤ entryCount (run (new initialCapital tradingPairs) ticks).portfolio.trades pair := by
  have hloop := partialLevels_foldl_eq pair x e pc idx b
  have hfirst : ∀ t ∈ (run (new initialCapital tradingPairs) ticks).portfolio.trades,
      FirstLevelOnly t :=
    ultra_run_firstLevelOnly ticks _ (fun t ht => by cases ht)
  have hall : PartialsMatch (fun _ => true) Option.isSome
      (run (new initialCapital tradingPairs) ticks).portfolio.trades :=
    @ultra_run_partialsMatch (fun _ => true) Option.isSome rfl (fun _ => rfl) ticks _
      (fun _ => rfl)
  have e2 : partialCloses (run (new initialCapital tradingPairs) ticks).portfolio.trades pair
      = closedEntries (run (new initialCapital tradingPairs) ticks).portfolio.trades pair :=
    hall pair
  refine ⟨hloop, fun ot hot hcl => ?_, fun ot hot hcl hpc => ?_, fun t ht => (hfirst t ht).1,
    partialFires_eq_zero_of_firstLevelOnly _ _ _ (by norm_num) hfirst,
    partialFires_eq_zero_of_firstLevelOnly _ _ _ (by norm_num) hfirst, e2, ?_⟩
  · rw [hloop]
    apply partialLevelStep_eq_self
    intro ot2 h2 hguard
    rw [hot] at h2
    cases h2
    exact hcl hguard.2
  · rw [hloop, partialLevelStep_fire pair x e pc idx b _ ot hot hpc hcl]
    exact jsGet_jsSet_self _ _ _
  · rw [e2]; exact entriesWith_le_entryCount _ _ _

/-- Witness for C27: 10 units entered at 100; the tick at 110 (10% above the entry, beyond all
three levels) sells 3 units and leaves 7; a second tick at 110 changes nothing. -/
theorem only_the_first_partial_level_ever_fires_witness :
    jsGet (UltraLSTM85.takeProfit.partialLevels.foldl
      (partialLevelStep "BTCUSDT" 110 100 10 0) afterBuy).portfolio.positions "BTCUSDT"
      = some ((jsGet afterBuy.portfolio.positions "BTCUSDT").getD 0
          - (jsGet afterBuy.portfolio.positions "BTCUSDT").getD 0 * 0.3) ∧
    UltraLSTM85.takeProfit.partialLevels.foldl (partialLevelStep "BTCUSDT" 110 100 10 0)
        (run afterBuy [holdTick 110])
      = run afterBuy [holdTick 110] :=
  ⟨(only_the_first_partial_level_ever_fires 10000 ["BTCUSDT"] [] "BTCUSDT" afterBuy 110 100 10
      0).2.2.1
      { pair := "BTCUSDT", action := Action.BUY, entryPrice := 100, quantity := 10,
        confidence := some 0.9, commission := some 1, cost := some 1000 }
      (by decide!) rfl (by norm_num),
   (only_the_first_partial_level_ever_fires 10000 ["BTCUSDT"] [] "BTCUSDT"
      (run afterBuy [holdTick 110]) 110 100 10 0).2.1
      { pair := "BTCUSDT", action := Action.BUY, entryPrice := 100, quantity := 10,
        confidence := some 0.9, commission := some 1, cost := some 1000,
        maxProfit := some 10, closedLevels := some [0.5] }
      (by decide!) (by simp)⟩

end UltraTradingBot

/-! ## The candle buffers -/

theorem lastCandles_length (cap : Nat) (l : List Candle) :
    (lastCandles cap l).length = min l.length cap := by
  unfold lastCandles
  rw [List.length_drop]
  omega

theorem lastCandles_of_length_le (cap : Nat) (l : List Candle) (h : l.length ≤ cap) :
    lastCandles cap l = l := by
  unfold lastCandles
  rw [Nat.sub_eq_zero_of_le h, List.drop_zero]

theorem lastCandles_append (cap : Nat) (l r : List Candle) :
    lastCandles cap (lastCandles cap l ++ r) = lastCandles cap (l ++ r) := by
  unfold lastCandles
  have h1 : List.drop (l.length - cap) l ++ r = List.drop (l.length - cap) (l ++ r) := by
    rw [List.drop_append_of_le_length (Nat.sub_le _ _)]
  rw [h1, List.drop_drop, List.length_drop, List.length_append]
  congr 1
  omega

theorem pushCandle_eq_lastCandles (cap : Nat) (l : List Candle) (c : Candle)
    (h : l.length ≤ cap) :
    (if (l ++ [c]).length > cap then (l ++ [c]).tail else l ++ [c])
      = lastCandles cap (l ++ [c]) := by
  unfold lastCandles
  rw [List.length_append, List.length_singleton]
  by_cases hgt : l.length + 1 > cap
  · rw [if_pos hgt]
    have e : l.length + 1 - cap = 1 := by omega
    rw [e, List.drop_one]
  · rw [if_neg hgt]
    have e : l.length + 1 - cap = 0 := by omega
    rw [e, List.drop_zero]

/-- The buffer of `pair` after `pushCandle`, when it held at most `cap` candles before. -/
theorem pushCandle_self (cap : Nat) (buffers : List (Pair × List Candle)) (pair : Pair)
    (c : Candle) (h : ((jsGet buffers pair).getD []).length ≤ cap) :
    (jsGet (pushCandle cap buffers pair c) pair).getD []
      = lastCandles cap ((jsGet buffers pair).getD [] ++ [c]) := by
  unfold pushCandle
  dsimp only
  rw [jsGet_jsSet_self, Option.getD_some]
  exact pushCandle_eq_lastCandles cap _ c h

theorem pushCandle_ne (cap : Nat) (buffers : List (Pair × List Candle)) (pair other : Pair)
    (c : Candle) (h : other ≠ pair) :
    jsGet (pushCandle cap buffers pair c) other = jsGet buffers other := by
  unfold pushCandle
  dsimp only
  rw [jsGet_jsSet_ne _ _ _ _ h]

namespace PaperTradingBot

theorem paper_executeTrade_candleHistory (b : Bot) (pair : Pair) (signal : Signal) (x : ℚ) :
    (executeTrade b pair signal x).candleHistory = b.candleHistory := by
  unfold executeTrade
  dsimp only
  repeat' split
  all_goals rfl

theorem paper_onNewCandle_candleHistory (b : Bot) (pair : Pair) (candle : Candle) :
    (onNewCandle b pair candle).candleHistory
      = pushCandle 100 b.candleHistory pair candle := by
  have hcheck : (checkStopLossAndTakeProfit (recordCandle b pair candle) pair
      candle.close).1.candleHistory = (recordCandle b pair candle).candleHistory := by
    unfold checkStopLossAndTakeProfit
    dsimp only
    repeat' split
    all_goals first | rfl | exact paper_executeTrade_candleHistory _ _ _ _
  unfold onNewCandle
  dsimp only
  split
  · rw [paper_executeTrade_candleHistory, hcheck]
    rfl
  · rw [hcheck]
    rfl

theorem paper_run_candleHistory (ticks : List (Pair × Candle)) (pair : Pair) (b : Bot)
    (h : ((jsGet b.candleHistory pair).getD []).length ≤ 100) :
    (jsGet (run b ticks).candleHistory pair).getD []
      = lastCandles 100 ((jsGet b.candleHistory pair).getD [] ++ candlesOf ticks pair) := by
  induction ticks generalizing b with
  | nil =>
    show (jsGet b.candleHistory pair).getD [] = _
    rw [show candlesOf [] pair = [] from rfl, List.append_nil, lastCandles_of_length_le _ _ h]
  | cons tick rest ih =>
    show (jsGet (run (onNewCandle b tick.1 tick.2) rest).candleHistory pair).getD [] = _
    by_cases hp : tick.1 = pair
    · have hstep : (jsGet (onNewCandle b tick.1 tick.2).candleHistory pair).getD []
          = lastCandles 100 ((jsGet b.candleHistory pair).getD [] ++ [tick.2]) := by
        rw [paper_onNewCandle_candleHistory, hp]
        exact pushCandle_self 100 _ pair _ h
      have hlen : ((jsGet (onNewCandle b tick.1 tick.2).candleHistory pair).getD []).length
          ≤ 100 := by
        rw [hstep, lastCandles_length]
        exact min_le_right _ _
      rw [ih _ hlen, hstep, lastCandles_append]
      have hc : candlesOf (tick :: rest) pair = tick.2 :: candlesOf rest pair := by
        simp [candlesOf, hp]
      rw [hc, List.append_assoc]
      rfl
    · have hstep : jsGet (onNewCandle b tick.1 tick.2).candleHistory pair
          = jsGet b.candleHistory pair := by
        rw [paper_onNewCandle_candleHistory]
        exact pushCandle_ne 100 _ _ _ _ (fun hh => hp hh.symm)
      have hc : candlesOf (tick :: rest) pair = candlesOf rest pair := by
        simp [candlesOf, hp]
      have hlen : ((jsGet (onNewCandle b tick.1 tick.2).candleHistory pair).getD []).length
          ≤ 100 := by
        rw [hstep]; exact h
      rw [ih _ hlen, hstep, hc]

end PaperTradingBot

namespace UltraTradingBot

theorem ultra_onNewCandle_priceBuffer (b : Bot) (pair : Pair) (candle : Candle) (raw : Signal) :
    (onNewCandle b pair candle raw).priceBuffer = pushCandle 300 b.priceBuffer pair candle := by
  refine ultra_onNewCandle_induct
    (fun s => s.priceBuffer = pushCandle 300 b.priceBuffer pair candle) pair candle raw
    ?_ ?_ ?_ ?_ ?_ b rfl
  · intro s t sl _ hs; exact hs
  · intro s idx ot m _ _ hs; exact hs
  · intro s idx ot _ _ _ _ hs
    exact (partialLevelStep_frame pair candle.close ot.entryPrice
      (percentChange candle.close ot.entryPrice) idx s
      { level := 0.5, percentage := 0.3 }).2.1.trans hs
  · intro s r hs; exact hs
  · intro s signal hs
    exact (ultra_executeTrade_frame s pair signal candle.close).2.1.trans hs

theorem ultra_run_priceBuffer (ticks : List Tick) (pair : Pair) (b : Bot)
    (h : ((jsGet b.priceBuffer pair).getD []).length ≤ 300) :
    (jsGet (run b ticks).priceBuffer pair).getD []
      = lastCandles 300 ((jsGet b.priceBuffer pair).getD [] ++ candlesOf ticks pair) := by
  induction ticks generalizing b with
  | nil =>
    show (jsGet b.priceBuffer pair).getD [] = _
    rw [show candlesOf [] pair = [] from rfl, List.append_nil, lastCandles_of_length_le _ _ h]
  | cons tick rest ih =>
    show (jsGet (run (onNewCandle b tick.pair tick.candle tick.raw) rest).priceBuffer
      pair).getD [] = _
    by_cases hp : tick.pair = pair
    · have hstep : (jsGet (onNewCandle b tick.pair tick.candle tick.raw).priceBuffer
          pair).getD []
          = lastCandles 300 ((jsGet b.priceBuffer pair).getD [] ++ [tick.candle]) := by
        rw [ultra_onNewCandle_priceBuffer, hp]
        exact pushCandle_self 300 _ pair _ h
      have hlen : ((jsGet (onNewCandle b tick.pair tick.candle tick.raw).priceBuffer
          pair).getD []).length ≤ 300 := by
        rw [hstep, lastCandles_length]
        exact min_le_right _ _
      rw [ih _ hlen, hstep, lastCandles_append]
      have hc : candlesOf (tick :: rest) pair = tick.candle :: candlesOf rest pair := by
        simp [candlesOf, hp]
      rw [hc, List.append_assoc]
      rfl
    · have hstep : jsGet (onNewCandle b tick.pair tick.candle tick.raw).priceBuffer pair
          = jsGet b.priceBuffer pair := by
        rw [ultra_onNewCandle_priceBuffer]
        exact pushCandle_ne 300 _ _ _ _ (fun hh => hp hh.symm)
      have hc : candlesOf (tick :: rest) pair = candlesOf rest pair := by
        simp [candlesOf, hp]
      have hlen : ((jsGet (onNewCandle b tick.pair tick.candle tick.raw).priceBuffer
          pair).getD []).length ≤ 300 := by
        rw [hstep]; exact h
      rw [ih _ hlen, hstep, hc]

theorem new_priceBuffer_empty (pairs : List Pair) (m : List (Pair × List Candle)) (pair : Pair)
    (h : (jsGet m pair).getD [] = []) :
    (jsGet (pairs.foldl (fun m p => jsSet m p []) m) pair).getD [] = [] := by
  induction pairs generalizing m with
  | nil => exact h
  | cons p rest ih =>
    apply ih
    by_cases hp : pair = p
    · rw [hp, jsGet_jsSet_self]; rfl
    · rw [jsGet_jsSet_ne _ _ _ _ hp]; exact h

end UltraTradingBot

/-- C22. After any sequence of ticks, the history buffer of a pair holds exactly the last
`min(n, C)` of the `n` candles received for the pair, in arrival order with the newest last,
where `C = 100` for `PaperTradingBot.candleHistory` and `C = 300` for
`UltraTradingBot.priceBuffer`; its length is `min(n, C)`, never more than `C`. -/
theorem history_buffer_holds_the_last_candles (initialCapital : ℚ) (tradingPairs : List Pair)
    (paperTicks : List (Pair × Candle)) (ultraTicks : List UltraTradingBot.Tick) (pair : Pair) :
    (jsGet (PaperTradingBot.run (PaperTradingBot.new initialCapital)
        paperTicks).candleHistory pair).getD []
      = lastCandles 100 (PaperTradingBot.candlesOf paperTicks pair) ∧
    ((jsGet (PaperTradingBot.run (PaperTradingBot.new initialCapital)
        paperTicks).candleHistory pair).getD []).length
      = min (PaperTradingBot.candlesOf paperTicks pair).length 100 ∧
    (jsGet (UltraTradingBot.run (UltraTradingBot.new initialCapital tradingPairs)
        ultraTicks).priceBuffer pair).getD []
      = lastCandles 300 (UltraTradingBot.candlesOf ultraTicks pair) ∧
    ((jsGet (UltraTradingBot.run (UltraTradingBot.new initialCapital tradingPairs)
        ultraTicks).priceBuffer pair).getD []).length
      = min (UltraTradingBot.candlesOf ultraTicks pair).length 300 ∧
    (∀ cap candles, (lastCandles cap candles).length ≤ cap ∧
      ∃ older, candles = older ++ lastCandles cap candles) := by
  have hp := PaperTradingBot.paper_run_candleHistory paperTicks pair
    (PaperTradingBot.new initialCapital) (Nat.zero_le _)
  have hp0 : (jsGet (PaperTradingBot.new initialCapital).candleHistory pair).getD [] = [] := rfl
  rw [hp0, List.nil_append] at hp
  have hu0 : (jsGet (UltraTradingBot.new initialCapital tradingPairs).priceBuffer pair).getD []
      = [] := UltraTradingBot.new_priceBuffer_empty tradingPairs [] pair rfl
  have hu := UltraTradingBot.ultra_run_priceBuffer ultraTicks pair
    (UltraTradingBot.new initialCapital tradingPairs) (by rw [hu0]; exact Nat.zero_le _)
  rw [hu0, List.nil_append] at hu
  refine ⟨hp, ?_, hu, ?_, fun cap candles => ⟨?_, ?_⟩⟩
  · rw [hp, lastCandles_length]
  · rw [hu, lastCandles_length]
  · rw [lastCandles_length]
    exact min_le_right _ _
  · exact ⟨candles.take (candles.length - cap), (List.take_append_drop _ _).symm⟩

/-! ## Trade statistics and the trade log -/

theorem filter_modify_of_neg {α : Type} (p : α → Bool) (f : α → α) (l : List α) (i : Nat)
    (a : α) (h : l[i]? = some a) (h1 : p a = false) (h2 : p (f a) = false) :
    (l.modify f i).filter p = l.filter p := by
  induction l generalizing i with
  | nil => simp at h
  | cons hd tl ih =>
    cases i with
    | zero =>
      simp only [List.getElem?_cons_zero, Option.some.injEq] at h
      subst h
      rw [List.modify_zero_cons, List.filter_cons, List.filter_cons, h1, h2]
      rfl
    | succ n =>
      simp only [List.getElem?_cons_succ] at h
      rw [List.modify_succ_cons, List.filter_cons, List.filter_cons, ih n h]

theorem countP_add_countP_not {α : Type} (p : α → Bool) (l : List α) :
    l.countP p + l.countP (fun a => !p a) = l.length := by
  induction l with
  | nil => rfl
  | cons hd tl ih =>
    rw [List.countP_cons, List.countP_cons, List.length_cons]
    cases hp : p hd <;> simp <;> omega

namespace PaperTradingBot

theorem paper_exits_append_exit (l : List Trade) (t : Trade) (h : t.action = Action.SELL) :
    exits (l ++ [t]) = exits l ++ [t] := by
  unfold exits
  rw [List.filter_append]
  congr 1
  simp [h]

theorem paper_exits_append_entry (l : List Trade) (t : Trade) (h : t.action = Action.BUY) :
    exits (l ++ [t]) = exits l := by
  unfold exits
  rw [List.filter_append]
  simp [h]

/-- The statistics stay matched when nothing but BUY records is logged and no counter moves. -/
theorem paper_stats_keep {p p' : Portfolio} (h : StatsMatchLog p)
    (h1 : exits p'.trades = exits p.trades) (h2 : p'.totalTrades = p.totalTrades)
    (h3 : p'.winTrades = p.winTrades) (h4 : p'.lossTrades = p.lossTrades)
    (h5 : p'.totalProfit = p.totalProfit) : StatsMatchLog p' := by
  unfold StatsMatchLog
  rw [h1, h2, h3, h4, h5]
  exact h

/-- The statistics stay matched when one exit record with profit `profit` is logged and the
counters are moved as for a full close. -/
theorem paper_stats_exit {p p' : Portfolio} (h : StatsMatchLog p) (t : Trade) (profit : ℚ)
    (hp : t.profit = some profit)
    (h1 : exits p'.trades = exits p.trades ++ [t])
    (h2 : p'.totalTrades = p.totalTrades + 1)
    (h3 : p'.winTrades = if profit > 0 then p.winTrades + 1 else p.winTrades)
    (h4 : p'.lossTrades = if profit > 0 then p.lossTrades else p.lossTrades + 1)
    (h5 : p'.totalProfit = p.totalProfit + profit) : StatsMatchLog p' := by
  unfold StatsMatchLog at h ⊢
  rw [h1, h2, h3, h4, h5, List.length_append, List.countP_append, List.countP_append,
    List.map_append, List.sum_append, ← h.1, ← h.2.1, ← h.2.2.1, ← h.2.2.2]
  simp only [List.length_singleton, List.countP_cons, List.countP_nil, List.map_cons,
    List.map_nil, List.sum_cons, List.sum_nil, hp, Option.getD_some, add_zero, zero_add]
  by_cases hpos : profit > 0
  · have hpos' : 0 < profit := hpos
    simp [hpos, hpos']
  · have hpos' : ¬ 0 < profit := hpos
    simp [hpos, hpos']

theorem paper_stats_sum {p : Portfolio} (h : StatsMatchLog p) :
    p.winTrades + p.lossTrades = p.totalTrades := by
  rw [h.1, h.2.1, h.2.2.1]
  exact countP_add_countP_not _ _

end PaperTradingBot
namespace PaperTradingBot

theorem paper_executeTrade_stats {b : Bot} (hb : LedgerConsistent b)
    (h : StatsMatchLog b.portfolio) (pair : Pair) (signal : Signal) (x : ℚ) :
    StatsMatchLog (executeTrade b pair signal x).portfolio := by
  rcases executeTrade_cases b pair signal x with h0 | h0 | h0
  · rw [h0]; exact h
  · obtain ⟨hpair, hx, hbuy, hconf, hq0, hcash⟩ := h0
    rw [executeTrade_buy_eq b pair signal x hpair hx hbuy hconf hq0 hcash]
    exact paper_stats_keep h (paper_exits_append_entry _ _ rfl) rfl rfl rfl rfl
  · obtain ⟨hpair, hx, hsell, hq0, hopen⟩ := h0
    obtain ⟨buyTrade, hfind⟩ := hb.findOpenBuy_isSome hopen
    rw [executeTrade_sell_eq b pair signal x buyTrade hpair hx hsell hq0 hopen hfind]
    exact paper_stats_exit h _ (sellProfit b pair signal x buyTrade) rfl
      (paper_exits_append_exit _ _ rfl) rfl rfl rfl rfl

theorem paper_check_stats {b : Bot} (hb : LedgerConsistent b)
    (h : StatsMatchLog b.portfolio) (pair : Pair) (x : ℚ) :
    StatsMatchLog (checkStopLossAndTakeProfit b pair x).1.portfolio := by
  unfold PaperTradingBot.checkStopLossAndTakeProfit
  split
  · exact h
  · split_ifs
    · exact h
    · dsimp only
      split_ifs
      · exact paper_executeTrade_stats hb h _ _ _
      · exact paper_executeTrade_stats hb h _ _ _
      · exact h

theorem paper_onNewCandle_stats {b : Bot} (hb : LedgerConsistent b)
    (h : StatsMatchLog b.portfolio) (pair : Pair) (candle : Candle) :
    StatsMatchLog (onNewCandle b pair candle).portfolio := by
  unfold PaperTradingBot.onNewCandle
  dsimp only
  have hb1 : LedgerConsistent (recordCandle b pair candle) :=
    ⟨hb.position_eq, hb.position_nonneg, hb.buy_open, hb.quantity_nonneg⟩
  have h1 : StatsMatchLog (recordCandle b pair candle).portfolio := h
  have hc := hb1.checkStopLossAndTakeProfit pair candle.close
  have hs := paper_check_stats hb1 h1 pair candle.close
  split_ifs
  · exact paper_executeTrade_stats hc hs _ _ _
  · exact hs

theorem paper_run_stats (ticks : List (Pair × Candle)) {b : Bot} (hb : LedgerConsistent b)
    (h : StatsMatchLog b.portfolio) : StatsMatchLog (run b ticks).portfolio := by
  induction ticks generalizing b with
  | nil => exact h
  | cons tick rest ih =>
    exact ih (hb.onNewCandle tick.1 tick.2) (paper_onNewCandle_stats hb h tick.1 tick.2)

end PaperTradingBot

namespace UltraTradingBot

theorem ultra_exits_append_exit (l : List Trade) (t : Trade) (h : t.action = Action.SELL) :
    exits (l ++ [t]) = exits l ++ [t] := by
  unfold exits
  rw [List.filter_append]
  congr 1
  simp [h]

theorem ultra_exits_append_entry (l : List Trade) (t : Trade) (h : t.action = Action.BUY) :
    exits (l ++ [t]) = exits l := by
  unfold exits
  rw [List.filter_append]
  simp [h]

theorem ultra_exits_modify (l : List Trade) (f : Trade → Trade) (idx : Nat) (ot : Trade)
    (hot : l[idx]? = some ot) (hbuy : ot.action = Action.BUY)
    (hf : (f ot).action = Action.BUY) : exits (l.modify f idx) = exits l := by
  unfold exits
  exact filter_modify_of_neg _ f l idx ot hot (by simp [hbuy]) (by simp [hf])

theorem ultra_stats_keep {p p' : Portfolio} (h : StatsMatchLog p)
    (h1 : exits p'.trades = exits p.trades) (h2 : p'.totalTrades = p.totalTrades)
    (h3 : p'.winTrades = p.winTrades) (h4 : p'.lossTrades = p.lossTrades)
    (h5 : p'.totalProfit = p.totalProfit) : StatsMatchLog p' := by
  unfold StatsMatchLog
  rw [h1, h2, h3, h4, h5]
  exact h

theorem ultra_stats_exit {p p' : Portfolio} (h : StatsMatchLog p) (t : Trade) (profit : ℚ)
    (hp : t.profit = some profit)
    (h1 : exits p'.trades = exits p.trades ++ [t])
    (h2 : p'.totalTrades = p.totalTrades + 1)
    (h3 : p'.winTrades = if profit > 0 then p.winTrades + 1 else p.winTrades)
    (h4 : p'.lossTrades = if profit > 0 then p.lossTrades else p.lossTrades + 1)
    (h5 : p'.totalProfit = p.totalProfit + profit) : StatsMatchLog p' := by
  unfold StatsMatchLog at h ⊢
  rw [h1, h2, h3, h4, h5, List.length_append, List.countP_append, List.countP_append,
    List.map_append, List.sum_append, ← h.1, ← h.2.1, ← h.2.2.1, ← h.2.2.2]
  simp only [List.length_singleton, List.countP_cons, List.countP_nil, List.map_cons,
    List.map_nil, List.sum_cons, List.sum_nil, hp, Option.getD_some, add_zero, zero_add]
  by_cases hpos : profit > 0
  · have hpos' : 0 < profit := hpos
    simp [hpos, hpos']
  · have hpos' : ¬ 0 < profit := hpos
    simp [hpos, hpos']

theorem ultra_stats_sum {p : Portfolio} (h : StatsMatchLog p) :
    p.winTrades + p.lossTrades = p.totalTrades := by
  rw [h.1, h.2.1, h.2.2.1]
  exact countP_add_countP_not _ _

/-- A partial take-profit fires on a gain: with a positive entry price, `percentChange ≥ 0.5`
puts the price above the entry price. -/
theorem price_above_entry_of_percentChange (x e : ℚ) (he : 0 < e)
    (h : percentChange x e ≥ 0.5) : 0 < x - e := by
  unfold percentChange at h
  have h1 : 0 < (x - e) / e := by linarith
  have h2 := (lt_div_iff₀ he).mp h1
  rw [zero_mul] at h2
  exact h2

theorem ultra_run_stats (ticks : List Tick) (hticks : ∀ tick ∈ ticks, 0 < tick.candle.close)
    (b : Bot)
    (h : StatsMatchLog b.portfolio ∧ EntriesPositive b.portfolio.trades
      ∧ PartialsProfitable b.portfolio.trades) :
    StatsMatchLog (run b ticks).portfolio ∧ EntriesPositive (run b ticks).portfolio.trades
      ∧ PartialsProfitable (run b ticks).portfolio.trades := by
  refine ultra_run_induct (fun x => 0 < x)
    (fun s => StatsMatchLog s.portfolio ∧ EntriesPositive s.portfolio.trades
      ∧ PartialsProfitable s.portfolio.trades)
    ?_ ?_ ?_ ?_ ?_ ?_ ticks hticks b h
  · intro s pair candle _ hs; exact hs
  · intro s pair x t sl _ _ hs
    refine ⟨?_, ?_, ?_⟩
    · exact ultra_stats_exit hs.1 _
        ((x - t.entryPrice) * (jsGet s.portfolio.positions pair).getD 0) rfl
        (ultra_exits_append_exit s.portfolio.trades _ rfl) rfl rfl rfl rfl
    · intro t1 ht1 hb1
      have ht1' : t1 ∈ s.portfolio.trades ++ [_] := ht1
      rw [List.mem_append, List.mem_singleton] at ht1'
      rcases ht1' with h1 | h1
      · exact hs.2.1 t1 h1 hb1
      · rw [h1] at hb1; cases hb1
    · intro t1 ht1 hp1
      have ht1' : t1 ∈ s.portfolio.trades ++ [_] := ht1
      rw [List.mem_append, List.mem_singleton] at ht1'
      rcases ht1' with h1 | h1
      · exact hs.2.2 t1 h1 hp1
      · rw [h1] at hp1; cases hp1
  · intro s idx ot m hot hbuy hs
    refine ⟨?_, ?_, ?_⟩
    · exact ultra_stats_keep hs.1 (ultra_exits_modify _ _ idx ot hot hbuy hbuy) rfl rfl rfl rfl
    · intro t1 ht1 hb1
      rcases mem_modify_cases _ _ _ _ ht1 with h1 | ⟨a0, ha0, h1⟩
      · exact hs.2.1 t1 h1 hb1
      · rw [h1] at hb1 ⊢
        exact hs.2.1 a0 ha0 hb1
    · intro t1 ht1 hp1
      rcases mem_modify_cases _ _ _ _ ht1 with h1 | ⟨a0, ha0, h1⟩
      · exact hs.2.2 t1 h1 hp1
      · rw [h1] at hp1 ⊢
        exact hs.2.2 a0 ha0 hp1
  · intro s pair x idx ot hx hot hbuy _ hopen hs
    rcases partialLevelStep_outcome pair x ot.entryPrice (percentChange x ot.entryPrice) idx s
      { level := 0.5, percentage := 0.3 } ot hot with heq | ⟨hpc, _, heq⟩
    · rw [heq]; exact hs
    · have he : 0 < ot.entryPrice := hs.2.1 ot (List.mem_iff_getElem?.mpr ⟨idx, hot⟩) hbuy
      obtain ⟨held, hheld, hpos⟩ := noOpenPosition_eq_false hopen
      have hgain := price_above_entry_of_percentChange x ot.entryPrice he hpc
      have hprofit : (x - ot.entryPrice) * ((jsGet s.portfolio.positions pair).getD 0 * 0.3)
          > 0 := by
        rw [hheld]
        exact mul_pos hgain (mul_pos hpos (by norm_num))
      rw [heq]
      refine ⟨?_, ?_, ?_⟩
      · refine ultra_stats_exit hs.1
          { ot with
            action := Action.SELL,
            exitPrice := some x,
            quantity := (jsGet s.portfolio.positions pair).getD 0 * 0.3,
            closedAt := true,
            isPartial := true,
            profit := some ((x - ot.entryPrice)
              * ((jsGet s.portfolio.positions pair).getD 0 * 0.3)),
            closedLevels := some [0.5] }
          ((x - ot.entryPrice) * ((jsGet s.portfolio.positions pair).getD 0 * 0.3)) rfl
          ?_ rfl rfl ?_ rfl
        · show exits (s.portfolio.trades.modify _ idx ++ [_]) = _
          rw [ultra_exits_append_exit _ _ rfl,
            ultra_exits_modify _ _ idx ot hot hbuy hbuy]
        · show s.portfolio.lossTrades = _
          rw [if_pos hprofit]
      · intro t1 ht1 hb1
        have ht1' : t1 ∈ s.portfolio.trades.modify
            (fun t => { t with closedLevels := some [(0.5 : ℚ)] }) idx ++ [_] := ht1
        rw [List.mem_append, List.mem_singleton] at ht1'
        rcases ht1' with h1 | h1
        · rcases mem_modify_cases _ _ _ _ h1 with h2 | ⟨a0, ha0, h2⟩
          · exact hs.2.1 t1 h2 hb1
          · rw [h2] at hb1 ⊢
            exact hs.2.1 a0 ha0 hb1
        · rw [h1] at hb1; cases hb1
      · intro t1 ht1 hp1
        have ht1' : t1 ∈ s.portfolio.trades.modify
            (fun t => { t with closedLevels := some [(0.5 : ℚ)] }) idx ++ [_] := ht1
        rw [List.mem_append, List.mem_singleton] at ht1'
        rcases ht1' with h1 | h1
        · rcases mem_modify_cases _ _ _ _ h1 with h2 | ⟨a0, ha0, h2⟩
          · exact hs.2.2 t1 h2 hp1
          · rw [h2] at hp1 ⊢
            exact hs.2.2 a0 ha0 hp1
        · rw [h1]
          exact hprofit
  · intro s r hs; exact hs
  · intro s pair signal x hx hs
    rcases ultra_executeTrade_outcome s pair signal x with heq | ⟨_, _, heq⟩ |
      ⟨_, _, profit, t, hsell, hprofit, hpart, _, heq⟩
    · rw [heq]; exact hs
    · rw [heq]
      refine ⟨?_, ?_, ?_⟩
      · exact ultra_stats_keep hs.1 (ultra_exits_append_entry s.portfolio.trades _ rfl)
          rfl rfl rfl rfl
      · intro t1 ht1 hb1
        have ht1' : t1 ∈ s.portfolio.trades ++ [_] := ht1
        rw [List.mem_append, List.mem_singleton] at ht1'
        rcases ht1' with h1 | h1
        · exact hs.2.1 t1 h1 hb1
        · rw [h1]; exact hx
      · intro t1 ht1 hp1
        have ht1' : t1 ∈ s.portfolio.trades ++ [_] := ht1
        rw [List.mem_append, List.mem_singleton] at ht1'
        rcases ht1' with h1 | h1
        · exact hs.2.2 t1 h1 hp1
        · rw [h1] at hp1; cases hp1
    · rw [heq]
      refine ⟨?_, ?_, ?_⟩
      · exact ultra_stats_exit hs.1 t profit hprofit
          (ultra_exits_append_exit s.portfolio.trades t hsell) rfl rfl rfl rfl
      · intro t1 ht1 hb1
        have ht1' : t1 ∈ s.portfolio.trades ++ [t] := ht1
        rw [List.mem_append, List.mem_singleton] at ht1'
        rcases ht1' with h1 | h1
        · exact hs.2.1 t1 h1 hb1
        · rw [h1, hsell] at hb1; cases hb1
      · intro t1 ht1 hp1
        have ht1' : t1 ∈ s.portfolio.trades ++ [t] := ht1
        rw [List.mem_append, List.mem_singleton] at ht1'
        rcases ht1' with h1 | h1
        · exact hs.2.2 t1 h1 hp1
        · rw [h1, hpart] at hp1; cases hp1

end UltraTradingBot
/-- C21. In every run from the initial state (for the ultra bot: ticks with positive close
prices, any answers of the signal engine) the statistics are those of the exit records of the
trade log: `totalTrades` is the number of SELL records (full and partial), `winTrades` the number
of those with `profit > 0`, `lossTrades` the number of the others (`profit = 0` included) and
`totalProfit` the sum of their profits; hence `winTrades + lossTrades = totalTrades`.  A partial
close of the ultra bot always has a positive profit, so it is always counted as a win. -/
theorem exit_statistics_match_the_exit_records (initialCapital : ℚ) (tradingPairs : List Pair)
    (paperTicks : List (Pair × Candle)) (ultraTicks : List UltraTradingBot.Tick)
    (hultra : ∀ tick ∈ ultraTicks, 0 < tick.candle.close) :
    PaperTradingBot.StatsMatchLog
      (PaperTradingBot.run (PaperTradingBot.new initialCapital) paperTicks).portfolio ∧
    (PaperTradingBot.run (PaperTradingBot.new initialCapital) paperTicks).portfolio.winTrades
      + (PaperTradingBot.run (PaperTradingBot.new initialCapital) paperTicks).portfolio.lossTrades
      = (PaperTradingBot.run (PaperTradingBot.new initialCapital)
          paperTicks).portfolio.totalTrades ∧
    UltraTradingBot.StatsMatchLog
      (UltraTradingBot.run (UltraTradingBot.new initialCapital tradingPairs)
        ultraTicks).portfolio ∧
    (UltraTradingBot.run (UltraTradingBot.new initialCapital tradingPairs)
        ultraTicks).portfolio.winTrades
      + (UltraTradingBot.run (UltraTradingBot.new initialCapital tradingPairs)
        ultraTicks).portfolio.lossTrades
      = (UltraTradingBot.run (UltraTradingBot.new initialCapital tradingPairs)
        ultraTicks).portfolio.totalTrades ∧
    UltraTradingBot.PartialsProfitable
      (UltraTradingBot.run (UltraTradingBot.new initialCapital tradingPairs)
        ultraTicks).portfolio.trades := by
  have hp : PaperTradingBot.StatsMatchLog
      (PaperTradingBot.run (PaperTradingBot.new initialCapital) paperTicks).portfolio :=
    PaperTradingBot.paper_run_stats paperTicks (PaperTradingBot.LedgerConsistent.new initialCapital)
      ⟨rfl, rfl, rfl, rfl⟩
  have hu := UltraTradingBot.ultra_run_stats ultraTicks hultra
    (UltraTradingBot.new initialCapital tradingPairs)
    (And.intro ⟨rfl, rfl, rfl, rfl⟩
      (And.intro (fun t ht _ => by cases ht) (fun t ht _ => by cases ht)))
  exact ⟨hp, PaperTradingBot.paper_stats_sum hp, hu.1, UltraTradingBot.ultra_stats_sum hu.1,
    hu.2.2⟩

/-- Witness for C21: the paper bot after a BUY and the take-profit SELL at 104; the ultra bot
after a BUY, a partial close at 110 and the stop-loss at 99 (one win and one loss). -/
theorem exit_statistics_match_the_exit_records_witness :
    (PaperTradingBot.run (PaperTradingBot.new 10000)
        (PaperTradingBot.fallingThenBuy
          ++ [("BTCUSDT", PaperTradingBot.candle 99 104)])).portfolio.winTrades
      + (PaperTradingBot.run (PaperTradingBot.new 10000)
        (PaperTradingBot.fallingThenBuy
          ++ [("BTCUSDT", PaperTradingBot.candle 99 104)])).portfolio.lossTrades
      = (PaperTradingBot.run (PaperTradingBot.new 10000)
        (PaperTradingBot.fallingThenBuy
          ++ [("BTCUSDT", PaperTradingBot.candle 99 104)])).portfolio.totalTrades ∧
    (UltraTradingBot.run (UltraTradingBot.new 10000 ["BTCUSDT"])
        [UltraTradingBot.buyTick, UltraTradingBot.holdTick 110,
         UltraTradingBot.holdTick 99]).portfolio.winTrades
      + (UltraTradingBot.run (UltraTradingBot.new 10000 ["BTCUSDT"])
        [UltraTradingBot.buyTick, UltraTradingBot.holdTick 110,
         UltraTradingBot.holdTick 99]).portfolio.lossTrades
      = (UltraTradingBot.run (UltraTradingBot.new 10000 ["BTCUSDT"])
        [UltraTradingBot.buyTick, UltraTradingBot.holdTick 110,
         UltraTradingBot.holdTick 99]).portfolio.totalTrades ∧
    (UltraTradingBot.run (UltraTradingBot.new 10000 ["BTCUSDT"])
        [UltraTradingBot.buyTick, UltraTradingBot.holdTick 110,
         UltraTradingBot.holdTick 99]).portfolio.totalTrades = 2 :=
  have h := exit_statistics_match_the_exit_records 10000 ["BTCUSDT"]
    (PaperTradingBot.fallingThenBuy ++ [("BTCUSDT", PaperTradingBot.candle 99 104)])
    [UltraTradingBot.buyTick, UltraTradingBot.holdTick 110, UltraTradingBot.holdTick 99]
    (by decide!)
  ⟨h.2.1, h.2.2.2.1, by decide!⟩

end Trading
